import Mathlib

/-!
Pinos client port graph (pinos/client/port.c)

A shallow embedding of the port graph of `pinos/client/port.c`: the peer
lists, the `linked` veto signal, format propagation on link, control buffer
parsing and the delivery of buffers to a port and to its peers.

Ports are heap objects in the source; here a port is named by a natural
number and the heap is a total map from names to port records.  User code
that the library calls back (signal handlers, the received-buffer callback)
and system calls are taken from an environment `Env`; every call out of the
library is recorded in an event log, in program order.
-/

namespace Pinos

/-! ## Data model -/

/-- The enum `PinosDirection`. -/
inductive PinosDirection
  | PINOS_DIRECTION_INVALID
  | PINOS_DIRECTION_INPUT
  | PINOS_DIRECTION_OUTPUT
  deriving DecidableEq, Repr

open PinosDirection

/-- A port is named by its address. -/
abbrev PortId := Nat

/-- The constant `G_MAXUINT` of a 32 bit `guint`. -/
def G_MAXUINT : Nat := 2 ^ 32 - 1

/-- The struct `PinosPacketFormatChange`: an id and a format string. -/
structure PinosPacketFormatChange where
  id : Nat
  format : String
  deriving DecidableEq, Repr

/-- Modelled from the spec: the packets of a buffer as `pinos_buffer_iter_next`
walks them (buffer.c is not part of the sources). A packet of type
`PINOS_PACKET_TYPE_FORMAT_CHANGE` either parses to a `FormatChange{id, format}`
or does not parse; every other packet type is unknown to the port. -/
inductive Packet
  | format_change (change : PinosPacketFormatChange)
  | malformed_format_change
  | other (type : Nat)
  deriving DecidableEq, Repr

/-- Modelled from the spec: the flag `PINOS_BUFFER_FLAG_CONTROL` of the buffer
header (buffer.h is not part of the sources). -/
def PINOS_BUFFER_FLAG_CONTROL : Nat := 1

/-- A `PinosBuffer`: the header flags, the packets of the payload, the fds. -/
structure PinosBuffer where
  flags : Nat
  packets : List Packet
  fds : List Int
  deriving DecidableEq, Repr

/-- The call `pinos_buffer_get_flags (buffer) & PINOS_BUFFER_FLAG_CONTROL`. -/
def PinosBuffer.is_control (buffer : PinosBuffer) : Bool :=
  buffer.flags &&& PINOS_BUFFER_FLAG_CONTROL != 0

/-- Modelled from the spec: `pinos_buffer_iter_parse_format_change`, which
fills a `PinosPacketFormatChange` and reports whether the packet parsed. -/
def pinos_buffer_iter_parse_format_change : Packet → Option PinosPacketFormatChange
  | .format_change change => some change
  | _ => none

/-- Whether `pinos_buffer_iter_get_type` is `PINOS_PACKET_TYPE_FORMAT_CHANGE`. -/
def Packet.is_format_change : Packet → Bool
  | .format_change _ => true
  | .malformed_format_change => true
  | .other _ => false

/-- The codes of `GIOErrorEnum` that the port code names, and the codes that
`g_io_error_from_errno` derives from an errno. -/
inductive GIOErrorEnum
  | G_IO_ERROR_NOT_FOUND
  | G_IO_ERROR_INVALID_ARGUMENT
  | G_IO_ERROR_BUSY
  | G_IO_ERROR_CLOSED
  | from_errno (errno : Nat)
  deriving DecidableEq, Repr

/-- A `GError` of domain `G_IO_ERROR`. -/
structure GError where
  code : GIOErrorEnum
  message : String
  deriving DecidableEq, Repr

/-- The fields of `struct _PinosPortPrivate` that the port graph reads or
writes. `sockets0` and `sockets1` say whether `sockets[0]` and `sockets[1]`
are non-NULL, `received_buffer_cb` whether a callback is installed. -/
structure Port where
  direction : PinosDirection
  sockets0 : Bool
  sockets1 : Bool
  format : Option String
  buffer : Option PinosBuffer
  peers : List PortId
  peer_paths : List String
  max_peers : Nat
  received_buffer_cb : Bool
  deriving DecidableEq, Repr

/-- The heap of ports. -/
abbrev World := PortId → Port

/-- Write one port record. -/
def setPort (w : World) (p : PortId) (v : Port) : World :=
  fun q => if q = p then v else w q

/-- The assignment `priv->format = ...` on a port. -/
def set_format (w : World) (port : PortId) (format : Option String) : World :=
  setPort w port { w port with format := format }

/-- The assignment `priv->buffer = ...` on a port. -/
def set_buffer (w : World) (port : PortId) (buffer : Option PinosBuffer) : World :=
  setPort w port { w port with buffer := buffer }

/-- The call `g_ptr_array_add (port->priv->peers, peer)`: append at the end. -/
def g_ptr_array_add (w : World) (port peer : PortId) : World :=
  setPort w port { w port with peers := (w port).peers ++ [peer] }

/-- The call `g_ptr_array_remove (port->priv->peers, peer)`: the first
occurrence is removed, the order of the rest is kept. -/
def g_ptr_array_remove (w : World) (port peer : PortId) : World :=
  setPort w port { w port with peers := (w port).peers.erase peer }

/-- What the library calls out to, in program order: an emission of `linked`
or `unlinked` on a port with its peer, `g_object_notify (port, "format")`, a
buffer that passed the queue check of `pinos_port_receive_buffer` (its trace
point "receive buffer"), a call of `write_buffer`, a call of the
received-buffer callback with the buffer at hand and with what
`pinos_port_peek_buffer` gives at that moment, and a `g_warning`. -/
inductive Event
  | signal_linked (port peer : PortId)
  | signal_unlinked (port peer : PortId)
  | notify_format (port : PortId)
  | receive_buffer (port : PortId) (buffer : PinosBuffer)
  | write_buffer (port : PortId) (buffer : PinosBuffer)
  | received_buffer_cb (port : PortId) (buffer : PinosBuffer) (peek : Option PinosBuffer)
  | warning (port : PortId) (message : String)
  deriving DecidableEq, Repr

/-- How the system calls of `pinos_port_get_socket_pair` end: both sockets
made, `socketpair` failed, or `g_socket_new_from_fd` failed. -/
inductive SocketPairOutcome
  | ok
  | no_sockets
  | create_failed
  deriving DecidableEq, Repr

/-- The values of `GIOCondition` that `on_socket_condition` tells apart. -/
inductive GIOCondition
  | G_IO_IN
  | G_IO_OUT
  | other
  deriving DecidableEq, Repr

/-- The environment of the library: the user handlers connected to the
`linked` signal of each port (before and after the class handler, each a
function of the peer offered), the outcome of the `sendmsg` retry loop on a
port (the errno of a failure, if any), the outcome of `read_buffer` on a port,
the `object-path` property of a port and the outcome of making a socket
pair for a port. -/
structure Env where
  linked_handlers : PortId → List (PortId → Bool)
  linked_handlers_after : PortId → List (PortId → Bool)
  sendmsg : PortId → PinosBuffer → Option Nat
  recvmsg : PortId → Except Nat PinosBuffer
  object_path : PortId → String
  socketpair : PortId → SocketPairOutcome

/-- The result of a call: the return value, the error reported through the
`GError **` argument, the heap after the call and the calls made out of the
library. -/
structure Out where
  res : Bool
  error : Option GError
  ports : World
  log : List Event

/-! ## Control buffers -/

/-- The loop body of `parse_control_buffer` over the packets of the buffer. -/
def parse_control_packets (port : PortId) : List Packet → World → World × List Event
  | [], w => (w, [])
  | pk :: rest, w =>
    if pk.is_format_change then
      match pinos_buffer_iter_parse_format_change pk with
      | none => parse_control_packets port rest w
      | some change =>
        let w1 := set_format w port (some change.format)
        let r := parse_control_packets port rest w1
        (r.1, Event.notify_format port :: r.2)
    else parse_control_packets port rest w

/-- The function `parse_control_buffer`. -/
def parse_control_buffer (w : World) (port : PortId) (buffer : PinosBuffer) :
    World × List Event :=
  parse_control_packets port buffer.packets w

/-! ## Transport, seen from the graph -/

/-- The function `write_buffer`: the `sendmsg` loop either sends the frame or
fails with an errno other than `EINTR`. -/
def write_buffer (env : Env) (port : PortId) (buffer : PinosBuffer) : Bool × Option GError :=
  match env.sendmsg port buffer with
  | none => (true, none)
  | some errno => (false, some ⟨GIOErrorEnum.from_errno errno, "could not sendmsg"⟩)

/-- The function `read_buffer`, by its outcome. -/
def read_buffer (env : Env) (port : PortId) : Except GError PinosBuffer :=
  match env.recvmsg port with
  | .ok buffer => .ok buffer
  | .error errno => .error ⟨GIOErrorEnum.from_errno errno, "could not recvmsg"⟩

/-- The function `pinos_port_peek_buffer`. -/
def pinos_port_peek_buffer (w : World) (port : PortId) : Option PinosBuffer :=
  (w port).buffer

/-- The statement `if (flags & PINOS_BUFFER_FLAG_CONTROL) parse_control_buffer
(port, buffer)` that opens every delivery. -/
def parse_if_control (w : World) (port : PortId) (buffer : PinosBuffer) :
    World × List Event :=
  if buffer.is_control then parse_control_buffer w port buffer else (w, [])

/-- The statements `priv->buffer = buffer; if (cb) cb (port, data);
priv->buffer = NULL;` of `pinos_port_receive_buffer`, for a callback that
makes no call into the library: the call is recorded and the heap is left as
it is. `Reentrant.deliver_to_callback` runs a callback that acts on the heap. -/
def deliver_to_callback (w : World) (port : PortId) (buffer : PinosBuffer) :
    World × List Event :=
  let w2 := set_buffer w port (some buffer)
  let cb := if (w2 port).received_buffer_cb then
    [Event.received_buffer_cb port buffer (pinos_port_peek_buffer w2 port)] else []
  (set_buffer w2 port none, cb)

/-- The function `pinos_port_receive_buffer`. -/
def pinos_port_receive_buffer (env : Env) (w : World) (port : PortId)
    (buffer : PinosBuffer) : Out :=
  if (w port).buffer.isSome then
    ⟨false, some ⟨GIOErrorEnum.G_IO_ERROR_NOT_FOUND, "buffer was already queued on port"⟩, w, []⟩
  else
    let p1 := parse_if_control w port buffer
    if (p1.1 port).sockets0 then
      let r := write_buffer env port buffer
      ⟨r.1, r.2, p1.1, Event.receive_buffer port buffer :: p1.2 ++ [Event.write_buffer port buffer]⟩
    else
      let d := deliver_to_callback p1.1 port buffer
      ⟨true, none, d.1, Event.receive_buffer port buffer :: p1.2 ++ d.2⟩

/-! ## The port graph -/

/-- The function `update_peer_paths`: the `peers` property is set to the
object paths of the peers. -/
def update_peer_paths (env : Env) (w : World) (port : PortId) : World :=
  setPort w port { w port with peer_paths := (w port).peers.map env.object_path }

/-- The class handler `signal_linked_handler`. -/
def signal_linked_handler (_port : PortId) (_peer : PortId) : Bool := true

/-- The accumulator `signal_linked_accum`: the new accumulated value and
whether the emission goes on. -/
def signal_linked_accum (handler_return : Bool) : Bool × Bool :=
  if !handler_return then (false, false) else (true, true)

/-- The emission of a signal with `signal_linked_accum` over the handlers
still to run, for handlers that only vote. `Reentrant.emit_linked` runs
handlers that act on the heap as well. -/
def emit_linked : List (PortId → Bool) → PortId → Bool → Bool
  | [], _, accu => accu
  | h :: rest, peer, _ =>
    let a := signal_linked_accum (h peer)
    if a.2 then emit_linked rest peer a.1 else a.1

/-- The handlers of the `linked` signal of a port in the order of a
`G_SIGNAL_RUN_LAST` emission. -/
def all_linked_handlers (env : Env) (port : PortId) : List (PortId → Bool) :=
  env.linked_handlers port ++ [signal_linked_handler port] ++ env.linked_handlers_after port

/-- The call `g_signal_emit (port, signals[SIGNAL_LINKED], 0, peer, &res)`. -/
def g_signal_emit_linked (env : Env) (port peer : PortId) (res : Bool) : Bool :=
  emit_linked (all_linked_handlers env port) peer res

/-- Modelled from the spec: the buffer that `pinos_port_buffer_builder_init`,
`pinos_buffer_builder_add_format_change` and `pinos_buffer_builder_end` build
in `pinos_port_link` (buffer.c is not part of the sources): a control buffer
with the one packet `FormatChange{id, format}`. -/
def format_change_buffer (fc : PinosPacketFormatChange) : PinosBuffer :=
  { flags := PINOS_BUFFER_FLAG_CONTROL, packets := [Packet.format_change fc], fds := [] }

/-- The function `pinos_port_link`. -/
def pinos_port_link (env : Env) (w : World) (source destination : PortId) : Out :=
  if (w source).direction = (w destination).direction then ⟨false, none, w, []⟩
  else if (w source).peers.length ≥ (w source).max_peers then ⟨false, none, w, []⟩
  else if (w destination).peers.length ≥ (w destination).max_peers then ⟨false, none, w, []⟩
  else
    let swap := (w source).direction ≠ PINOS_DIRECTION_OUTPUT
    let src := if swap then destination else source
    let dst := if swap then source else destination
    let res := g_signal_emit_linked env src dst true
    if !res then ⟨false, none, w, [Event.signal_linked src dst]⟩
    else
      let res := g_signal_emit_linked env dst src res
      if !res then ⟨false, none, w, [Event.signal_linked src dst, Event.signal_linked dst src]⟩
      else
        let w1 := g_ptr_array_add w src dst
        let w2 := g_ptr_array_add w1 dst src
        let w3 := update_peer_paths env w2 src
        let w4 := update_peer_paths env w3 dst
        let ev := [Event.signal_linked src dst, Event.signal_linked dst src]
        match (w4 src).format with
        | none => ⟨true, none, w4, ev⟩
        | some format =>
          let pbuf := format_change_buffer { id := 0, format := format }
          let r := pinos_port_receive_buffer env w4 dst pbuf
          let warn := if !r.res then [Event.warning dst "counld not receive format"] else []
          ⟨true, none, r.ports, ev ++ r.log ++ warn⟩

/-- The function `pinos_port_unlink`. -/
def pinos_port_unlink (env : Env) (w : World) (source destination : PortId) : Out :=
  let w1 := g_ptr_array_remove w source destination
  let w2 := g_ptr_array_remove w1 destination source
  let w3 := update_peer_paths env w2 source
  let w4 := update_peer_paths env w3 destination
  ⟨true, none, w4, [Event.signal_unlinked source destination,
    Event.signal_unlinked destination source]⟩

/-- The loop of `pinos_port_unlink_all` from index `i` on, for at most `fuel`
rounds. The array is read again in every round, as in the source; the slot
cleared by `g_ptr_array_index (priv->peers, i) = NULL` lies below the cursor
and is not read again. -/
def unlink_all_loop (port : PortId) : Nat → Nat → World → World × List Event
  | 0, _, w => (w, [])
  | fuel + 1, i, w =>
    match (w port).peers[i]? with
    | none => (w, [])
    | some peer =>
      let w1 := g_ptr_array_remove w peer port
      let r := unlink_all_loop port fuel (i + 1) w1
      (r.1, Event.signal_unlinked port peer :: Event.signal_unlinked peer port :: r.2)

/-- The function `pinos_port_unlink_all`. The array never grows in the loop,
so its length on entry bounds the number of rounds. -/
def pinos_port_unlink_all (w : World) (port : PortId) : World × List Event :=
  let r := unlink_all_loop port (w port).peers.length 0 w
  (setPort r.1 port { r.1 port with peers := [] }, r.2)

/-- The function `pinos_port_dispose`. -/
def pinos_port_dispose (w : World) (port : PortId) : World × List Event :=
  let w1 := if (w port).sockets0 then setPort w port { w port with sockets0 := false } else w
  let w2 := setPort w1 port { w1 port with sockets1 := false }
  pinos_port_unlink_all w2 port

/-- The call `g_set_error (error, ...)`: an error already stored is kept. -/
def g_set_error (error : Option GError) (e : Option GError) : Option GError :=
  match error with
  | some old => some old
  | none => e

/-- The loop of `pinos_port_send_buffer` over the peers. `res` is overwritten
in every round, `err` collects through `g_set_error`. The loop body leaves
every peer array as it is, so the peers are those read on entry. -/
def send_buffer_loop (env : Env) (buffer : PinosBuffer) :
    List PortId → World → Bool → Option GError → Out
  | [], w, res, err => ⟨res, err, w, []⟩
  | peer :: rest, w, _, err =>
    let r := pinos_port_receive_buffer env w peer buffer
    let t := send_buffer_loop env buffer rest r.ports r.res (g_set_error err r.error)
    ⟨t.res, t.error, t.ports, r.log ++ t.log⟩

/-- The function `pinos_port_send_buffer`. -/
def pinos_port_send_buffer (env : Env) (w : World) (port : PortId)
    (buffer : PinosBuffer) : Out :=
  let p1 := parse_if_control w port buffer
  let wr := if (p1.1 port).sockets0 then write_buffer env port buffer else (true, none)
  let ev := if (p1.1 port).sockets0 then [Event.write_buffer port buffer] else []
  let t := send_buffer_loop env buffer (p1.1 port).peers p1.1 wr.1 wr.2
  ⟨t.res, if !t.res then t.error else none, t.ports, p1.2 ++ ev ++ t.log⟩

/-- The loop of `on_socket_condition` over the peers. -/
def socket_condition_loop (env : Env) (buffer : PinosBuffer) :
    List PortId → World → World × List Event
  | [], w => (w, [])
  | peer :: rest, w =>
    let r := pinos_port_receive_buffer env w peer buffer
    let warn := if !r.res then [Event.warning peer "failed to receive buffer"] else []
    let t := socket_condition_loop env buffer rest r.ports
    (t.1, r.log ++ warn ++ t.2)

/-- The statement `if (priv->received_buffer_cb) { priv->buffer = buffer;
cb (port, data); priv->buffer = NULL; }` of `on_socket_condition`, for a
callback that makes no call into the library. `Reentrant.notify_buffer` runs a
callback that acts on the heap. -/
def notify_buffer (w : World) (port : PortId) (buffer : PinosBuffer) : World × List Event :=
  if (w port).received_buffer_cb then
    let w2 := set_buffer w port (some buffer)
    (set_buffer w2 port none,
      [Event.received_buffer_cb port buffer (pinos_port_peek_buffer w2 port)])
  else (w, [])

/-- The function `on_socket_condition`. It returns `TRUE` on every path. -/
def on_socket_condition (env : Env) (w : World) (port : PortId)
    (condition : GIOCondition) : Out :=
  match condition with
  | .G_IO_IN =>
    match read_buffer env port with
    | .error _ => ⟨true, none, w, [Event.warning port "failed to read buffer"]⟩
    | .ok buffer =>
      let p1 := parse_if_control w port buffer
      let c := notify_buffer p1.1 port buffer
      let t := socket_condition_loop env buffer (c.1 port).peers c.1
      ⟨true, none, t.1, p1.2 ++ c.2 ++ t.2⟩
  | .G_IO_OUT => ⟨true, none, w, [Event.warning port "can do IO OUT"]⟩
  | .other => ⟨true, none, w, []⟩

/-- The function `pinos_port_get_socket_pair`, as far as the port record goes. -/
def pinos_port_get_socket_pair (env : Env) (w : World) (port : PortId) : World :=
  if (w port).sockets1 then w
  else
    match env.socketpair port with
    | .ok => setPort w port { w port with sockets0 := true, sockets1 := true }
    | .no_sockets => w
    | .create_failed => setPort w port { w port with sockets0 := false, sockets1 := false }

/-- The function `pinos_port_set_received_buffer_cb`. -/
def pinos_port_set_received_buffer_cb (w : World) (port : PortId) (cb : Bool) : World :=
  setPort w port { w port with received_buffer_cb := cb }

/-- The case `PROP_MAX_PEERS` of `pinos_port_set_property`. -/
def pinos_port_set_property_max_peers (w : World) (port : PortId) (value : Nat) : World :=
  setPort w port { w port with max_peers := value }

/-- A write of the `max-peers` property through `g_object_set`: the param spec
admits the values from 1 to `G_MAXUINT`, any other value is refused. -/
def g_object_set_max_peers (w : World) (port : PortId) (value : Nat) : World :=
  if 1 ≤ value ∧ value ≤ G_MAXUINT then pinos_port_set_property_max_peers w port value else w

/-- The case `PROP_PEERS` of `pinos_port_set_property`. -/
def pinos_port_set_property_peers (w : World) (port : PortId) (paths : List String) : World :=
  setPort w port { w port with peer_paths := paths }

/-- The construct-only properties a port is made with. -/
structure PortConfig where
  direction : PinosDirection
  socket : Bool
  format : Option String
  deriving DecidableEq, Repr

/-- The function `pinos_port_init` followed by the construct properties: the
private struct is zeroed, the direction is invalid unless given, the peer
array is empty. -/
def pinos_port_init (cfg : PortConfig) : Port :=
  { direction := cfg.direction, sockets0 := cfg.socket, sockets1 := false,
    format := cfg.format, buffer := none, peers := [], peer_paths := [],
    max_peers := 0, received_buffer_cb := false }

/-- The function `pinos_port_constructed`. -/
def pinos_port_constructed (port : Port) : Port :=
  if port.direction = PINOS_DIRECTION_OUTPUT then { port with max_peers := G_MAXUINT }
  else { port with max_peers := 1 }

/-- A freshly constructed port. -/
def pinos_port_new (cfg : PortConfig) : Port :=
  pinos_port_constructed (pinos_port_init cfg)

/-! ## Runs of the port graph -/

/-- The operations on the port graph. -/
inductive Op
  | link (source destination : PortId)
  | unlink (source destination : PortId)
  | dispose (port : PortId)
  | set_max_peers (port : PortId) (value : Nat)
  | set_peers (port : PortId) (paths : List String)
  | set_received_buffer_cb (port : PortId) (cb : Bool)
  | get_socket_pair (port : PortId)
  | send_buffer (port : PortId) (buffer : PinosBuffer)
  | receive_buffer (port : PortId) (buffer : PinosBuffer)
  | socket_condition (port : PortId) (condition : GIOCondition)
  deriving DecidableEq, Repr

/-- The heap after one operation. -/
def step (env : Env) (w : World) : Op → World
  | .link source destination => (pinos_port_link env w source destination).ports
  | .unlink source destination => (pinos_port_unlink env w source destination).ports
  | .dispose port => (pinos_port_dispose w port).1
  | .set_max_peers port value => g_object_set_max_peers w port value
  | .set_peers port paths => pinos_port_set_property_peers w port paths
  | .set_received_buffer_cb port cb => pinos_port_set_received_buffer_cb w port cb
  | .get_socket_pair port => pinos_port_get_socket_pair env w port
  | .send_buffer port buffer => (pinos_port_send_buffer env w port buffer).ports
  | .receive_buffer port buffer => (pinos_port_receive_buffer env w port buffer).ports
  | .socket_condition port condition => (on_socket_condition env w port condition).ports

/-- The calls out of the library during one operation. -/
def step_log (env : Env) (w : World) : Op → List Event
  | .link source destination => (pinos_port_link env w source destination).log
  | .unlink source destination => (pinos_port_unlink env w source destination).log
  | .dispose port => (pinos_port_dispose w port).2
  | .send_buffer port buffer => (pinos_port_send_buffer env w port buffer).log
  | .receive_buffer port buffer => (pinos_port_receive_buffer env w port buffer).log
  | .socket_condition port condition => (on_socket_condition env w port condition).log
  | _ => []

/-- The heap of freshly constructed ports. -/
def init_world (cfg : PortId → PortConfig) : World :=
  fun p => pinos_port_new (cfg p)

/-- The heaps reached from freshly constructed ports by operations that `ok`
admits in the state they start from; the environment may differ from one
operation to the next. -/
inductive ReachableBy (ok : World → Op → Prop) (cfg : PortId → PortConfig) : World → Prop
  | init : ReachableBy ok cfg (init_world cfg)
  | step (env : Env) (w : World) (op : Op) :
      ReachableBy ok cfg w → ok w op → ReachableBy ok cfg (step env w op)

/-- The heaps reached by any operations. -/
def Reachable (cfg : PortId → PortConfig) (w : World) : Prop :=
  ReachableBy (fun _ _ => True) cfg w

/-- The heap after a list of operations under one environment. -/
def run (env : Env) (w : World) : List Op → World
  | [] => w
  | op :: ops => run env (step env w op) ops

/-- Every operation of the list is admitted in the state it starts from. -/
def admitted (ok : World → Op → Prop) (env : Env) (w : World) : List Op → Prop
  | [] => True
  | op :: ops => ok w op ∧ admitted ok env (step env w op) ops

/-- The operations `pinos_port_link`, `pinos_port_unlink` and disposal. -/
def is_graph_op (_w : World) : Op → Prop
  | .link _ _ => True
  | .unlink _ _ => True
  | .dispose _ => True
  | _ => False

/-- Every operation, a write of `max-peers` only with a value that is not
below the number of peers the port has. -/
def keeps_peer_limit (w : World) : Op → Prop
  | .set_max_peers port value => (w port).peers.length ≤ value
  | _ => True

/-- During a received-buffer callback `pinos_port_peek_buffer` gives the
buffer that is being delivered. -/
def Event.peek_ok : Event → Prop
  | .received_buffer_cb _ buffer peek => peek = some buffer
  | _ => True

/-! ## Example ports -/

/-- An environment with no user handlers, in which every system call succeeds
and no frame arrives on a socket. -/
def env0 : Env :=
  { linked_handlers := fun _ => [], linked_handlers_after := fun _ => [],
    sendmsg := fun _ _ => none, recvmsg := fun _ => .error 11,
    object_path := fun _ => "", socketpair := fun _ => .ok }

/-- As `env0`, with a handler on the `linked` signal of port 1 that refuses
every peer. -/
def env_veto : Env :=
  { env0 with linked_handlers := fun p => if p = 1 then [fun _ => false] else [] }

/-- Port 0 is an output with format "v", port 3 an output without format,
every other port an input; no port has a socket. -/
def cfg0 : PortId → PortConfig :=
  fun p => if p = 0 then ⟨PINOS_DIRECTION_OUTPUT, false, some "v"⟩
    else if p = 3 then ⟨PINOS_DIRECTION_OUTPUT, false, none⟩
    else ⟨PINOS_DIRECTION_INPUT, false, none⟩

/-- Links, an unlink and a disposal. -/
def ops_graph : List Op :=
  [.link 0 1, .link 2 0, .unlink 0 1, .link 3 1, .dispose 3]

/-- Port 0 gets two peers and its limit is then written to two. -/
def ops_limit : List Op :=
  [.link 0 1, .link 0 2, .set_max_peers 0 2]

/-- Port 0 gets two peers and its limit is then written to one. -/
def ops_over_limit : List Op :=
  [.link 0 1, .link 0 2, .set_max_peers 0 1]

/-- The limit of the input port 1 is raised to two, then port 0 is linked to
port 1 and to port 2. -/
def ops_two_links : List Op :=
  [.set_max_peers 1 2, .link 0 1, .link 0 2]

/-- The buffers a port accepted in `pinos_port_receive_buffer`, in order. -/
def received_by (port : PortId) : List Event → List PinosBuffer
  | [] => []
  | .receive_buffer q buffer :: rest =>
    if q = port then buffer :: received_by port rest else received_by port rest
  | _ :: rest => received_by port rest

/-- The heap in which port 1 runs its received-buffer callback: the limit of
the input port 1 is two, it has a callback and the output port 3 as a peer,
and `pinos_port_send_buffer` on port 3 has come to the call of the callback
of port 1 in `pinos_port_receive_buffer`, after `priv->buffer = buffer`. -/
def world_in_callback : World :=
  set_buffer (run env0 (init_world cfg0)
    [.set_max_peers 1 2, .set_received_buffer_cb 1 true, .link 3 1]) 1
    (some { flags := 0, packets := [], fds := [] })

/-- Port 1 gets a callback and is linked to port 0. -/
def ops_callback : List Op :=
  [.set_received_buffer_cb 1 true, .link 0 1]

/-- A media buffer with no packets. -/
def buf0 : PinosBuffer := { flags := 0, packets := [], fds := [] }

/-! ## The fan-out loops as the source writes them -/

/-- The loop `for (i = 0; i < priv->peers->len; i++)` of
`pinos_port_send_buffer` from index `i` on, for at most `fuel` rounds, with
the peer array read again in every round. -/
def send_buffer_for (env : Env) (buffer : PinosBuffer) (port : PortId) :
    Nat → Nat → World → Bool → Option GError → Out
  | 0, _, w, res, err => ⟨res, err, w, []⟩
  | fuel + 1, i, w, res, err =>
    match (w port).peers[i]? with
    | none => ⟨res, err, w, []⟩
    | some peer =>
      let r := pinos_port_receive_buffer env w peer buffer
      let t := send_buffer_for env buffer port fuel (i + 1) r.ports r.res
        (g_set_error err r.error)
      ⟨t.res, t.error, t.ports, r.log ++ t.log⟩

/-- The loop `for (i = 0; i < priv->peers->len; i++)` of `on_socket_condition`
from index `i` on, for at most `fuel` rounds, with the peer array read again
in every round. -/
def socket_condition_for (env : Env) (buffer : PinosBuffer) (port : PortId) :
    Nat → Nat → World → World × List Event
  | 0, _, w => (w, [])
  | fuel + 1, i, w =>
    match (w port).peers[i]? with
    | none => (w, [])
    | some peer =>
      let r := pinos_port_receive_buffer env w peer buffer
      let warn := if !r.res then [Event.warning peer "failed to receive buffer"] else []
      let t := socket_condition_for env buffer port fuel (i + 1) r.ports
      (t.1, r.log ++ warn ++ t.2)

/-- The deliveries a log records: the port and the buffer of every buffer that
passed the queue check of `pinos_port_receive_buffer`, in order. -/
def deliveries : List Event → List (PortId × PinosBuffer)
  | [] => []
  | .receive_buffer q buffer :: rest => (q, buffer) :: deliveries rest
  | _ :: rest => deliveries rest

/-- The peers of a list that are not in the middle of a delivery. -/
def free_peers (w : World) (ps : List PortId) : List PortId :=
  ps.filter (fun q => (w q).buffer.isNone)

/-- The heap on entry to the loop over the peers in `on_socket_condition`,
after the control packets are parsed and the callback of the port has run. -/
def heap_at_fan_out (w : World) (port : PortId) (buffer : PinosBuffer) : World :=
  (notify_buffer (parse_if_control w port buffer).1 port buffer).1

/-- As `env0`, but `sendmsg` on the socket of port 1 fails with `EPIPE`, and
the frame `buf0` is read from the socket of port 0. -/
def env_epipe : Env :=
  { env0 with
    sendmsg := fun p _ => if p = 1 then some 32 else none,
    recvmsg := fun p => if p = 0 then .ok { flags := 0, packets := [], fds := [] }
      else .error 11 }

/-- Port 1 gets a socket pair, and port 0 is linked to the ports 1 and 2. -/
def ops_fan_out : List Op :=
  [.get_socket_pair 1, .link 0 1, .link 0 2]

/-! ## User code that calls back into the library

The handlers of `linked`, the handlers of the `format` notification and the
received-buffer callback are user code: they run in the middle of a library
call and may themselves call into the library. Here each of them acts on the
heap; the functions that run them are those of the sections above with the
user code run where the source runs it. The handlers of `unlinked` stay
events of the log. -/

namespace Reentrant

/-- What a piece of user code leaves behind when the library runs it: the heap
after the calls it made into the library, the calls out of the library during
them, and its return value (the vote of a handler of `linked`). -/
structure UserRun where
  ports : World
  log : List Event
  ret : Bool

/-- The user code connected to the ports: the handlers of `linked` connected
before and after the class handler, each a function of the peer offered and of
the heap it runs on, the handlers of `notify::format` of a port and the
received-buffer callback of a port, functions of the heap they run on. -/
structure UserCode where
  linked_handlers : PortId → List (PortId → World → UserRun)
  linked_handlers_after : PortId → List (PortId → World → UserRun)
  notify_format : PortId → World → UserRun
  received_buffer_cb : PortId → World → UserRun

/-- The user code made no call into the library: the heap is the one it ran
on, and nothing was called out of the library. -/
def UserRun.quiet (r : UserRun) (w : World) : Prop := r.ports = w ∧ r.log = []

/-- The received-buffer callback of a port makes no call into the library. -/
def UserCode.cb_quiet (user : UserCode) (port : PortId) : Prop :=
  ∀ w, (user.received_buffer_cb port w).quiet w

/-- The handlers of `notify::format` of a port make no call into the library. -/
def UserCode.notify_quiet (user : UserCode) (port : PortId) : Prop :=
  ∀ w, (user.notify_format port w).quiet w

/-- The loop body of `parse_control_buffer` over the packets of the buffer. -/
def parse_control_packets (user : UserCode) (port : PortId) :
    List Packet → World → World × List Event
  | [], w => (w, [])
  | pk :: rest, w =>
    if pk.is_format_change then
      match pinos_buffer_iter_parse_format_change pk with
      | none => parse_control_packets user port rest w
      | some change =>
        let w1 := set_format w port (some change.format)
        let n := user.notify_format port w1
        let r := parse_control_packets user port rest n.ports
        (r.1, Event.notify_format port :: n.log ++ r.2)
    else parse_control_packets user port rest w

/-- The function `parse_control_buffer`. -/
def parse_control_buffer (user : UserCode) (w : World) (port : PortId)
    (buffer : PinosBuffer) : World × List Event :=
  parse_control_packets user port buffer.packets w

/-- The statement `if (flags & PINOS_BUFFER_FLAG_CONTROL) parse_control_buffer
(port, buffer)` that opens every delivery. -/
def parse_if_control (user : UserCode) (w : World) (port : PortId)
    (buffer : PinosBuffer) : World × List Event :=
  if buffer.is_control then parse_control_buffer user w port buffer else (w, [])

/-- The class handler `signal_linked_handler`, run on a heap. -/
def signal_linked_handler (port : PortId) : PortId → World → UserRun :=
  fun peer w => ⟨w, [], Pinos.signal_linked_handler port peer⟩

/-- The emission of a signal with `signal_linked_accum` over the handlers
still to run, each on the heap the one before it left. -/
def emit_linked : List (PortId → World → UserRun) → PortId → Bool → World → UserRun
  | [], _, accu, w => ⟨w, [], accu⟩
  | h :: rest, peer, _, w =>
    let r := h peer w
    let a := signal_linked_accum r.ret
    if a.2 then
      let t := emit_linked rest peer a.1 r.ports
      ⟨t.ports, r.log ++ t.log, t.ret⟩
    else ⟨r.ports, r.log, a.1⟩

/-- The handlers of the `linked` signal of a port in the order of a
`G_SIGNAL_RUN_LAST` emission. -/
def all_linked_handlers (user : UserCode) (port : PortId) :
    List (PortId → World → UserRun) :=
  user.linked_handlers port ++ [signal_linked_handler port] ++ user.linked_handlers_after port

/-- The call `g_signal_emit (port, signals[SIGNAL_LINKED], 0, peer, &res)`. -/
def g_signal_emit_linked (user : UserCode) (port peer : PortId) (res : Bool) (w : World) :
    UserRun :=
  emit_linked (all_linked_handlers user port) peer res w

/-- The statements `priv->buffer = buffer; if (cb) cb (port, data);
priv->buffer = NULL;` of `pinos_port_receive_buffer`. -/
def deliver_to_callback (user : UserCode) (w : World) (port : PortId)
    (buffer : PinosBuffer) : World × List Event :=
  let w2 := set_buffer w port (some buffer)
  if (w2 port).received_buffer_cb then
    let r := user.received_buffer_cb port w2
    (set_buffer r.ports port none,
      Event.received_buffer_cb port buffer (pinos_port_peek_buffer w2 port) :: r.log)
  else (set_buffer w2 port none, [])

/-- The function `pinos_port_receive_buffer`. -/
def pinos_port_receive_buffer (env : Env) (user : UserCode) (w : World) (port : PortId)
    (buffer : PinosBuffer) : Out :=
  if (w port).buffer.isSome then
    ⟨false, some ⟨GIOErrorEnum.G_IO_ERROR_NOT_FOUND, "buffer was already queued on port"⟩, w, []⟩
  else
    let p1 := parse_if_control user w port buffer
    if (p1.1 port).sockets0 then
      let r := write_buffer env port buffer
      ⟨r.1, r.2, p1.1, Event.receive_buffer port buffer :: p1.2 ++ [Event.write_buffer port buffer]⟩
    else
      let d := deliver_to_callback user p1.1 port buffer
      ⟨true, none, d.1, Event.receive_buffer port buffer :: p1.2 ++ d.2⟩

/-- The function `pinos_port_link`. -/
def pinos_port_link (env : Env) (user : UserCode) (w : World)
    (source destination : PortId) : Out :=
  if (w source).direction = (w destination).direction then ⟨false, none, w, []⟩
  else if (w source).peers.length ≥ (w source).max_peers then ⟨false, none, w, []⟩
  else if (w destination).peers.length ≥ (w destination).max_peers then ⟨false, none, w, []⟩
  else
    let swap := (w source).direction ≠ PINOS_DIRECTION_OUTPUT
    let src := if swap then destination else source
    let dst := if swap then source else destination
    let e1 := g_signal_emit_linked user src dst true w
    if !e1.ret then ⟨false, none, e1.ports, Event.signal_linked src dst :: e1.log⟩
    else
      let e2 := g_signal_emit_linked user dst src e1.ret e1.ports
      let ev := Event.signal_linked src dst :: e1.log ++ Event.signal_linked dst src :: e2.log
      if !e2.ret then ⟨false, none, e2.ports, ev⟩
      else
        let w1 := g_ptr_array_add e2.ports src dst
        let w2 := g_ptr_array_add w1 dst src
        let w3 := update_peer_paths env w2 src
        let w4 := update_peer_paths env w3 dst
        match (w4 src).format with
        | none => ⟨true, none, w4, ev⟩
        | some format =>
          let pbuf := format_change_buffer { id := 0, format := format }
          let r := pinos_port_receive_buffer env user w4 dst pbuf
          let warn := if !r.res then [Event.warning dst "counld not receive format"] else []
          ⟨true, none, r.ports, ev ++ r.log ++ warn⟩

/-- The loop `for (i = 0; i < priv->peers->len; i++)` of
`pinos_port_send_buffer` from index `i` on, with the peer array read again in
every round; there is no result when the fuel runs out. -/
def send_buffer_for (env : Env) (user : UserCode) (buffer : PinosBuffer) (port : PortId) :
    Nat → Nat → World → Bool → Option GError → Option Out
  | 0, _, _, _, _ => none
  | fuel + 1, i, w, res, err =>
    match (w port).peers[i]? with
    | none => some ⟨res, err, w, []⟩
    | some peer =>
      let r := pinos_port_receive_buffer env user w peer buffer
      match send_buffer_for env user buffer port fuel (i + 1) r.ports r.res
        (g_set_error err r.error) with
      | none => none
      | some t => some ⟨t.res, t.error, t.ports, r.log ++ t.log⟩

/-- The function `pinos_port_send_buffer`. -/
def pinos_port_send_buffer (env : Env) (user : UserCode) (fuel : Nat) (w : World)
    (port : PortId) (buffer : PinosBuffer) : Option Out :=
  let p1 := parse_if_control user w port buffer
  let wr := if (p1.1 port).sockets0 then write_buffer env port buffer else (true, none)
  let ev := if (p1.1 port).sockets0 then [Event.write_buffer port buffer] else []
  match send_buffer_for env user buffer port fuel 0 p1.1 wr.1 wr.2 with
  | none => none
  | some t => some ⟨t.res, if !t.res then t.error else none, t.ports, p1.2 ++ ev ++ t.log⟩

/-- The loop `for (i = 0; i < priv->peers->len; i++)` of `on_socket_condition`
from index `i` on, with the peer array read again in every round; there is no
result when the fuel runs out. -/
def socket_condition_for (env : Env) (user : UserCode) (buffer : PinosBuffer)
    (port : PortId) : Nat → Nat → World → Option (World × List Event)
  | 0, _, _ => none
  | fuel + 1, i, w =>
    match (w port).peers[i]? with
    | none => some (w, [])
    | some peer =>
      let r := pinos_port_receive_buffer env user w peer buffer
      let warn := if !r.res then [Event.warning peer "failed to receive buffer"] else []
      match socket_condition_for env user buffer port fuel (i + 1) r.ports with
      | none => none
      | some t => some (t.1, r.log ++ warn ++ t.2)

/-- The statement `if (priv->received_buffer_cb) { priv->buffer = buffer;
cb (port, data); priv->buffer = NULL; }` of `on_socket_condition`. -/
def notify_buffer (user : UserCode) (w : World) (port : PortId) (buffer : PinosBuffer) :
    World × List Event :=
  if (w port).received_buffer_cb then
    let w2 := set_buffer w port (some buffer)
    let r := user.received_buffer_cb port w2
    (set_buffer r.ports port none,
      Event.received_buffer_cb port buffer (pinos_port_peek_buffer w2 port) :: r.log)
  else (w, [])

/-- The function `on_socket_condition`. -/
def on_socket_condition (env : Env) (user : UserCode) (fuel : Nat) (w : World)
    (port : PortId) (condition : GIOCondition) : Option Out :=
  match condition with
  | .G_IO_IN =>
    match read_buffer env port with
    | .error _ => some ⟨true, none, w, [Event.warning port "failed to read buffer"]⟩
    | .ok buffer =>
      let p1 := parse_if_control user w port buffer
      let c := notify_buffer user p1.1 port buffer
      match socket_condition_for env user buffer port fuel 0 c.1 with
      | none => none
      | some t => some ⟨true, none, t.1, p1.2 ++ c.2 ++ t.2⟩
  | .G_IO_OUT => some ⟨true, none, w, [Event.warning port "can do IO OUT"]⟩
  | .other => some ⟨true, none, w, []⟩

/-- The heap after one operation, when its loops end within the fuel. The
operations that run none of the user code above are those of `Pinos.step`. -/
def step (env : Env) (user : UserCode) (fuel : Nat) (w : World) : Op → Option World
  | .link source destination => some (pinos_port_link env user w source destination).ports
  | .send_buffer port buffer =>
    (pinos_port_send_buffer env user fuel w port buffer).map Out.ports
  | .receive_buffer port buffer =>
    some (pinos_port_receive_buffer env user w port buffer).ports
  | .socket_condition port condition =>
    (on_socket_condition env user fuel w port condition).map Out.ports
  | .unlink source destination => some (Pinos.step env w (.unlink source destination))
  | .dispose port => some (Pinos.step env w (.dispose port))
  | .set_max_peers port value => some (Pinos.step env w (.set_max_peers port value))
  | .set_peers port paths => some (Pinos.step env w (.set_peers port paths))
  | .set_received_buffer_cb port cb =>
    some (Pinos.step env w (.set_received_buffer_cb port cb))
  | .get_socket_pair port => some (Pinos.step env w (.get_socket_pair port))

/-- The heaps reached from freshly constructed ports by operations that `ok`
admits in the state they start from, run with user code that `allowed`
admits; environment, user code and fuel may differ from one operation to the
next. -/
inductive ReachableBy (ok : World → Op → Prop) (allowed : UserCode → Prop)
    (cfg : PortId → PortConfig) : World → Prop
  | init : ReachableBy ok allowed cfg (init_world cfg)
  | step (env : Env) (user : UserCode) (fuel : Nat) (w w' : World) (op : Op) :
      ReachableBy ok allowed cfg w → ok w op → allowed user →
      step env user fuel w op = some w' → ReachableBy ok allowed cfg w'

/-- No user code at all. -/
def user0 : UserCode :=
  { linked_handlers := fun _ => [], linked_handlers_after := fun _ => [],
    notify_format := fun _ w => ⟨w, [], true⟩,
    received_buffer_cb := fun _ w => ⟨w, [], true⟩ }

/-- The received-buffer callback of port 1 unlinks port 1 from port 0. -/
def user_unlinks_in_callback : UserCode :=
  { user0 with
    received_buffer_cb := fun port w =>
      if port = 1 then
        ⟨(pinos_port_unlink env0 w 0 1).ports, (pinos_port_unlink env0 w 0 1).log, true⟩
      else ⟨w, [], true⟩ }

end Reentrant

/-- Port 1 gets a callback, and port 0 is linked to the ports 1 and 2. -/
def ops_fan_out_callback : List Op :=
  [.set_received_buffer_cb 1 true, .link 0 1, .link 0 2]

/-! ## Format filtering -/

/-- Caps of the format library: any format, or a list of media types in order
of preference. The empty list is the empty caps. -/
inductive GstCaps
  | any
  | structures (l : List String)
  deriving DecidableEq, Repr

/-- The calls into the format library that `pinos_port_filter_formats` makes:
`gst_caps_from_string` (NULL when the string does not parse),
`gst_caps_to_string`, `gst_caps_intersect_full` with
`GST_CAPS_INTERSECT_FIRST`, `gst_caps_is_empty` and `gst_caps_new_any`. The
library is not part of the repository. -/
structure FormatAlgebra where
  gst_caps_from_string : String → Option GstCaps
  gst_caps_to_string : GstCaps → String
  gst_caps_intersect_full : GstCaps → GstCaps → GstCaps
  gst_caps_is_empty : GstCaps → Bool
  gst_caps_new_any : GstCaps

/-- The result of `pinos_port_filter_formats`: the format blob or NULL, the
error location after the call, and the ports on which `format-request` was
emitted, in order. -/
structure FilterOut where
  res : Option String
  error : Option GError
  requests : List PortId
  deriving DecidableEq, Repr

/-- The loop `for (i = 0; i < priv->peers->len; i++) res =
pinos_port_filter_formats (peer, res, error)`, with the recursive call given
as `filter`; `none` when a call does not return. -/
def filter_peers (filter : PortId → Option String → Option GError → Option FilterOut) :
    List PortId → Option String → Option GError → List PortId → Option FilterOut
  | [], res, error, requests => some ⟨res, error, requests⟩
  | peer :: rest, res, error, requests =>
    match filter peer res error with
    | none => none
    | some r => filter_peers filter rest r.res r.error (requests ++ r.requests)

/-- The function `pinos_port_filter_formats`, with `fuel` bounding the depth
of the recursion through the peers (`none` when the fuel runs out).
`possible_formats` gives the `possible-formats` of a port as they stand after
its `format-request` signal; `error` is the location the caller passes. -/
def pinos_port_filter_formats (fa : FormatAlgebra) (possible_formats : PortId → Option String)
    (w : World) : Nat → PortId → Option String → Option GError → Option FilterOut
  | 0, _, _, _ => none
  | fuel + 1, port, filter, error =>
    let cfilter : Option (Option GstCaps) :=
      match filter with
      | some f =>
        match fa.gst_caps_from_string f with
        | none => none
        | some c => some (some c)
      | none => some none
    match cfilter with
    | none =>
      some ⟨none, g_set_error error
        (some ⟨GIOErrorEnum.G_IO_ERROR_INVALID_ARGUMENT, "Invalid filter received"⟩), []⟩
    | some cf =>
      let caps : Option GstCaps :=
        match possible_formats port with
        | some s => fa.gst_caps_from_string s
        | none => some fa.gst_caps_new_any
      let caps : Option GstCaps :=
        match caps, cf with
        | some c, some f => some (fa.gst_caps_intersect_full c f)
        | c, _ => c
      let no_format : FilterOut :=
        ⟨none, g_set_error error
          (some ⟨GIOErrorEnum.G_IO_ERROR_NOT_FOUND, "No compatible format found"⟩), [port]⟩
      match caps with
      | none => some no_format
      | some c =>
        if fa.gst_caps_is_empty c then some no_format
        else if (w port).direction = PINOS_DIRECTION_OUTPUT then
          filter_peers (pinos_port_filter_formats fa possible_formats w fuel) (w port).peers
            (some (fa.gst_caps_to_string c)) error [port]
        else some ⟨some (fa.gst_caps_to_string c), error, [port]⟩

/-- The intersection of two caps that keeps the order of the first. -/
def caps_intersect : GstCaps → GstCaps → GstCaps
  | .any, c => c
  | c, .any => c
  | .structures l1, .structures l2 => .structures (l1.filter (fun m => decide (m ∈ l2)))

/-- A format algebra on the media types audio/x-raw and video/x-raw, with the
strings the format library reads and writes for them. -/
def fa0 : FormatAlgebra :=
  { gst_caps_from_string := fun s =>
      if s = "ANY" then some .any
      else if s = "EMPTY" then some (.structures [])
      else if s = "audio/x-raw" then some (.structures ["audio/x-raw"])
      else if s = "video/x-raw" then some (.structures ["video/x-raw"])
      else if s = "audio/x-raw; video/x-raw" then
        some (.structures ["audio/x-raw", "video/x-raw"])
      else if s = "video/x-raw; audio/x-raw" then
        some (.structures ["video/x-raw", "audio/x-raw"])
      else none,
    gst_caps_to_string := fun c =>
      match c with
      | .any => "ANY"
      | .structures [] => "EMPTY"
      | .structures l => "; ".intercalate l,
    gst_caps_intersect_full := caps_intersect,
    gst_caps_is_empty := fun c => decide (c = .structures []),
    gst_caps_new_any := .any }

/-- Port 0 offers audio, port 1 video, port 2 audio. -/
def formats_mismatch : PortId → Option String :=
  fun p => if p = 1 then some "video/x-raw" else some "audio/x-raw"

/-- Port 0 offers audio and video, every other port audio. -/
def formats_subset : PortId → Option String :=
  fun p => if p = 0 then some "audio/x-raw; video/x-raw" else some "audio/x-raw"

/-- Port 0 is linked to the ports 1 and 2. -/
def ops_two_peers : List Op :=
  [.link 0 1, .link 0 2]

/-! ## Frames on the socket -/

namespace Wire

/-- The constant `MAX_BUFFER_SIZE`. -/
def MAX_BUFFER_SIZE : Nat := 1024

/-- The constant `MAX_FDS`. -/
def MAX_FDS : Nat := 16

/-- The errno `EINTR`. -/
def EINTR : Nat := 4

/-- Modelled from the spec: the magic number `PSB_MAGIC` of a stack buffer
(private.h is not part of the sources). -/
def PSB_MAGIC : Nat := 0x50534200

/-- The struct `PinosStackHeader` as far as the port reads it: its size in
bytes and the field `length` as read from the bytes of a header. The struct
is declared in private.h, which is not part of the sources. -/
structure StackHeaderLayout where
  size : Nat
  length : List Nat → Nat

/-- The struct `PinosStackBuffer`: `data` is the content of the memory that
`sb->data` points to, `free_data` says whether that memory is heap memory of
the buffer (`sb->free_data` non-NULL) rather than the staging area, `fds` is
the content of the fd area. -/
structure PinosStackBuffer where
  data : List Nat
  max_size : Nat
  size : Nat
  free_data : Bool
  fds : List Nat
  max_fds : Nat
  n_fds : Nat
  refcount : Nat
  magic : Nat
  deriving DecidableEq, Repr

/-- The header bytes of a stack buffer. -/
def PinosStackBuffer.header (hl : StackHeaderLayout) (sb : PinosStackBuffer) : List Nat :=
  sb.data.take hl.size

/-- The payload bytes of a stack buffer: what follows the header, up to `size`. -/
def PinosStackBuffer.payload (hl : StackHeaderLayout) (sb : PinosStackBuffer) : List Nat :=
  (sb.data.take sb.size).drop hl.size

/-- The fds of a stack buffer. -/
def PinosStackBuffer.fd_list (sb : PinosStackBuffer) : List Nat :=
  sb.fds.take sb.n_fds

/-- What one `sendmsg` put on a stream socket: its bytes, and the open files
passed with `SCM_RIGHTS`. -/
structure Segment where
  data : List Nat
  fds : List Nat
  deriving DecidableEq, Repr

/-- One direction of a stream socket pair: the segments written and not yet
read, and the errnos with which the coming system calls on the socket fail,
one per call, before calls go through. -/
structure Socket where
  queue : List Segment
  faults : List Nat
  deriving DecidableEq, Repr

/-- The outcome of `read_buffer` or `write_buffer`: done, a `GError`, or a
failed `g_assert`. -/
inductive Outcome (α : Type)
  | ok (value : α)
  | error (e : GError)
  | abort (assertion : String)
  deriving DecidableEq, Repr

/-- The buffer of an outcome, if there is one. -/
def Outcome.buffer? : Outcome PinosStackBuffer → Option PinosStackBuffer
  | .ok sb => some sb
  | _ => none

/-- The call `memcpy (mem + off, bytes, bytes.length)`. -/
def write_at (mem : List Nat) (off : Nat) (bytes : List Nat) : List Nat :=
  mem.take off ++ bytes ++ mem.drop (off + bytes.length)

/-- A read of at most `n` bytes that goes through: the bytes and the open
files received, and the queue left. The bytes come from the first segment; its
open files come with the first read that takes bytes of it, at most `MAX_FDS`
of them fit the control buffer. An empty queue reads as end of stream. -/
def recv_now (n : Nat) : List Segment → (List Nat × List Nat) × List Segment
  | [] => (([], []), [])
  | seg :: rest =>
    if seg.data.length ≤ n then ((seg.data, seg.fds.take MAX_FDS), rest)
    else ((seg.data.take n, seg.fds.take MAX_FDS), ⟨seg.data.drop n, []⟩ :: rest)

/-- The loop `while (TRUE) { len = recvmsg (...); if (len < 0) { if (errno ==
EINTR) continue; else goto recv_error; } break; }` over the pending faults of
the socket. -/
def recv_loop (n : Nat) : List Nat → List Segment → Except Nat (List Nat × List Nat) × Socket
  | [], q => (.ok (recv_now n q).1, ⟨(recv_now n q).2, []⟩)
  | e :: faults, q =>
    if e = EINTR then recv_loop n faults q else (.error e, ⟨q, faults⟩)

/-- The loop `while (TRUE) { len = sendmsg (...); ... }`: the bytes written, or
the errno. A write that goes through puts all its bytes on the queue as one
segment. -/
def send_loop (data : List Nat) (fds : List Nat) :
    List Nat → List Segment → Except Nat Nat × Socket
  | [], q => (.ok data.length, ⟨q ++ [⟨data, fds⟩], []⟩)
  | e :: faults, q =>
    if e = EINTR then send_loop data fds faults q else (.error e, ⟨q, faults⟩)

/-- The function `write_buffer` on the socket of the port. -/
def write_buffer (sb : PinosStackBuffer) (s : Socket) : Outcome Unit × Socket :=
  if MAX_FDS < sb.n_fds then (.abort "cmsgbuf too small", s)
  else
    let r := send_loop (sb.data.take sb.size) (sb.fds.take sb.n_fds) s.faults s.queue
    match r.1 with
    | .error errno => (.error ⟨GIOErrorEnum.from_errno errno, "could not sendmsg"⟩, r.2)
    | .ok len =>
      if len = sb.size then (.ok (), r.2) else (.abort "len == (gssize) sb->size", r.2)

/-- The statements `if (hdr->length > 0) { ... recv (priv->fd, sb->data +
sizeof (PinosStackHeader), hdr->length, 0) ...; g_assert (len == hdr->length);
}` of `read_buffer`: `hdr->length` is read from the memory `data` that `hdr`
points to at that moment. -/
def read_payload (hl : StackHeaderLayout) (data : List Nat) (s : Socket) :
    Outcome (List Nat) × Socket :=
  if hl.length (data.take hl.size) > 0 then
    match recv_loop (hl.length (data.take hl.size)) s.faults s.queue with
    | (.error errno, s2) => (.error ⟨GIOErrorEnum.from_errno errno, "could not recvmsg"⟩, s2)
    | (.ok (payload, _), s2) =>
      if payload.length ≠ hl.length (data.take hl.size) then (.abort "len == hdr->length", s2)
      else (.ok (write_at data hl.size payload), s2)
  else (.ok data, s)

/-- The loop over the control messages of `read_buffer`: the kernel hands over
one `SCM_RIGHTS` message when open files came with the bytes. The fd area and
`n_fds` after the loop. -/
def scm_rights (recv_fds : List Nat) (cmsg : List Nat) : List Nat × Nat :=
  if cmsg = [] then (recv_fds, 0) else (write_at recv_fds 0 cmsg, cmsg.length)

/-- The function `read_buffer` on the socket of the port. `refcount` is the
reference count of `priv->recv_buffer` on entry, `recv_data` and `recv_fds`
are the contents of the staging areas on entry, and `fresh n` is what the `n`
bytes that `g_realloc (NULL, n)` returns hold. -/
def read_buffer (hl : StackHeaderLayout) (fresh : Nat → List Nat) (refcount : Nat)
    (recv_data : List Nat) (recv_fds : List Nat) (s : Socket) :
    Outcome PinosStackBuffer × Socket :=
  if refcount ≠ 0 then (.abort "sb->refcount == 0", s)
  else
    match recv_loop hl.size s.faults s.queue with
    | (.error errno, s1) => (.error ⟨GIOErrorEnum.from_errno errno, "could not recvmsg"⟩, s1)
    | (.ok (bytes, cmsg), s1) =>
      if bytes.length ≠ hl.size then (.abort "len == sizeof (PinosStackHeader)", s1)
      else
        let staged := write_at recv_data 0 bytes
        let need := hl.size + hl.length (staged.take hl.size)
        let realloc := decide (MAX_BUFFER_SIZE < need)
        let data := if realloc then fresh need else staged
        match read_payload hl data s1 with
        | (.error e, s2) => (.error e, s2)
        | (.abort a, s2) => (.abort a, s2)
        | (.ok data, s2) =>
          (.ok { data := data, max_size := if realloc then need else MAX_BUFFER_SIZE,
                 size := need, free_data := realloc, fds := (scm_rights recv_fds cmsg).1,
                 max_fds := 0, n_fds := (scm_rights recv_fds cmsg).2, refcount := 1,
                 magic := PSB_MAGIC }, s2)

/-- A header of 16 bytes whose first four bytes hold `length`, low byte first. -/
def hl16 : StackHeaderLayout :=
  { size := 16,
    length := fun h => h.getD 0 0 + 256 * h.getD 1 0 + 65536 * h.getD 2 0
      + 16777216 * h.getD 3 0 }

/-- Fresh memory that holds zeros. -/
def zeros (n : Nat) : List Nat := List.replicate n 0

/-- The header of `hl16` that announces `n` payload bytes. -/
def header16 (n : Nat) : List Nat :=
  [n % 256, n / 256 % 256, n / 65536 % 256, n / 16777216 % 256] ++ List.replicate 12 0

/-- A stack buffer that holds a frame of `hl16` with `n` payload bytes of
value 7 and the open files 3 and 5. -/
def frame16 (n : Nat) : PinosStackBuffer :=
  { data := header16 n ++ List.replicate n 7, max_size := 16 + n, size := 16 + n,
    free_data := false, fds := [3, 5] ++ List.replicate 14 0, max_fds := 16, n_fds := 2,
    refcount := 1, magic := PSB_MAGIC }

/-- The segment that `write_buffer` puts on the socket for `frame16 n`. -/
def segment16 (n : Nat) : Segment :=
  ⟨header16 n ++ List.replicate n 7, [3, 5]⟩

/-- What `read_buffer` stages in a zeroed staging area for `frame16 n` when it
fits. -/
def staged16 (n : Nat) : PinosStackBuffer :=
  { data := write_at (write_at (zeros 1024) 0 (header16 n)) 16 (List.replicate n 7),
    max_size := MAX_BUFFER_SIZE, size := 16 + n, free_data := false,
    fds := (scm_rights (zeros 16) [3, 5]).1, max_fds := 0,
    n_fds := (scm_rights (zeros 16) [3, 5]).2, refcount := 1, magic := PSB_MAGIC }

/-- What `read_buffer` returns for `frame16 n` when it does not fit and the
fresh memory holds zeros. -/
def lost16 (n : Nat) : PinosStackBuffer :=
  { data := zeros (16 + n), max_size := 16 + n, size := 16 + n, free_data := true,
    fds := (scm_rights (zeros 16) [3, 5]).1, max_fds := 0,
    n_fds := (scm_rights (zeros 16) [3, 5]).2, refcount := 1, magic := PSB_MAGIC }

/-- A socket pair on which nothing was written, whose next call is
interrupted once. -/
def socket0 : Socket := { queue := [], faults := [EINTR] }

end Wire

/-! ## Control packets of a buffer -/

/-- The `FormatChange` packets of a buffer that parse, in the order of the
buffer. -/
def format_changes (buffer : PinosBuffer) : List PinosPacketFormatChange :=
  buffer.packets.filterMap pinos_buffer_iter_parse_format_change

/-- The format that the last `FormatChange` packet of a list carries, and
`format` when the list is empty. -/
def last_format (changes : List PinosPacketFormatChange) (format : Option String) :
    Option String :=
  match changes.getLast? with
  | some change => some change.format
  | none => format

/-- A control buffer with an unknown packet, two `FormatChange` packets with a
packet that does not parse between them, and an unknown packet at the end. -/
def buf_two_formats : PinosBuffer :=
  ⟨PINOS_BUFFER_FLAG_CONTROL,
    [.other 7, .format_change ⟨0, "audio/raw"⟩, .malformed_format_change,
      .format_change ⟨1, "video/raw"⟩, .other 9], []⟩

/-! ## The context (pinos/client/context.c) -/

namespace Ctx

/-- Modelled from the spec: the enum `PinosContextState` (context.h is not
part of the sources): Error, Unconnected, Connecting, Registering, Ready. -/
inductive PinosContextState
  | PINOS_CONTEXT_STATE_ERROR
  | PINOS_CONTEXT_STATE_UNCONNECTED
  | PINOS_CONTEXT_STATE_CONNECTING
  | PINOS_CONTEXT_STATE_REGISTERING
  | PINOS_CONTEXT_STATE_READY
  deriving DecidableEq, Repr

open PinosContextState

/-- Modelled from the spec: the constant `PINOS_STREAM_STATE_ERROR` that
`on_client_proxy` passes to `context_set_state` (stream.h is not part of the
sources). A proxy that cannot be resolved moves the context to Error, so the
constant has the value of `PINOS_CONTEXT_STATE_ERROR`. -/
def PINOS_STREAM_STATE_ERROR : PinosContextState := PINOS_CONTEXT_STATE_ERROR

/-- Modelled from the spec: the flags `PinosContextFlags` (context.h is not
part of the sources) as the set they stand for. -/
structure PinosContextFlags where
  noautospawn : Bool
  nofail : Bool
  deriving DecidableEq, Repr

/-- Modelled from the spec: the enum `PinosSubscriptionState` (subscribe.h is
not part of the sources). -/
inductive PinosSubscriptionState
  | PINOS_SUBSCRIPTION_STATE_UNCONNECTED
  | PINOS_SUBSCRIPTION_STATE_CONNECTING
  | PINOS_SUBSCRIPTION_STATE_READY
  | PINOS_SUBSCRIPTION_STATE_ERROR
  deriving DecidableEq, Repr

/-- Modelled from the spec: the object kinds of `PinosSubscriptionFlags`
(subscribe.h is not part of the sources), one per flag. -/
inductive PinosSubscriptionFlags
  | PINOS_SUBSCRIPTION_FLAG_DAEMON
  | PINOS_SUBSCRIPTION_FLAG_CLIENT
  | PINOS_SUBSCRIPTION_FLAG_SOURCE
  | PINOS_SUBSCRIPTION_FLAG_SINK
  | PINOS_SUBSCRIPTION_FLAG_CHANNEL
  deriving DecidableEq, Repr

/-- Modelled from the spec: the enum `PinosSubscriptionEvent` (subscribe.h is
not part of the sources). -/
inductive PinosSubscriptionEvent
  | PINOS_SUBSCRIPTION_EVENT_NEW
  | PINOS_SUBSCRIPTION_EVENT_CHANGE
  | PINOS_SUBSCRIPTION_EVENT_REMOVE
  deriving DecidableEq, Repr

open PinosSubscriptionState PinosSubscriptionFlags PinosSubscriptionEvent

/-- What the context calls out to, in program order: a scheduled
`do_notify_state` with the state it was scheduled for, an emission of
`subscription-event`, `g_bus_watch_name` with or without auto start,
`g_bus_unwatch_name`, the calls `ConnectClient`, `pinos_subscribe_get_proxy`
and `Disconnect`, a scheduled `do_connect` or `do_disconnect`, a call that
GLib refuses because the proxy is NULL, and a `g_warning`. -/
inductive Action
  | notify_state (state : PinosContextState)
  | subscription_event (event : PinosSubscriptionEvent) (flags : PinosSubscriptionFlags)
      (object : Nat)
  | watch_name (auto_start : Bool)
  | unwatch_name
  | connect_client
  | get_proxy (path : String)
  | disconnect_call
  | invoke_do_connect
  | invoke_do_disconnect
  | critical (message : String)
  | warning (message : String)
  deriving DecidableEq, Repr

/-- The fields of `struct _PinosContextPrivate` that the state machine reads
or writes (objects are named by numbers, 0 being no watch id), and next to
them what the main loop and the bus still hold for the context: the scheduled
calls of `do_connect` and `do_disconnect`, the calls of `ConnectClient`,
`pinos_subscribe_get_proxy` and `Disconnect` that have not completed, whether
the process has crashed, and the calls made so far. -/
structure PinosContext where
  state : PinosContextState
  error : Option GError
  flags : PinosContextFlags
  connection : Option Nat
  daemon : Option Nat
  client : Option Nat
  clients : List Nat
  sources : List Nat
  sinks : List Nat
  channels : List Nat
  subscription_mask : List PinosSubscriptionFlags
  disconnecting : Bool
  id : Nat
  scheduled_connect : Nat
  scheduled_disconnect : Nat
  connect_client_calls : Nat
  get_proxy_calls : Nat
  disconnect_calls : Nat
  crashed : Bool
  log : List Action
  deriving DecidableEq, Repr

/-- The function `pinos_context_init`. -/
def pinos_context_init : PinosContext :=
  { state := PINOS_CONTEXT_STATE_UNCONNECTED, error := none, flags := ⟨false, false⟩,
    connection := none, daemon := none, client := none, clients := [], sources := [],
    sinks := [], channels := [], subscription_mask := [], disconnecting := false, id := 0,
    scheduled_connect := 0, scheduled_disconnect := 0, connect_client_calls := 0,
    get_proxy_calls := 0, disconnect_calls := 0, crashed := false, log := [] }

/-- The function `context_set_state`. -/
def context_set_state (c : PinosContext) (state : PinosContextState)
    (error : Option GError) : PinosContext :=
  if c.state ≠ state then
    { c with
      error := match error with
        | some e => some e
        | none => c.error,
      state := state,
      log := c.log ++ [Action.notify_state state] }
  else c

/-- The function `on_client_proxy`, with the outcome of
`pinos_subscribe_get_proxy_finish`. -/
def on_client_proxy (c : PinosContext) (result : Except GError Nat) : PinosContext :=
  match result with
  | .ok proxy =>
    context_set_state { c with client := some proxy } PINOS_CONTEXT_STATE_READY none
  | .error e =>
    context_set_state
      { c with client := none, log := c.log ++ [Action.warning "failed to get client proxy"] }
      PINOS_STREAM_STATE_ERROR (some e)

/-- The function `on_client_connected`, with the outcome of
`g_dbus_proxy_call_finish`: the client path, or an error. With a NULL daemon
proxy GLib returns NULL and sets no error, and the warning reads the message
of a NULL error. -/
def on_client_connected (c : PinosContext) (result : Except GError String) : PinosContext :=
  match c.daemon with
  | none => { c with crashed := true }
  | some _ =>
    match result with
    | .error e =>
      context_set_state { c with log := c.log ++ [Action.warning "failed to connect client"] }
        PINOS_CONTEXT_STATE_ERROR (some e)
    | .ok client_path =>
      { c with get_proxy_calls := c.get_proxy_calls + 1,
               log := c.log ++ [Action.get_proxy client_path] }

/-- The function `on_daemon_connected`. `g_dbus_proxy_call` on a NULL proxy is
refused by GLib and makes no call. -/
def on_daemon_connected (c : PinosContext) : PinosContext :=
  let c1 := context_set_state c PINOS_CONTEXT_STATE_REGISTERING none
  match c1.daemon with
  | some _ =>
    { c1 with connect_client_calls := c1.connect_client_calls + 1,
              log := c1.log ++ [Action.connect_client] }
  | none => { c1 with log := c1.log ++ [Action.critical "G_IS_DBUS_PROXY (proxy)"] }

/-- The function `subscription_cb`. -/
def subscription_cb (c : PinosContext) (event : PinosSubscriptionEvent)
    (flags : PinosSubscriptionFlags) (object : Nat) : PinosContext :=
  let c1 : PinosContext :=
    match flags with
    | PINOS_SUBSCRIPTION_FLAG_DAEMON => { c with daemon := some object }
    | PINOS_SUBSCRIPTION_FLAG_CLIENT =>
      if event = PINOS_SUBSCRIPTION_EVENT_NEW then { c with clients := object :: c.clients }
      else if event = PINOS_SUBSCRIPTION_EVENT_REMOVE then
        let c2 := { c with clients := c.clients.erase object }
        if some object = c2.client ∧ c2.disconnecting = false then
          context_set_state c2 PINOS_CONTEXT_STATE_ERROR
            (some ⟨GIOErrorEnum.G_IO_ERROR_CLOSED, "Client disappeared"⟩)
        else c2
      else c
    | PINOS_SUBSCRIPTION_FLAG_SOURCE =>
      if event = PINOS_SUBSCRIPTION_EVENT_NEW then { c with sources := object :: c.sources }
      else if event = PINOS_SUBSCRIPTION_EVENT_REMOVE then
        { c with sources := c.sources.erase object }
      else c
    | PINOS_SUBSCRIPTION_FLAG_SINK =>
      if event = PINOS_SUBSCRIPTION_EVENT_NEW then { c with sinks := object :: c.sinks }
      else if event = PINOS_SUBSCRIPTION_EVENT_REMOVE then
        { c with sinks := c.sinks.erase object }
      else c
    | PINOS_SUBSCRIPTION_FLAG_CHANNEL =>
      if event = PINOS_SUBSCRIPTION_EVENT_NEW then { c with channels := object :: c.channels }
      else if event = PINOS_SUBSCRIPTION_EVENT_REMOVE then
        { c with channels := c.channels.erase object }
      else c
  if flags ∈ c1.subscription_mask then
    { c1 with log := c1.log ++ [Action.subscription_event event flags object] }
  else c1

/-- The function `subscription_state`, with the state that
`pinos_subscribe_get_state` gives. -/
def subscription_state (c : PinosContext) (state : PinosSubscriptionState) : PinosContext :=
  match state with
  | PINOS_SUBSCRIPTION_STATE_READY => on_daemon_connected c
  | _ => c

/-- The function `on_name_appeared`. -/
def on_name_appeared (c : PinosContext) (connection : Nat) : PinosContext :=
  { c with connection := some connection }

/-- The function `on_name_vanished`. -/
def on_name_vanished (c : PinosContext) (connection : Option Nat) : PinosContext :=
  let c1 := { c with connection := connection }
  if c1.flags.nofail then context_set_state c1 PINOS_CONTEXT_STATE_CONNECTING none
  else
    context_set_state c1 PINOS_CONTEXT_STATE_ERROR
      (some ⟨GIOErrorEnum.G_IO_ERROR_CLOSED, "Connection closed"⟩)

/-- The function `do_connect`: the watch gets an id other than 0. -/
def do_connect (c : PinosContext) : PinosContext :=
  { c with id := 1, log := c.log ++ [Action.watch_name (!c.flags.noautospawn)] }

/-- The function `pinos_context_connect`: the return value and the context. -/
def pinos_context_connect (c : PinosContext) (flags : PinosContextFlags) :
    Bool × PinosContext :=
  if c.connection ≠ none then (false, c)
  else
    let c1 := context_set_state { c with flags := flags } PINOS_CONTEXT_STATE_CONNECTING none
    (true, { c1 with scheduled_connect := c1.scheduled_connect + 1,
                     log := c1.log ++ [Action.invoke_do_connect] })

/-- The function `finish_client_disconnect`. -/
def finish_client_disconnect (c : PinosContext) : PinosContext :=
  let c1 := { c with client := none, daemon := none }
  let c2 := if c1.id ≠ 0 then { c1 with id := 0, log := c1.log ++ [Action.unwatch_name] }
    else c1
  context_set_state c2 PINOS_CONTEXT_STATE_UNCONNECTED none

/-- The function `on_client_disconnected`, with the outcome of
`g_dbus_proxy_call_finish`. With a NULL client proxy GLib returns NULL and sets
no error, and the warning reads the message of a NULL error. -/
def on_client_disconnected (c : PinosContext) (result : Except GError Unit) : PinosContext :=
  let c1 := { c with disconnecting := false }
  match c1.client with
  | none => { c1 with crashed := true }
  | some _ =>
    match result with
    | .error e =>
      context_set_state
        { c1 with log := c1.log ++ [Action.warning "failed to disconnect client"] }
        PINOS_CONTEXT_STATE_ERROR (some e)
    | .ok _ => finish_client_disconnect c1

/-- The function `do_disconnect`. `g_dbus_proxy_call` on a NULL proxy is
refused by GLib and makes no call. -/
def do_disconnect (c : PinosContext) : PinosContext :=
  match c.client with
  | some _ =>
    { c with disconnect_calls := c.disconnect_calls + 1,
             log := c.log ++ [Action.disconnect_call] }
  | none => { c with log := c.log ++ [Action.critical "G_IS_DBUS_PROXY (proxy)"] }

/-- The function `pinos_context_disconnect`: the return value and the context. -/
def pinos_context_disconnect (c : PinosContext) : Bool × PinosContext :=
  if c.disconnecting then (false, c)
  else if c.client = none then (true, finish_client_disconnect c)
  else
    (true, { c with disconnecting := true,
                    scheduled_disconnect := c.scheduled_disconnect + 1,
                    log := c.log ++ [Action.invoke_do_disconnect] })

/-- The function `pinos_context_get_state`. -/
def pinos_context_get_state (c : PinosContext) : PinosContextState := c.state

/-- The function `pinos_context_get_error`. -/
def pinos_context_get_error (c : PinosContext) : Option GError := c.error

/-- What happens to a context: a call of its interface, a scheduled call that
the main loop runs, a callback of the name watch, a signal of the subscribe
object, or the completion of a call on the bus with its outcome. -/
inductive Input
  | connect (flags : PinosContextFlags)
  | disconnect
  | set_subscription_mask (mask : List PinosSubscriptionFlags)
  | run_do_connect
  | run_do_disconnect
  | name_appeared (connection : Nat)
  | name_vanished (connection : Option Nat)
  | subscribe_state (state : PinosSubscriptionState)
  | subscription (event : PinosSubscriptionEvent) (flags : PinosSubscriptionFlags)
      (object : Nat)
  | client_connected (result : Except GError String)
  | client_proxy (result : Except GError Nat)
  | client_disconnected (result : Except GError Unit)

/-- The handler that an input runs. A scheduled call runs only when it is
scheduled, the name watch calls back only while the name is watched, a call on
the bus completes only when it was made; otherwise the input leaves the
context as it is. -/
def handle (c : PinosContext) : Input → PinosContext
  | .connect flags => (pinos_context_connect c flags).2
  | .disconnect => (pinos_context_disconnect c).2
  | .set_subscription_mask mask => { c with subscription_mask := mask }
  | .run_do_connect =>
    if 0 < c.scheduled_connect then
      do_connect { c with scheduled_connect := c.scheduled_connect - 1 }
    else c
  | .run_do_disconnect =>
    if 0 < c.scheduled_disconnect then
      do_disconnect { c with scheduled_disconnect := c.scheduled_disconnect - 1 }
    else c
  | .name_appeared connection => if c.id ≠ 0 then on_name_appeared c connection else c
  | .name_vanished connection => if c.id ≠ 0 then on_name_vanished c connection else c
  | .subscribe_state state => subscription_state c state
  | .subscription event flags object => subscription_cb c event flags object
  | .client_connected result =>
    if 0 < c.connect_client_calls then
      on_client_connected { c with connect_client_calls := c.connect_client_calls - 1 } result
    else c
  | .client_proxy result =>
    if 0 < c.get_proxy_calls then
      on_client_proxy { c with get_proxy_calls := c.get_proxy_calls - 1 } result
    else c
  | .client_disconnected result =>
    if 0 < c.disconnect_calls then
      on_client_disconnected { c with disconnect_calls := c.disconnect_calls - 1 } result
    else c

/-- The context after one input: after a crash there is no handler to run. -/
def step (c : PinosContext) (i : Input) : PinosContext :=
  if c.crashed then c else handle c i

/-- The context after a list of inputs. -/
def run (c : PinosContext) : List Input → PinosContext
  | [] => c
  | i :: rest => run (step c i) rest

/-- The contexts reached from a new context by inputs that `ok` admits. -/
inductive ReachableBy (ok : Input → Prop) : PinosContext → Prop
  | init : ReachableBy ok pinos_context_init
  | step (c : PinosContext) (i : Input) : ReachableBy ok c → ok i → ReachableBy ok (step c i)

/-- The contexts reached from a new context by any inputs. -/
def Reachable (c : PinosContext) : Prop := ReachableBy (fun _ => True) c

/-- Every input but a call of `pinos_context_disconnect`. -/
def not_disconnect : Input → Prop
  | .disconnect => False
  | _ => True

/-- What holds of a context on which `pinos_context_disconnect` was never
called: no disconnect is scheduled or under way, and there is a daemon proxy
while `ConnectClient` or the request for the client proxy is under way and
while the state is Ready. -/
def DaemonInv (c : PinosContext) : Prop :=
  c.scheduled_disconnect = 0 ∧ c.disconnect_calls = 0 ∧
  ((0 < c.connect_client_calls ∨ 0 < c.get_proxy_calls ∨
      c.state = PINOS_CONTEXT_STATE_READY) → c.daemon ≠ none)

/-- A context in Error has an error. -/
def ErrorInv (c : PinosContext) : Prop :=
  c.state = PINOS_CONTEXT_STATE_ERROR → c.error ≠ none

/-- The flags of a plain connect. -/
def flags_none : PinosContextFlags := ⟨false, false⟩

/-- The flag `NoFail`. -/
def flags_nofail : PinosContextFlags := ⟨false, true⟩

/-- A connect, the name watch, and the name is not there: the context is in
Error with "Connection closed". Then a disconnect. -/
def inputs_error_then_disconnect : List Input :=
  [.connect flags_none, .run_do_connect, .name_vanished none, .disconnect]

/-- The handshake up to the request for the client proxy, a disconnect while
that request is under way, and then the proxy. -/
def inputs_disconnect_in_handshake : List Input :=
  [.connect flags_none, .run_do_connect, .name_appeared 1,
    .subscription PINOS_SUBSCRIPTION_EVENT_NEW PINOS_SUBSCRIPTION_FLAG_DAEMON 10,
    .subscribe_state PINOS_SUBSCRIPTION_STATE_READY, .client_connected (.ok "/c/1"),
    .disconnect, .client_proxy (.ok 20)]

/-- The handshake without a disconnect. -/
def inputs_handshake : List Input :=
  [.connect flags_none, .run_do_connect, .name_appeared 1,
    .subscription PINOS_SUBSCRIPTION_EVENT_NEW PINOS_SUBSCRIPTION_FLAG_DAEMON 10,
    .subscribe_state PINOS_SUBSCRIPTION_STATE_READY, .client_connected (.ok "/c/1"),
    .client_proxy (.ok 20)]

/-- A connect with `NoFail` whose `ConnectClient` call fails: the context is
in Error. -/
def inputs_connect_fails : List Input :=
  [.connect flags_nofail, .run_do_connect, .name_appeared 1,
    .subscription PINOS_SUBSCRIPTION_EVENT_NEW PINOS_SUBSCRIPTION_FLAG_DAEMON 10,
    .subscribe_state PINOS_SUBSCRIPTION_STATE_READY,
    .client_connected (.error ⟨GIOErrorEnum.G_IO_ERROR_NOT_FOUND, "no such method"⟩)]

/-- A connect without `NoFail` whose `ConnectClient` call fails: the context
is in Error with the error of the call. -/
def inputs_connect_fails_plain : List Input :=
  [.connect flags_none, .run_do_connect, .name_appeared 1,
    .subscription PINOS_SUBSCRIPTION_EVENT_NEW PINOS_SUBSCRIPTION_FLAG_DAEMON 10,
    .subscribe_state PINOS_SUBSCRIPTION_STATE_READY,
    .client_connected (.error ⟨GIOErrorEnum.G_IO_ERROR_NOT_FOUND, "no such method"⟩)]

/-- The name is watched and has appeared: there is a connection and no client
proxy yet. -/
def inputs_name_appeared : List Input :=
  [.connect flags_none, .run_do_connect, .name_appeared 1]

/-- The handshake up to the `ConnectClient` call: the context is in
Registering and the call is under way. -/
def inputs_registering : List Input :=
  [.connect flags_none, .run_do_connect, .name_appeared 1,
    .subscription PINOS_SUBSCRIPTION_EVENT_NEW PINOS_SUBSCRIPTION_FLAG_DAEMON 10,
    .subscribe_state PINOS_SUBSCRIPTION_STATE_READY]

/-- The handshake up to the request for the client proxy. -/
def inputs_proxy_requested : List Input :=
  inputs_registering ++ [.client_connected (.ok "/c/1")]

/-- The state of a scheduled `do_notify_state`, for any other call nothing. -/
def Action.notified : Action → Option PinosContextState
  | .notify_state state => some state
  | _ => none

/-- The states for which a `do_notify_state` was scheduled, in order. -/
def notified_states (log : List Action) : List PinosContextState :=
  log.filterMap Action.notified

/-- The state trace of a context: the state of the new context, then the
states its observers were notified of. -/
def state_trace (c : PinosContext) : List PinosContextState :=
  pinos_context_init.state :: notified_states c.log

/-- The arguments of an emission of `subscription-event`, for any other call
nothing. -/
def Action.emitted : Action →
    Option (PinosSubscriptionEvent × PinosSubscriptionFlags × Nat)
  | .subscription_event event flags object => some (event, flags, object)
  | _ => none

/-- The emissions of `subscription-event`, in order. -/
def subscription_events (log : List Action) :
    List (PinosSubscriptionEvent × PinosSubscriptionFlags × Nat) :=
  log.filterMap Action.emitted

/-- What the context keeps for a kind of object: one of the four lists, and
for the daemon its slot. -/
def roster (c : PinosContext) : PinosSubscriptionFlags → List Nat
  | PINOS_SUBSCRIPTION_FLAG_DAEMON => c.daemon.toList
  | PINOS_SUBSCRIPTION_FLAG_CLIENT => c.clients
  | PINOS_SUBSCRIPTION_FLAG_SOURCE => c.sources
  | PINOS_SUBSCRIPTION_FLAG_SINK => c.sinks
  | PINOS_SUBSCRIPTION_FLAG_CHANNEL => c.channels

/-- The error of `on_name_vanished`. -/
def connection_closed : GError := ⟨GIOErrorEnum.G_IO_ERROR_CLOSED, "Connection closed"⟩

/-- The error of `subscription_cb` when the own client is removed. -/
def client_disappeared : GError := ⟨GIOErrorEnum.G_IO_ERROR_CLOSED, "Client disappeared"⟩

/-- The handshake up to the `ConnectClient` call, and then the name
vanishes: the context is in Error with "Connection closed" while the call is
still under way. -/
def inputs_vanished_in_handshake : List Input :=
  inputs_registering ++ [.name_vanished none]

/-- The error with which the bus answers a call to a service that is gone. -/
def service_unknown : GError := ⟨GIOErrorEnum.G_IO_ERROR_NOT_FOUND, "no such method"⟩

/-- Nothing has changed for an observer of the state: the state and the
error are what they were and no state notification has been scheduled. -/
def Unnoticed (c c' : PinosContext) : Prop :=
  c'.state = c.state ∧ pinos_context_get_error c' = pinos_context_get_error c ∧
  notified_states c'.log = notified_states c.log

/-- The inputs of a disconnect that goes through the `Disconnect` call. -/
def inputs_disconnect : List Input :=
  [.disconnect, .run_do_disconnect, .client_disconnected (.ok ())]

end Ctx

/-! ## The mixer operations (spa/plugins/audiomixer/mix-ops.c) -/

namespace Mix

/-- The constant `INT16_MIN`. -/
def INT16_MIN : Int := -32768

/-- The constant `INT16_MAX`. -/
def INT16_MAX : Int := 32767

/-- The constant `INT32_MIN`. -/
def INT32_MIN : Int := -2147483648

/-- The constant `INT32_MAX`. -/
def INT32_MAX : Int := 2147483647

/-- Whether a value is one that an `int16_t` holds. -/
def is_int16 (x : Int) : Bool := decide (INT16_MIN ≤ x ∧ x ≤ INT16_MAX)

/-- The conversion of a value to `int`: its low 32 bits, in two's complement. -/
def to_int32 (x : Int) : Int := (x + 2147483648) % 4294967296 - 2147483648

/-- The conversion of a value to `int16_t`: its low 16 bits, in two's
complement. -/
def to_int16 (x : Int) : Int := (x + 32768) % 65536 - 32768

/-- The sum of two `int` operands; a sum that is not an `int` is undefined. -/
def add_int (a b : Int) : Option Int :=
  if INT32_MIN ≤ a + b ∧ a + b ≤ INT32_MAX then some (a + b) else none

/-- The statement `n_bytes /= sizeof (int16_t)`: the `int` is converted to
`size_t` (64 bits), divided by 2 and converted back to `int`. -/
def div_sizeof_int16 (n_bytes : Int) : Int :=
  to_int32 ((n_bytes % 18446744073709551616) / 2)

/-- Modelled from the spec: the macro `SPA_CLAMP (v, low, high)` (spa/defs.h is
not part of the sources), the value brought into the range from `low` to
`high` as `SPA_MIN (SPA_MAX (v, low), high)`. -/
def SPA_CLAMP (v low high : Int) : Int := min (max v low) high

/-- The loop `while (n_bytes--) { t = *d + *s; *d = SPA_CLAMP (t, INT16_MIN,
INT16_MAX); d++; s++; }` of `add_s16`. The pointers `d` and `s` advance
together, `i` samples past `dst` and `src`. The result is the memory of `dst`
and the number of rounds; there is none when the fuel runs out, when a sample
is read outside an array, or when an `int` operation overflows. -/
def add_s16_loop : Nat → List Int → List Int → Nat → Int → Option (List Int × Nat)
  | 0, _, _, _, _ => none
  | fuel + 1, dst, src, i, n_bytes =>
    if n_bytes = 0 then some (dst, i)
    else
      match add_int n_bytes (-1) with
      | none => none
      | some n1 =>
        match dst[i]?, src[i]? with
        | some d, some s =>
          match add_int d s with
          | none => none
          | some t =>
            add_s16_loop fuel (dst.set i (to_int16 (SPA_CLAMP t INT16_MIN INT16_MAX))) src
              (i + 1) n1
        | _, _ => none

/-- The function `add_s16`. -/
def add_s16 (fuel : Nat) (dst src : List Int) (n_bytes : Int) : Option (List Int × Nat) :=
  add_s16_loop fuel dst src 0 (div_sizeof_int16 n_bytes)

/-- The sum of two samples, held at the ends of the `int16_t` range. -/
def saturating_sum (d s : Int) : Int :=
  if d + s < -32768 then -32768 else if 32767 < d + s then 32767 else d + s

/-- The saturating sum of the first `n` samples of `dst` and `src`, followed
by the other samples of `dst`. -/
def saturating_add : Nat → List Int → List Int → List Int
  | n + 1, d :: dst, s :: src => saturating_sum d s :: saturating_add n dst src
  | _, dst, _ => dst

end Mix

/-! ## Predicates of the proofs -/

/-- What a delivery leaves alone: the graph fields of every port, and a
current inbound buffer that is NULL stays NULL. -/
structure Frame (w w' : World) : Prop where
  direction : ∀ q, (w' q).direction = (w q).direction
  peers : ∀ q, (w' q).peers = (w q).peers
  max_peers : ∀ q, (w' q).max_peers = (w q).max_peers
  sockets0 : ∀ q, (w' q).sockets0 = (w q).sockets0
  received_buffer_cb : ∀ q, (w' q).received_buffer_cb = (w q).received_buffer_cb
  peer_paths : ∀ q, (w' q).peer_paths = (w q).peer_paths
  quiet : ∀ q, (w q).buffer = none → (w' q).buffer = none

/-- The peers of `q` once `a` and `b` have been added to each other. -/
def linked_peers (w : World) (a b q : PortId) : List PortId :=
  if q = a then (w a).peers ++ [b] else if q = b then (w b).peers ++ [a] else (w q).peers

/-- The condition under which `pinos_port_link` goes through. -/
def link_ok (env : Env) (w : World) (a b : PortId) : Bool :=
  decide ((w a).direction ≠ (w b).direction) &&
  decide ((w a).peers.length < (w a).max_peers) &&
  decide ((w b).peers.length < (w b).max_peers) &&
  g_signal_emit_linked env a b true && g_signal_emit_linked env b a true

/-- The heap after the two `g_ptr_array_add` and the two `update_peer_paths`
of `pinos_port_link`. -/
def link_added (env : Env) (w : World) (src dst : PortId) : World :=
  update_peer_paths env (update_peer_paths env
    (g_ptr_array_add (g_ptr_array_add w src dst) dst src) src) dst

/-- The tail of `pinos_port_link` once both emissions have agreed. -/
def link_tail (env : Env) (w4 : World) (src dst : PortId) : Out :=
  let ev := [Event.signal_linked src dst, Event.signal_linked dst src]
  match (w4 src).format with
  | none => ⟨true, none, w4, ev⟩
  | some format =>
    let pbuf := format_change_buffer { id := 0, format := format }
    let r := pinos_port_receive_buffer env w4 dst pbuf
    let warn := if !r.res then [Event.warning dst "counld not receive format"] else []
    ⟨true, none, r.ports, ev ++ r.log ++ warn⟩

/-- The invariant of the port graph: peers have different directions, each
port is in the peers of another as often as the other is in its own, and no
port holds a current inbound buffer between two operations. -/
structure GraphInv (w : World) : Prop where
  dir : ∀ a b, b ∈ (w a).peers → (w a).direction ≠ (w b).direction
  count : ∀ a b, (w a).peers.count b = (w b).peers.count a
  quiet : ∀ p, (w p).buffer = none

/-- No port has more peers than its limit. -/
def PeerLimit (w : World) : Prop := ∀ p, (w p).peers.length ≤ (w p).max_peers

/-- In every recorded callback the peeked buffer is the delivered one. -/
def AllPeekOk (l : List Event) : Prop := ∀ e ∈ l, e.peek_ok

/-! ## Frame lemmas -/

theorem setPort_apply (w : World) (p q : PortId) (v : Port) :
    setPort w p v q = if q = p then v else w q := rfl

@[simp] theorem setPort_same (w : World) (p : PortId) (v : Port) : setPort w p v p = v := by
  simp [setPort]

theorem setPort_other (w : World) {p q : PortId} (v : Port) (h : q ≠ p) :
    setPort w p v q = w q := by
  simp [setPort, h]

theorem Frame.refl (w : World) : Frame w w :=
  ⟨fun _ => rfl, fun _ => rfl, fun _ => rfl, fun _ => rfl, fun _ => rfl, fun _ => rfl,
    fun _ h => h⟩

theorem Frame.trans {w1 w2 w3 : World} (h12 : Frame w1 w2) (h23 : Frame w2 w3) :
    Frame w1 w3 where
  direction q := (h23.direction q).trans (h12.direction q)
  peers q := (h23.peers q).trans (h12.peers q)
  max_peers q := (h23.max_peers q).trans (h12.max_peers q)
  sockets0 q := (h23.sockets0 q).trans (h12.sockets0 q)
  received_buffer_cb q := (h23.received_buffer_cb q).trans (h12.received_buffer_cb q)
  peer_paths q := (h23.peer_paths q).trans (h12.peer_paths q)
  quiet q h := h23.quiet q (h12.quiet q h)

/-- Writing the format of a port keeps the frame. -/
theorem set_format_frame (w : World) (p : PortId) (f : Option String) :
    Frame w (set_format w p f) := by
  constructor <;> intro q <;> by_cases h : q = p <;> simp [set_format, setPort, h]

/-- Setting and clearing the buffer slot of a port keeps the frame. -/
theorem set_clear_buffer_frame (w : World) (p : PortId) (b : PinosBuffer) :
    Frame w (set_buffer (set_buffer w p (some b)) p none) := by
  constructor <;> intro q <;> by_cases h : q = p <;> simp [set_buffer, setPort, h]

theorem parse_control_packets_frame (port : PortId) (pks : List Packet) (w : World) :
    Frame w (parse_control_packets port pks w).1 := by
  induction pks generalizing w with
  | nil => exact Frame.refl w
  | cons pk rest ih =>
    unfold parse_control_packets
    split
    · split
      · exact ih w
      · exact (set_format_frame w port _).trans (ih _)
    · exact ih w

theorem parse_if_control_frame (w : World) (port : PortId) (buffer : PinosBuffer) :
    Frame w (parse_if_control w port buffer).1 := by
  unfold parse_if_control
  split
  · exact parse_control_packets_frame port buffer.packets w
  · exact Frame.refl w

theorem deliver_to_callback_frame (w : World) (port : PortId) (buffer : PinosBuffer) :
    Frame w (deliver_to_callback w port buffer).1 :=
  set_clear_buffer_frame w port buffer

theorem notify_buffer_frame (w : World) (port : PortId) (buffer : PinosBuffer) :
    Frame w (notify_buffer w port buffer).1 := by
  unfold notify_buffer
  split
  · exact set_clear_buffer_frame w port buffer
  · exact Frame.refl w

theorem receive_buffer_frame (env : Env) (w : World) (port : PortId) (buffer : PinosBuffer) :
    Frame w (pinos_port_receive_buffer env w port buffer).ports := by
  unfold pinos_port_receive_buffer
  split
  · exact Frame.refl w
  · simp only
    split
    · exact parse_if_control_frame w port buffer
    · exact (parse_if_control_frame w port buffer).trans (deliver_to_callback_frame _ port buffer)

theorem send_buffer_loop_frame (env : Env) (buffer : PinosBuffer) (ps : List PortId)
    (w : World) (res : Bool) (err : Option GError) :
    Frame w (send_buffer_loop env buffer ps w res err).ports := by
  induction ps generalizing w res err with
  | nil => exact Frame.refl w
  | cons peer rest ih =>
    unfold send_buffer_loop
    exact (receive_buffer_frame env w peer buffer).trans (ih _ _ _)

theorem send_buffer_frame (env : Env) (w : World) (port : PortId) (buffer : PinosBuffer) :
    Frame w (pinos_port_send_buffer env w port buffer).ports := by
  unfold pinos_port_send_buffer
  exact (parse_if_control_frame w port buffer).trans (send_buffer_loop_frame _ _ _ _ _ _)

theorem socket_condition_loop_frame (env : Env) (buffer : PinosBuffer) (ps : List PortId)
    (w : World) : Frame w (socket_condition_loop env buffer ps w).1 := by
  induction ps generalizing w with
  | nil => exact Frame.refl w
  | cons peer rest ih =>
    unfold socket_condition_loop
    exact (receive_buffer_frame env w peer buffer).trans (ih _)

theorem on_socket_condition_frame (env : Env) (w : World) (port : PortId)
    (condition : GIOCondition) : Frame w (on_socket_condition env w port condition).ports := by
  unfold on_socket_condition
  cases condition with
  | G_IO_IN =>
    simp only
    cases read_buffer env port with
    | error e => exact Frame.refl w
    | ok buffer =>
      exact ((parse_if_control_frame w port buffer).trans (notify_buffer_frame _ port buffer)).trans
        (socket_condition_loop_frame _ _ _ _)
  | G_IO_OUT => exact Frame.refl w
  | other => exact Frame.refl w

/-! ## The fields after each assignment -/

@[simp] theorem set_format_fields (w : World) (p : PortId) (f : Option String) (q : PortId) :
    (set_format w p f q).direction = (w q).direction ∧
    (set_format w p f q).sockets0 = (w q).sockets0 ∧
    (set_format w p f q).sockets1 = (w q).sockets1 ∧
    (set_format w p f q).buffer = (w q).buffer ∧
    (set_format w p f q).peers = (w q).peers ∧
    (set_format w p f q).peer_paths = (w q).peer_paths ∧
    (set_format w p f q).max_peers = (w q).max_peers ∧
    (set_format w p f q).received_buffer_cb = (w q).received_buffer_cb := by
  unfold set_format
  by_cases h : q = p
  · subst h; simp [setPort]
  · simp [setPort, h]

@[simp] theorem set_format_format (w : World) (p : PortId) (f : Option String) (q : PortId) :
    (set_format w p f q).format = if q = p then f else (w q).format := by
  unfold set_format
  by_cases h : q = p
  · subst h; simp [setPort]
  · simp [setPort, h]

@[simp] theorem set_buffer_fields (w : World) (p : PortId) (b : Option PinosBuffer) (q : PortId) :
    (set_buffer w p b q).direction = (w q).direction ∧
    (set_buffer w p b q).sockets0 = (w q).sockets0 ∧
    (set_buffer w p b q).sockets1 = (w q).sockets1 ∧
    (set_buffer w p b q).format = (w q).format ∧
    (set_buffer w p b q).peers = (w q).peers ∧
    (set_buffer w p b q).peer_paths = (w q).peer_paths ∧
    (set_buffer w p b q).max_peers = (w q).max_peers ∧
    (set_buffer w p b q).received_buffer_cb = (w q).received_buffer_cb := by
  unfold set_buffer
  by_cases h : q = p
  · subst h; simp [setPort]
  · simp [setPort, h]

@[simp] theorem set_buffer_buffer (w : World) (p : PortId) (b : Option PinosBuffer) (q : PortId) :
    (set_buffer w p b q).buffer = if q = p then b else (w q).buffer := by
  unfold set_buffer
  by_cases h : q = p
  · subst h; simp [setPort]
  · simp [setPort, h]

@[simp] theorem g_ptr_array_add_fields (w : World) (p x : PortId) (q : PortId) :
    (g_ptr_array_add w p x q).direction = (w q).direction ∧
    (g_ptr_array_add w p x q).sockets0 = (w q).sockets0 ∧
    (g_ptr_array_add w p x q).sockets1 = (w q).sockets1 ∧
    (g_ptr_array_add w p x q).format = (w q).format ∧
    (g_ptr_array_add w p x q).buffer = (w q).buffer ∧
    (g_ptr_array_add w p x q).peer_paths = (w q).peer_paths ∧
    (g_ptr_array_add w p x q).max_peers = (w q).max_peers ∧
    (g_ptr_array_add w p x q).received_buffer_cb = (w q).received_buffer_cb := by
  unfold g_ptr_array_add
  by_cases h : q = p
  · subst h; simp [setPort]
  · simp [setPort, h]

@[simp] theorem g_ptr_array_add_peers (w : World) (p x : PortId) (q : PortId) :
    (g_ptr_array_add w p x q).peers = if q = p then (w p).peers ++ [x] else (w q).peers := by
  unfold g_ptr_array_add
  by_cases h : q = p
  · subst h; simp [setPort]
  · simp [setPort, h]

@[simp] theorem g_ptr_array_remove_fields (w : World) (p x : PortId) (q : PortId) :
    (g_ptr_array_remove w p x q).direction = (w q).direction ∧
    (g_ptr_array_remove w p x q).sockets0 = (w q).sockets0 ∧
    (g_ptr_array_remove w p x q).sockets1 = (w q).sockets1 ∧
    (g_ptr_array_remove w p x q).format = (w q).format ∧
    (g_ptr_array_remove w p x q).buffer = (w q).buffer ∧
    (g_ptr_array_remove w p x q).peer_paths = (w q).peer_paths ∧
    (g_ptr_array_remove w p x q).max_peers = (w q).max_peers ∧
    (g_ptr_array_remove w p x q).received_buffer_cb = (w q).received_buffer_cb := by
  unfold g_ptr_array_remove
  by_cases h : q = p
  · subst h; simp [setPort]
  · simp [setPort, h]

@[simp] theorem g_ptr_array_remove_peers (w : World) (p x : PortId) (q : PortId) :
    (g_ptr_array_remove w p x q).peers = if q = p then (w p).peers.erase x else (w q).peers := by
  unfold g_ptr_array_remove
  by_cases h : q = p
  · subst h; simp [setPort]
  · simp [setPort, h]

@[simp] theorem update_peer_paths_fields (env : Env) (w : World) (p : PortId) (q : PortId) :
    (update_peer_paths env w p q).direction = (w q).direction ∧
    (update_peer_paths env w p q).sockets0 = (w q).sockets0 ∧
    (update_peer_paths env w p q).sockets1 = (w q).sockets1 ∧
    (update_peer_paths env w p q).format = (w q).format ∧
    (update_peer_paths env w p q).buffer = (w q).buffer ∧
    (update_peer_paths env w p q).peers = (w q).peers ∧
    (update_peer_paths env w p q).max_peers = (w q).max_peers ∧
    (update_peer_paths env w p q).received_buffer_cb = (w q).received_buffer_cb := by
  unfold update_peer_paths
  by_cases h : q = p
  · subst h; simp [setPort]
  · simp [setPort, h]

@[simp] theorem update_peer_paths_peer_paths (env : Env) (w : World) (p : PortId) (q : PortId) :
    (update_peer_paths env w p q).peer_paths = if q = p then (w p).peers.map env.object_path else (w q).peer_paths := by
  unfold update_peer_paths
  by_cases h : q = p
  · subst h; simp [setPort]
  · simp [setPort, h]

@[simp] theorem pinos_port_set_property_max_peers_fields (w : World) (p : PortId) (n : Nat) (q : PortId) :
    (pinos_port_set_property_max_peers w p n q).direction = (w q).direction ∧
    (pinos_port_set_property_max_peers w p n q).sockets0 = (w q).sockets0 ∧
    (pinos_port_set_property_max_peers w p n q).sockets1 = (w q).sockets1 ∧
    (pinos_port_set_property_max_peers w p n q).format = (w q).format ∧
    (pinos_port_set_property_max_peers w p n q).buffer = (w q).buffer ∧
    (pinos_port_set_property_max_peers w p n q).peers = (w q).peers ∧
    (pinos_port_set_property_max_peers w p n q).peer_paths = (w q).peer_paths ∧
    (pinos_port_set_property_max_peers w p n q).received_buffer_cb = (w q).received_buffer_cb := by
  unfold pinos_port_set_property_max_peers
  by_cases h : q = p
  · subst h; simp [setPort]
  · simp [setPort, h]

@[simp] theorem pinos_port_set_property_max_peers_max_peers (w : World) (p : PortId) (n : Nat) (q : PortId) :
    (pinos_port_set_property_max_peers w p n q).max_peers = if q = p then n else (w q).max_peers := by
  unfold pinos_port_set_property_max_peers
  by_cases h : q = p
  · subst h; simp [setPort]
  · simp [setPort, h]

/-! ## What a link does to the graph -/

theorem link_added_peers (env : Env) (w : World) (src dst : PortId) (h : src ≠ dst)
    (q : PortId) : (link_added env w src dst q).peers = linked_peers w src dst q := by
  unfold link_added linked_peers
  by_cases h1 : q = src
  · subst h1; simp [h]
  · by_cases h2 : q = dst
    · subst h2; simp [h1]
    · simp [h1, h2]

theorem linked_peers_swap (w : World) (a b q : PortId) (h : a ≠ b) :
    linked_peers w b a q = linked_peers w a b q := by
  unfold linked_peers
  by_cases h1 : q = a
  · subst h1; simp [h]
  · by_cases h2 : q = b
    · subst h2; simp [h1]
    · simp [h1, h2]

theorem link_added_fields (env : Env) (w : World) (src dst : PortId) (q : PortId) :
    (link_added env w src dst q).direction = (w q).direction ∧
    (link_added env w src dst q).max_peers = (w q).max_peers ∧
    (link_added env w src dst q).buffer = (w q).buffer ∧
    (link_added env w src dst q).format = (w q).format ∧
    (link_added env w src dst q).sockets0 = (w q).sockets0 ∧
    (link_added env w src dst q).received_buffer_cb = (w q).received_buffer_cb := by
  unfold link_added
  simp

theorem link_tail_frame (env : Env) (w4 : World) (src dst : PortId) :
    Frame w4 (link_tail env w4 src dst).ports := by
  unfold link_tail
  simp only
  split
  · exact Frame.refl w4
  · exact receive_buffer_frame env w4 dst _

theorem link_tail_res (env : Env) (w4 : World) (src dst : PortId) :
    (link_tail env w4 src dst).res = true := by
  unfold link_tail
  simp only
  split <;> rfl

/-- The function `pinos_port_link` by cases: refused with the heap as it was,
or the peers added and the tail run, with source and destination in the
order of their directions. -/
theorem link_unfold (env : Env) (w : World) (a b : PortId) :
    pinos_port_link env w a b =
      if (w a).direction = (w b).direction then ⟨false, none, w, []⟩
      else if (w a).peers.length ≥ (w a).max_peers then ⟨false, none, w, []⟩
      else if (w b).peers.length ≥ (w b).max_peers then ⟨false, none, w, []⟩
      else
        let src := if (w a).direction ≠ PINOS_DIRECTION_OUTPUT then b else a
        let dst := if (w a).direction ≠ PINOS_DIRECTION_OUTPUT then a else b
        if g_signal_emit_linked env src dst true = false then
          ⟨false, none, w, [Event.signal_linked src dst]⟩
        else if g_signal_emit_linked env dst src true = false then
          ⟨false, none, w, [Event.signal_linked src dst, Event.signal_linked dst src]⟩
        else link_tail env (link_added env w src dst) src dst := by
  unfold pinos_port_link link_tail link_added
  split
  · rfl
  · split
    · rfl
    · split
      · rfl
      · simp only
        cases h1 : g_signal_emit_linked env (if (w a).direction ≠ PINOS_DIRECTION_OUTPUT
            then b else a) (if (w a).direction ≠ PINOS_DIRECTION_OUTPUT then a else b) true
        · simp
        · cases h2 : g_signal_emit_linked env (if (w a).direction ≠ PINOS_DIRECTION_OUTPUT
            then a else b) (if (w a).direction ≠ PINOS_DIRECTION_OUTPUT then b else a) true
          · simp
          · simp

/-- A refused link leaves the heap as it was; a link that goes through adds
each port at the end of the peers of the other and leaves directions, peer
limits and NULL buffer slots as they were. -/
theorem link_spec (env : Env) (w : World) (a b : PortId) :
    (pinos_port_link env w a b).res = link_ok env w a b ∧
    (link_ok env w a b = false → (pinos_port_link env w a b).ports = w) ∧
    (link_ok env w a b = true → ∀ q,
      ((pinos_port_link env w a b).ports q).peers = linked_peers w a b q ∧
      ((pinos_port_link env w a b).ports q).direction = (w q).direction ∧
      ((pinos_port_link env w a b).ports q).max_peers = (w q).max_peers ∧
      ((w q).buffer = none → ((pinos_port_link env w a b).ports q).buffer = none)) := by
  rw [link_unfold]
  unfold link_ok
  by_cases hd : (w a).direction = (w b).direction
  · simp [hd]
  · have hab : a ≠ b := fun h => hd (by rw [h])
    by_cases ha : (w a).peers.length ≥ (w a).max_peers
    · have : ¬ (w a).peers.length < (w a).max_peers := by omega
      simp [hd, ha, this]
    · by_cases hb : (w b).peers.length ≥ (w b).max_peers
      · have : ¬ (w b).peers.length < (w b).max_peers := by omega
        simp [hd, ha, hb, this]
      · have ha2 : (w a).peers.length < (w a).max_peers := by omega
        have hb2 : (w b).peers.length < (w b).max_peers := by omega
        rw [if_neg hd, if_neg ha, if_neg hb]
        have key : ∀ src dst : PortId, src ≠ dst →
            linked_peers w src dst = linked_peers w a b → ∀ q,
            ((link_tail env (link_added env w src dst) src dst).ports q).peers
              = linked_peers w a b q ∧
            ((link_tail env (link_added env w src dst) src dst).ports q).direction
              = (w q).direction ∧
            ((link_tail env (link_added env w src dst) src dst).ports q).max_peers
              = (w q).max_peers ∧
            ((w q).buffer = none →
              ((link_tail env (link_added env w src dst) src dst).ports q).buffer = none) := by
          intro src dst hne hl q
          have hf := link_tail_frame env (link_added env w src dst) src dst
          have ha := link_added_fields env w src dst q
          refine ⟨?_, ?_, ?_, ?_⟩
          · rw [hf.peers, link_added_peers env w src dst hne, hl]
          · rw [hf.direction, ha.1]
          · rw [hf.max_peers, ha.2.1]
          · intro hq
            exact hf.quiet q (by rw [ha.2.2.1]; exact hq)
        by_cases ho : (w a).direction = PINOS_DIRECTION_OUTPUT
        · have hs : (if (w a).direction ≠ PINOS_DIRECTION_OUTPUT then b else a) = a :=
            if_neg (not_not.mpr ho)
          have ht : (if (w a).direction ≠ PINOS_DIRECTION_OUTPUT then a else b) = b :=
            if_neg (not_not.mpr ho)
          simp only [hs, ht]
          cases h1 : g_signal_emit_linked env a b true
          · simp [hd, ha2, hb2]
          · cases h2 : g_signal_emit_linked env b a true
            · simp [hd, ha2, hb2]
            · exact ⟨by simp [hd, ha2, hb2, link_tail_res], by simp [hd, ha2, hb2],
                fun _ => by simpa using key a b hab rfl⟩
        · have hs : (if (w a).direction ≠ PINOS_DIRECTION_OUTPUT then b else a) = b :=
            if_pos ho
          have ht : (if (w a).direction ≠ PINOS_DIRECTION_OUTPUT then a else b) = a :=
            if_pos ho
          simp only [hs, ht]
          cases h1 : g_signal_emit_linked env a b true
          · cases h2 : g_signal_emit_linked env b a true
            · simp [hd, ha2, hb2]
            · simp [hd, ha2, hb2]
          · cases h2 : g_signal_emit_linked env b a true
            · simp [hd, ha2, hb2]
            · exact ⟨by simp [hd, ha2, hb2, link_tail_res], by simp [hd, ha2, hb2],
                fun _ => by
                  simpa using key b a (Ne.symm hab)
                    (funext (fun q => linked_peers_swap w a b q hab))⟩

/-! ## What unlink and dispose do to the graph -/

theorem unlink_fields (env : Env) (w : World) (a b q : PortId) :
    ((pinos_port_unlink env w a b).ports q).direction = (w q).direction ∧
    ((pinos_port_unlink env w a b).ports q).max_peers = (w q).max_peers ∧
    ((pinos_port_unlink env w a b).ports q).buffer = (w q).buffer ∧
    ((pinos_port_unlink env w a b).ports q).format = (w q).format := by
  unfold pinos_port_unlink
  simp

theorem unlink_peers (env : Env) (w : World) (a b q : PortId) :
    ((pinos_port_unlink env w a b).ports q).peers =
      if q = b then
        (if b = a then (w a).peers.erase b else (w b).peers).erase a
      else if q = a then (w a).peers.erase b else (w q).peers := by
  unfold pinos_port_unlink
  by_cases h1 : q = b
  · subst h1; simp
  · by_cases h2 : q = a
    · subst h2; simp [h1]
    · simp [h1, h2]

/-- The loop of `pinos_port_unlink_all` touches peer arrays only, and only by
removing entries equal to the port. -/
theorem unlink_all_loop_general (port : PortId) (fuel i : Nat) (w : World) (q : PortId) :
    ((unlink_all_loop port fuel i w).1 q).direction = (w q).direction ∧
    ((unlink_all_loop port fuel i w).1 q).max_peers = (w q).max_peers ∧
    ((unlink_all_loop port fuel i w).1 q).buffer = (w q).buffer ∧
    ((unlink_all_loop port fuel i w).1 q).format = (w q).format ∧
    ((unlink_all_loop port fuel i w).1 q).peers.Sublist (w q).peers ∧
    (∀ y, y ≠ port →
      ((unlink_all_loop port fuel i w).1 q).peers.count y = (w q).peers.count y) := by
  induction fuel generalizing i w with
  | zero => simp [unlink_all_loop]
  | succ fuel ih =>
    unfold unlink_all_loop
    split
    · simp
    · rename_i peer hpeer
      have h := ih (i + 1) (g_ptr_array_remove w peer port)
      simp only [g_ptr_array_remove_fields] at h
      refine ⟨h.1, h.2.1, h.2.2.1, h.2.2.2.1, ?_, ?_⟩
      · refine h.2.2.2.2.1.trans ?_
        rw [g_ptr_array_remove_peers]
        split
        · rename_i hq; subst hq; exact List.erase_sublist _ _
        · exact List.Sublist.refl _
      · intro y hy
        rw [h.2.2.2.2.2 y hy, g_ptr_array_remove_peers]
        split
        · rename_i hq; subst hq; exact List.count_erase_of_ne hy _
        · rfl

/-- The length of the peer array on entry is fuel enough: with that much fuel
the loop ends on its exit test, and more fuel gives the same result. -/
theorem unlink_all_loop_fuel (port : PortId) (fuel k i : Nat) (w : World)
    (hfuel : (w port).peers.length - i ≤ fuel) :
    unlink_all_loop port (fuel + k) i w = unlink_all_loop port fuel i w := by
  induction fuel generalizing i w with
  | zero =>
    have hi : (w port).peers.length ≤ i := by omega
    cases k with
    | zero => rfl
    | succ k =>
      rw [Nat.zero_add]
      unfold unlink_all_loop
      rw [List.getElem?_eq_none hi]
  | succ fuel ih =>
    rw [Nat.add_right_comm]
    unfold unlink_all_loop
    cases hp : (w port).peers[i]? with
    | none => rfl
    | some peer =>
      simp only
      have hlen : (g_ptr_array_remove w peer port port).peers.length
          ≤ (w port).peers.length := by
        rw [g_ptr_array_remove_peers]
        split
        · rename_i hq; rw [← hq]; exact (List.erase_sublist _ _).length_le
        · exact le_refl _
      rw [ih (i + 1) (g_ptr_array_remove w peer port) (by omega)]

/-- When the port is not its own peer, the loop leaves the peers of the port
alone and removes the port from a peer once for every entry of that peer
from index `i` on. -/
theorem unlink_all_loop_count (port : PortId) (fuel i : Nat) (w : World)
    (hns : port ∉ (w port).peers) (hfuel : (w port).peers.length - i ≤ fuel) :
    ((unlink_all_loop port fuel i w).1 port).peers = (w port).peers ∧
    ∀ q, q ≠ port → ((unlink_all_loop port fuel i w).1 q).peers.count port =
      (w q).peers.count port - ((w port).peers.drop i).count q := by
  induction fuel generalizing i w with
  | zero =>
    have hi : (w port).peers.length ≤ i := by omega
    simp [unlink_all_loop, List.drop_of_length_le hi]
  | succ fuel ih =>
    unfold unlink_all_loop
    split
    · rename_i hnone
      have hi : (w port).peers.length ≤ i := by
        by_contra hlt
        have hlt' : i < (w port).peers.length := by omega
        rw [List.getElem?_eq_getElem hlt'] at hnone
        exact absurd hnone (by simp)
      simp [List.drop_of_length_le hi]
    · rename_i peer hpeer
      have hmem : peer ∈ (w port).peers := List.getElem?_mem hpeer
      have hne : peer ≠ port := fun h => hns (h ▸ hmem)
      obtain ⟨hi, hget⟩ := List.getElem?_eq_some.mp hpeer
      have hp1 : (g_ptr_array_remove w peer port port).peers = (w port).peers := by
        rw [g_ptr_array_remove_peers, if_neg (Ne.symm hne)]
      have h := ih (i + 1) (g_ptr_array_remove w peer port) (by rw [hp1]; exact hns)
        (by rw [hp1]; omega)
      rw [hp1] at h
      refine ⟨h.1, ?_⟩
      intro q hq
      rw [h.2 q hq, g_ptr_array_remove_peers, List.drop_eq_getElem_cons hi, hget,
        List.count_cons]
      by_cases hqp : q = peer
      · subst hqp; simp [List.count_erase_self]; omega
      · have : ¬ (peer == q) = true := by simpa using Ne.symm hqp
        simp [hqp, this]

/-! ## Invariants of the port graph -/

theorem GraphInv.no_self {w : World} (h : GraphInv w) (a : PortId) : a ∉ (w a).peers :=
  fun hm => h.dir a a hm rfl

theorem graphInv_init (cfg : PortId → PortConfig) : GraphInv (init_world cfg) := by
  constructor
  · intro a b hb
    simp [init_world, pinos_port_new, pinos_port_constructed, pinos_port_init] at hb
    split at hb <;> simp at hb
  · intro a b
    simp only [init_world, pinos_port_new, pinos_port_constructed, pinos_port_init]
    split <;> split <;> simp
  · intro p
    simp only [init_world, pinos_port_new, pinos_port_constructed, pinos_port_init]
    split <;> rfl

/-- An operation that leaves peers and directions alone keeps the invariant. -/
theorem graphInv_of_same {w w' : World} (h : GraphInv w)
    (hp : ∀ q, (w' q).peers = (w q).peers)
    (hd : ∀ q, (w' q).direction = (w q).direction)
    (hq : ∀ q, (w q).buffer = none → (w' q).buffer = none) : GraphInv w' := by
  constructor
  · intro a b hb
    rw [hp] at hb
    rw [hd, hd]
    exact h.dir a b hb
  · intro a b
    rw [hp, hp]
    exact h.count a b
  · intro p
    exact hq p (h.quiet p)

theorem graphInv_of_frame {w w' : World} (h : GraphInv w) (hf : Frame w w') : GraphInv w' :=
  graphInv_of_same h hf.peers hf.direction hf.quiet

theorem count_linked_peers (w : World) (a b x y : PortId) (hab : a ≠ b) :
    (linked_peers w a b x).count y =
      (w x).peers.count y + if (x = a ∧ y = b) ∨ (x = b ∧ y = a) then 1 else 0 := by
  unfold linked_peers
  by_cases h1 : x = a
  · subst h1
    by_cases h2 : y = b
    · subst h2; simp
    · have : ¬ (b == y) = true := by simpa using Ne.symm h2
      simp [List.count_append, List.count_singleton, h2, this, hab]
  · by_cases h3 : x = b
    · subst h3
      by_cases h4 : y = a
      · subst h4; simp [h1]
      · have : ¬ (a == y) = true := by simpa using Ne.symm h4
        simp [List.count_append, List.count_singleton, h1, h4, this]
    · simp [h1, h3]

theorem graphInv_link (env : Env) (w : World) (a b : PortId) (h : GraphInv w) :
    GraphInv (pinos_port_link env w a b).ports := by
  obtain ⟨_, hfail, hok⟩ := link_spec env w a b
  cases hl : link_ok env w a b with
  | false => rw [hfail hl]; exact h
  | true =>
    have hs := hok hl
    have hdir : (w a).direction ≠ (w b).direction := by
      unfold link_ok at hl
      simp only [Bool.and_eq_true, decide_eq_true_eq] at hl
      exact hl.1.1.1.1
    have hab : a ≠ b := fun e => hdir (by rw [e])
    constructor
    · intro x y hy
      rw [(hs x).1] at hy
      rw [(hs x).2.1, (hs y).2.1]
      unfold linked_peers at hy
      split at hy
      · rename_i hx; subst hx
        rcases List.mem_append.mp hy with hm | hm
        · exact h.dir _ _ hm
        · rw [List.mem_singleton.mp hm]; exact hdir
      · split at hy
        · rename_i hx; subst hx
          rcases List.mem_append.mp hy with hm | hm
          · exact h.dir _ _ hm
          · rw [List.mem_singleton.mp hm]; exact Ne.symm hdir
        · exact h.dir _ _ hy
    · intro x y
      rw [(hs x).1, (hs y).1, count_linked_peers w a b x y hab,
        count_linked_peers w a b y x hab, h.count x y]
      congr 1
      by_cases c1 : x = a ∧ y = b
      · simp [c1]
      · by_cases c2 : x = b ∧ y = a
        · simp [c2]
        · have c3 : ¬ (y = a ∧ x = b) := fun e => c2 ⟨e.2, e.1⟩
          have c4 : ¬ (y = b ∧ x = a) := fun e => c1 ⟨e.2, e.1⟩
          simp [c1, c2, c3, c4]
    · intro p
      exact (hs p).2.2.2 (h.quiet p)

theorem count_unlink_peers (env : Env) (w : World) (a b x y : PortId)
    (hns : a ∉ (w a).peers) :
    ((pinos_port_unlink env w a b).ports x).peers.count y =
      (w x).peers.count y - if (x = a ∧ y = b) ∨ (x = b ∧ y = a) then 1 else 0 := by
  rw [unlink_peers]
  by_cases hab : b = a
  · subst hab
    by_cases hx : x = b
    · subst hx
      rw [if_pos rfl, if_pos rfl, List.erase_of_not_mem hns, List.erase_of_not_mem hns]
      by_cases hy : y = x
      · subst hy; simp [List.count_eq_zero.mpr hns]
      · simp [hy]
    · simp [hx]
  · by_cases hx : x = b
    · subst hx
      rw [if_pos rfl, if_neg hab, List.count_erase]
      by_cases hy : y = a
      · subst hy; simp
      · have : ¬ (a == y) = true := by simpa using Ne.symm hy
        have hab2 : ¬ x = a := hab
        simp [hy, this, hab2]
    · rw [if_neg hx]
      by_cases hx2 : x = a
      · subst hx2
        rw [if_pos rfl, List.count_erase]
        by_cases hy : y = b
        · subst hy; simp
        · have : ¬ (b == y) = true := by simpa using Ne.symm hy
          simp [hy, this, hx]
      · simp [hx, hx2]

theorem unlink_peers_sublist (env : Env) (w : World) (a b q : PortId) :
    ((pinos_port_unlink env w a b).ports q).peers.Sublist (w q).peers := by
  rw [unlink_peers]
  split
  · rename_i hq; subst hq
    split
    · rename_i hab; subst hab
      exact (List.erase_sublist _ _).trans (List.erase_sublist _ _)
    · exact List.erase_sublist _ _
  · split
    · rename_i hq; subst hq; exact List.erase_sublist _ _
    · exact List.Sublist.refl _

theorem graphInv_unlink (env : Env) (w : World) (a b : PortId) (h : GraphInv w) :
    GraphInv (pinos_port_unlink env w a b).ports := by
  constructor
  · intro x y hy
    rw [(unlink_fields env w a b x).1, (unlink_fields env w a b y).1]
    exact h.dir x y ((unlink_peers_sublist env w a b x).subset hy)
  · intro x y
    rw [count_unlink_peers env w a b x y (h.no_self a),
      count_unlink_peers env w a b y x (h.no_self a), h.count x y]
    congr 1
    by_cases c1 : x = a ∧ y = b
    · simp [c1]
    · by_cases c2 : x = b ∧ y = a
      · simp [c2]
      · have c3 : ¬ (y = a ∧ x = b) := fun e => c2 ⟨e.2, e.1⟩
        have c4 : ¬ (y = b ∧ x = a) := fun e => c1 ⟨e.2, e.1⟩
        simp [c1, c2, c3, c4]
  · intro p
    rw [(unlink_fields env w a b p).2.2.1]
    exact h.quiet p

theorem unlink_all_fields (w : World) (port q : PortId) :
    ((pinos_port_unlink_all w port).1 q).direction = (w q).direction ∧
    ((pinos_port_unlink_all w port).1 q).max_peers = (w q).max_peers ∧
    ((pinos_port_unlink_all w port).1 q).buffer = (w q).buffer ∧
    ((pinos_port_unlink_all w port).1 q).peers.Sublist (w q).peers := by
  have h := unlink_all_loop_general port (w port).peers.length 0 w
  unfold pinos_port_unlink_all
  by_cases hq : q = port
  · subst hq
    simp only [setPort_same]
    exact ⟨(h q).1, (h q).2.1, (h q).2.2.1, List.nil_sublist _⟩
  · simp only [setPort_other _ _ hq]
    exact ⟨(h q).1, (h q).2.1, (h q).2.2.1, (h q).2.2.2.2.1⟩

theorem unlink_all_peers_self (w : World) (port : PortId) :
    ((pinos_port_unlink_all w port).1 port).peers = [] := by
  unfold pinos_port_unlink_all
  simp

theorem graphInv_unlink_all (w : World) (port : PortId) (h : GraphInv w) :
    GraphInv (pinos_port_unlink_all w port).1 := by
  have hg := unlink_all_loop_general port (w port).peers.length 0 w
  have hc := unlink_all_loop_count port (w port).peers.length 0 w (h.no_self port) (by omega)
  have hother : ∀ q, q ≠ port → ((pinos_port_unlink_all w port).1 q).peers =
      ((unlink_all_loop port (w port).peers.length 0 w).1 q).peers := by
    intro q hq
    unfold pinos_port_unlink_all
    simp only [setPort_other _ _ hq]
  have hzero : ∀ q, q ≠ port →
      ((pinos_port_unlink_all w port).1 q).peers.count port = 0 := by
    intro q hq
    rw [hother q hq, hc.2 q hq, List.drop_zero, h.count q port]
    omega
  constructor
  · intro a b hb
    rw [(unlink_all_fields w port a).1, (unlink_all_fields w port b).1]
    exact h.dir a b ((unlink_all_fields w port a).2.2.2.subset hb)
  · intro a b
    by_cases ha : a = port
    · subst ha
      rw [unlink_all_peers_self]
      by_cases hb : b = a
      · subst hb; rw [unlink_all_peers_self]
      · rw [hzero b hb]; rfl
    · by_cases hb : b = port
      · subst hb
        rw [unlink_all_peers_self, hzero a ha]; rfl
      · rw [hother a ha, hother b hb, (hg a).2.2.2.2.2 b hb, (hg b).2.2.2.2.2 a ha]
        exact h.count a b
  · intro p
    rw [(unlink_all_fields w port p).2.2.1]
    exact h.quiet p

theorem dispose_fields (w : World) (port q : PortId) :
    ((pinos_port_dispose w port).1 q).direction = (w q).direction ∧
    ((pinos_port_dispose w port).1 q).max_peers = (w q).max_peers ∧
    ((pinos_port_dispose w port).1 q).buffer = (w q).buffer ∧
    ((pinos_port_dispose w port).1 q).peers.Sublist (w q).peers := by
  unfold pinos_port_dispose
  simp only
  have h := unlink_all_fields (setPort (if (w port).sockets0 = true then
    setPort w port { w port with sockets0 := false } else w) port
    { (if (w port).sockets0 = true then
    setPort w port { w port with sockets0 := false } else w) port with sockets1 := false })
    port q
  refine ⟨h.1.trans ?_, h.2.1.trans ?_, h.2.2.1.trans ?_, ?_⟩
  · by_cases hq : q = port <;> split <;> simp [setPort, hq]
  · by_cases hq : q = port <;> split <;> simp [setPort, hq]
  · by_cases hq : q = port <;> split <;> simp [setPort, hq]
  · refine h.2.2.2.trans ?_
    have : ∀ l l' : List PortId, l = l' → l.Sublist l' := fun _ _ e => e ▸ List.Sublist.refl _
    apply this
    by_cases hq : q = port <;> split <;> simp [setPort, hq]

theorem graphInv_dispose (w : World) (port : PortId) (h : GraphInv w) :
    GraphInv (pinos_port_dispose w port).1 := by
  unfold pinos_port_dispose
  simp only
  apply graphInv_unlink_all
  apply graphInv_of_same h
  · intro q; by_cases hq : q = port <;> split <;> simp [setPort, hq]
  · intro q; by_cases hq : q = port <;> split <;> simp [setPort, hq]
  · intro q; by_cases hq : q = port <;> split <;> simp [setPort, hq]

theorem get_socket_pair_fields (env : Env) (w : World) (p q : PortId) :
    (pinos_port_get_socket_pair env w p q).peers = (w q).peers ∧
    (pinos_port_get_socket_pair env w p q).direction = (w q).direction ∧
    (pinos_port_get_socket_pair env w p q).buffer = (w q).buffer ∧
    (pinos_port_get_socket_pair env w p q).max_peers = (w q).max_peers := by
  unfold pinos_port_get_socket_pair
  by_cases h1 : (w p).sockets1 = true
  · rw [if_pos h1]; exact ⟨rfl, rfl, rfl, rfl⟩
  · rw [if_neg h1]
    cases env.socketpair p <;> by_cases hq : q = p <;> simp [setPort, hq]

/-- Every operation keeps the invariant of the port graph. -/
theorem graphInv_step (env : Env) (w : World) (op : Op) (h : GraphInv w) :
    GraphInv (step env w op) := by
  cases op with
  | link a b => exact graphInv_link env w a b h
  | unlink a b => exact graphInv_unlink env w a b h
  | dispose p => exact graphInv_dispose w p h
  | set_max_peers p n =>
    simp only [step, g_object_set_max_peers]
    split
    · exact graphInv_of_same h (fun q => by simp) (fun q => by simp) (fun q => by simp)
    · exact h
  | set_peers p paths =>
    refine graphInv_of_same h ?_ ?_ ?_ <;> intro q <;> by_cases hq : q = p <;>
      simp [step, pinos_port_set_property_peers, setPort, hq]
  | set_received_buffer_cb p cb =>
    refine graphInv_of_same h ?_ ?_ ?_ <;> intro q <;> by_cases hq : q = p <;>
      simp [step, pinos_port_set_received_buffer_cb, setPort, hq]
  | get_socket_pair p =>
    exact graphInv_of_same h (fun q => (get_socket_pair_fields env w p q).1)
      (fun q => (get_socket_pair_fields env w p q).2.1)
      (fun q hq => ((get_socket_pair_fields env w p q).2.2.1).trans hq)
  | send_buffer p buffer => exact graphInv_of_frame h (send_buffer_frame env w p buffer)
  | receive_buffer p buffer => exact graphInv_of_frame h (receive_buffer_frame env w p buffer)
  | socket_condition p c => exact graphInv_of_frame h (on_socket_condition_frame env w p c)

/-- The invariant holds in every heap reached from freshly constructed ports. -/
theorem graphInv_reachable (ok : World → Op → Prop) (cfg : PortId → PortConfig) (w : World)
    (h : ReachableBy ok cfg w) : GraphInv w := by
  induction h with
  | init => exact graphInv_init cfg
  | step env w op _ _ ih => exact graphInv_step env w op ih

theorem reachableBy_run (ok : World → Op → Prop) (cfg : PortId → PortConfig) (env : Env)
    (ops : List Op) (w : World) (h : ReachableBy ok cfg w) (ha : admitted ok env w ops) :
    ReachableBy ok cfg (run env w ops) := by
  induction ops generalizing w with
  | nil => exact h
  | cons op ops ih => exact ih _ (ReachableBy.step env w op h ha.1) ha.2

/-! ## The peer limit -/

theorem peerLimit_init (cfg : PortId → PortConfig) : PeerLimit (init_world cfg) := by
  intro p
  simp only [init_world, pinos_port_new, pinos_port_constructed, pinos_port_init]
  split <;> simp

theorem peerLimit_of_same {w w' : World} (h : PeerLimit w)
    (hp : ∀ q, (w' q).peers.length ≤ (w q).peers.length)
    (hm : ∀ q, (w' q).max_peers = (w q).max_peers) : PeerLimit w' := by
  intro q
  rw [hm]
  exact (hp q).trans (h q)

theorem peerLimit_of_frame {w w' : World} (h : PeerLimit w) (hf : Frame w w') :
    PeerLimit w' :=
  peerLimit_of_same h (fun q => by rw [hf.peers]) hf.max_peers

theorem peerLimit_link (env : Env) (w : World) (a b : PortId) (h : PeerLimit w) :
    PeerLimit (pinos_port_link env w a b).ports := by
  obtain ⟨_, hfail, hok⟩ := link_spec env w a b
  cases hl : link_ok env w a b with
  | false => rw [hfail hl]; exact h
  | true =>
    have hs := hok hl
    unfold link_ok at hl
    simp only [Bool.and_eq_true, decide_eq_true_eq] at hl
    have hdir := hl.1.1.1.1
    have ha := hl.1.1.1.2
    have hb := hl.1.1.2
    intro q
    rw [(hs q).1, (hs q).2.2.1]
    unfold linked_peers
    split
    · rename_i hq; subst hq; simp; omega
    · split
      · rename_i hq; subst hq; simp; omega
      · exact h q

/-- Every operation other than a write of `max-peers` below the number of
peers keeps the peer limit. -/
theorem peerLimit_step (env : Env) (w : World) (op : Op) (h : PeerLimit w)
    (hok : keeps_peer_limit w op) : PeerLimit (step env w op) := by
  cases op with
  | link a b => exact peerLimit_link env w a b h
  | unlink a b =>
    exact peerLimit_of_same h (fun q => (unlink_peers_sublist env w a b q).length_le)
      (fun q => (unlink_fields env w a b q).2.1)
  | dispose p =>
    exact peerLimit_of_same h (fun q => (dispose_fields w p q).2.2.2.length_le)
      (fun q => (dispose_fields w p q).2.1)
  | set_max_peers p n =>
    simp only [step, g_object_set_max_peers]
    split
    · intro q
      by_cases hq : q = p
      · subst hq; simpa using hok
      · simpa [hq] using h q
    · exact h
  | set_peers p paths =>
    refine peerLimit_of_same h ?_ ?_ <;> intro q <;> by_cases hq : q = p <;>
      simp [step, pinos_port_set_property_peers, setPort, hq]
  | set_received_buffer_cb p cb =>
    refine peerLimit_of_same h ?_ ?_ <;> intro q <;> by_cases hq : q = p <;>
      simp [step, pinos_port_set_received_buffer_cb, setPort, hq]
  | get_socket_pair p =>
    exact peerLimit_of_same h
      (fun q => le_of_eq (congrArg List.length (get_socket_pair_fields env w p q).1))
      (fun q => (get_socket_pair_fields env w p q).2.2.2)
  | send_buffer p buffer => exact peerLimit_of_frame h (send_buffer_frame env w p buffer)
  | receive_buffer p buffer => exact peerLimit_of_frame h (receive_buffer_frame env w p buffer)
  | socket_condition p c => exact peerLimit_of_frame h (on_socket_condition_frame env w p c)

theorem peerLimit_reachable (cfg : PortId → PortConfig) (w : World)
    (h : ReachableBy keeps_peer_limit cfg w) : PeerLimit w := by
  induction h with
  | init => exact peerLimit_init cfg
  | step env w op _ hok ih => exact peerLimit_step env w op ih hok

/-! ## The claims about the port graph -/

/-- C1: peer symmetry is an invariant of the port graph. In every heap
reached from freshly constructed ports by operations of any admitted kind
(in particular by `pinos_port_link`, `pinos_port_unlink` and disposal only),
`b` occurs in the peers of `a` if and only if `a` occurs in the peers of `b`. -/
theorem peer_symmetry (ok : World → Op → Prop) (cfg : PortId → PortConfig) (w : World)
    (h : ReachableBy ok cfg w) (a b : PortId) :
    b ∈ (w a).peers ↔ a ∈ (w b).peers := by
  have hc := (graphInv_reachable ok cfg w h).count a b
  rw [← List.count_pos_iff, ← List.count_pos_iff, hc]

theorem peer_symmetry_witness :
    (2 ∈ (run env0 (init_world cfg0) ops_graph 0).peers ↔
      0 ∈ (run env0 (init_world cfg0) ops_graph 2).peers) ∧
    2 ∈ (run env0 (init_world cfg0) ops_graph 0).peers :=
  ⟨peer_symmetry is_graph_op cfg0 _
    (reachableBy_run is_graph_op cfg0 env0 ops_graph _ ReachableBy.init
      (by simp [admitted, is_graph_op, ops_graph])) 0 2, by decide⟩

/-- With handlers and callbacks that make no call into the library: in every
heap reached from freshly constructed ports by link, unlink, disposal,
deliveries and writes of `max-peers` that do not go below the number of peers
the port has at the write, no port has more peers than its `max_peers`. -/
theorem peers_within_max_peers (cfg : PortId → PortConfig) (w : World)
    (h : ReachableBy keeps_peer_limit cfg w) (p : PortId) :
    (w p).peers.length ≤ (w p).max_peers :=
  peerLimit_reachable cfg w h p

theorem peers_within_max_peers_witness :
    (run env0 (init_world cfg0) ops_limit 0).peers.length ≤
      (run env0 (init_world cfg0) ops_limit 0).max_peers ∧
    (run env0 (init_world cfg0) ops_limit 0).peers.length = 2 ∧
    (run env0 (init_world cfg0) ops_limit 0).max_peers = 2 :=
  ⟨peers_within_max_peers cfg0 _
    (reachableBy_run keeps_peer_limit cfg0 env0 ops_limit _ ReachableBy.init
      (by simp [admitted, keeps_peer_limit, ops_limit]; decide)) 0, by decide, by decide⟩

/-- C2, as stated, fails: an output port gets two peers, then `max-peers` is
written to 1, a value the property admits; the port is left with two peers
and a limit of one. -/
theorem max_peers_write_below_peers :
    Reachable cfg0 (run env0 (init_world cfg0) ops_over_limit) ∧
    (run env0 (init_world cfg0) ops_over_limit 0).peers = [1, 2] ∧
    (run env0 (init_world cfg0) ops_over_limit 0).max_peers = 1 ∧
    ¬ (run env0 (init_world cfg0) ops_over_limit 0).peers.length ≤
      (run env0 (init_world cfg0) ops_over_limit 0).max_peers :=
  ⟨reachableBy_run _ cfg0 env0 ops_over_limit _ ReachableBy.init
    (by simp [admitted, ops_over_limit]), by decide, by decide, by decide⟩

theorem link_ok_dir {env : Env} {w : World} {a b : PortId} (h : link_ok env w a b = true) :
    (w a).direction ≠ (w b).direction := by
  unfold link_ok at h
  simp only [Bool.and_eq_true, decide_eq_true_eq] at h
  exact h.1.1.1.1

theorem link_ok_swap (env : Env) (w : World) (a b : PortId) :
    link_ok env w b a = link_ok env w a b := by
  unfold link_ok
  have hd : decide ((w b).direction ≠ (w a).direction)
      = decide ((w a).direction ≠ (w b).direction) := by
    by_cases h : (w a).direction = (w b).direction
    · simp [h]
    · simp [h, Ne.symm h]
  rw [hd]
  cases decide ((w a).direction ≠ (w b).direction) <;>
    cases decide ((w a).peers.length < (w a).max_peers) <;>
    cases decide ((w b).peers.length < (w b).max_peers) <;>
    cases g_signal_emit_linked env a b true <;>
    cases g_signal_emit_linked env b a true <;> rfl

/-- C3, as the code has it: unlink undoes a link between ports that were not
peers of each other. If `pinos_port_link (a, b)` succeeds in a state where `b`
is not among the peers of `a` nor `a` among the peers of `b`, then after
`pinos_port_unlink (a, b)` every port has the peers it had before the link, in
the same order. -/
theorem unlink_undoes_link (env env' : Env) (w : World) (a b : PortId)
    (hres : (pinos_port_link env w a b).res = true)
    (hab : b ∉ (w a).peers) (hba : a ∉ (w b).peers) (q : PortId) :
    ((pinos_port_unlink env' (pinos_port_link env w a b).ports a b).ports q).peers
      = (w q).peers := by
  obtain ⟨hr, _, hok⟩ := link_spec env w a b
  rw [hr] at hres
  have hs := hok hres
  have hne : a ≠ b := fun e => link_ok_dir hres (by rw [e])
  rw [unlink_peers, (hs a).1, (hs b).1, (hs q).1]
  unfold linked_peers
  by_cases h1 : q = b
  · subst h1
    rw [if_pos rfl, if_neg (Ne.symm hne), if_neg (Ne.symm hne), if_pos rfl,
      List.erase_append_right _ hba]
    simp
  · rw [if_neg h1]
    by_cases h2 : q = a
    · subst h2
      rw [if_pos rfl, if_pos rfl, List.erase_append_right _ hab]
      simp
    · rw [if_neg h2, if_neg h2, if_neg h1]

theorem unlink_undoes_link_witness :
    ((pinos_port_unlink env0 (pinos_port_link env0 (init_world cfg0) 0 1).ports 0 1).ports
        0).peers = (init_world cfg0 0).peers ∧
    ((pinos_port_link env0 (init_world cfg0) 0 1).ports 0).peers = [1] :=
  ⟨unlink_undoes_link env0 env0 (init_world cfg0) 0 1 (by decide) (by decide) (by decide) 0,
    by decide⟩

/-- C3, as stated, fails: port 0 has the peers 1 and 2, and port 1 has room
for a second peer. `pinos_port_link (0, 1)` succeeds and appends 1 at the end;
`pinos_port_unlink (0, 1)` removes the first 1, and the peers of port 0 are
2, 1 where they were 1, 2. -/
theorem unlink_after_second_link_reorders :
    Reachable cfg0 (run env0 (init_world cfg0) ops_two_links) ∧
    (run env0 (init_world cfg0) ops_two_links 0).peers = [1, 2] ∧
    (pinos_port_link env0 (run env0 (init_world cfg0) ops_two_links) 0 1).res = true ∧
    ((pinos_port_unlink env0
      (pinos_port_link env0 (run env0 (init_world cfg0) ops_two_links) 0 1).ports 0 1).ports
        0).peers = [2, 1] :=
  ⟨reachableBy_run _ cfg0 env0 ops_two_links _ ReachableBy.init
    (by simp [admitted, ops_two_links]), by decide, by decide, by decide⟩

/-- C4: link is insensitive to the order of its arguments. For ports of
different directions and one starting state, `pinos_port_link (a, b)` and
`pinos_port_link (b, a)` return the same boolean and leave the same peers on
every port. -/
theorem link_swap (env : Env) (w : World) (a b : PortId)
    (hd : (w a).direction ≠ (w b).direction) :
    (pinos_port_link env w a b).res = (pinos_port_link env w b a).res ∧
    ∀ q, ((pinos_port_link env w a b).ports q).peers
      = ((pinos_port_link env w b a).ports q).peers := by
  obtain ⟨hr1, hf1, hok1⟩ := link_spec env w a b
  obtain ⟨hr2, hf2, hok2⟩ := link_spec env w b a
  have hne : a ≠ b := fun e => hd (by rw [e])
  rw [link_ok_swap env w a b] at hr2 hf2 hok2
  refine ⟨hr1.trans hr2.symm, fun q => ?_⟩
  cases hl : link_ok env w a b with
  | false => rw [hf1 hl, hf2 hl]
  | true => rw [(hok1 hl q).1, (hok2 hl q).1, linked_peers_swap w a b q hne]

theorem link_swap_witness :
    (pinos_port_link env0 (init_world cfg0) 0 1).res
      = (pinos_port_link env0 (init_world cfg0) 1 0).res ∧
    ((pinos_port_link env0 (init_world cfg0) 0 1).ports 0).peers
      = ((pinos_port_link env0 (init_world cfg0) 1 0).ports 0).peers ∧
    (pinos_port_link env0 (init_world cfg0) 1 0).res = true ∧
    ((pinos_port_link env0 (init_world cfg0) 1 0).ports 0).peers = [1] :=
  ⟨(link_swap env0 (init_world cfg0) 0 1 (by decide)).1,
    (link_swap env0 (init_world cfg0) 0 1 (by decide)).2 0, by decide, by decide⟩

theorem emit_linked_veto (hs : List (PortId → Bool)) (peer : PortId) (accu : Bool)
    (h : ∃ f ∈ hs, f peer = false) : emit_linked hs peer accu = false := by
  induction hs generalizing accu with
  | nil => obtain ⟨f, hf, _⟩ := h; simp at hf
  | cons g rest ih =>
    unfold emit_linked signal_linked_accum
    cases hg : g peer with
    | false => simp
    | true =>
      simp only [Bool.not_true, Bool.false_eq_true, if_false, if_true]
      apply ih
      obtain ⟨f, hf, hfp⟩ := h
      rcases List.mem_cons.mp hf with e | hm
      · subst e; rw [hg] at hfp; exact absurd hfp (by simp)
      · exact ⟨f, hm, hfp⟩

/-- C5: a veto is atomic. If a handler of the `linked` signal of either port
returns false for the other port, `pinos_port_link` returns FALSE and the
heap, with the peers, the peer paths and the format of both ports, is as it
was before the call. -/
theorem link_veto (env : Env) (w : World) (a b : PortId)
    (h : (∃ f ∈ all_linked_handlers env a, f b = false) ∨
      (∃ f ∈ all_linked_handlers env b, f a = false)) :
    (pinos_port_link env w a b).res = false ∧ (pinos_port_link env w a b).ports = w := by
  obtain ⟨hr, hf, _⟩ := link_spec env w a b
  have hl : link_ok env w a b = false := by
    unfold link_ok g_signal_emit_linked
    rcases h with h | h
    · rw [emit_linked_veto _ _ _ h]; simp
    · rw [emit_linked_veto _ _ _ h]; simp
  exact ⟨hr.trans hl, hf hl⟩

theorem link_veto_witness :
    (pinos_port_link env_veto (init_world cfg0) 0 1).res = false ∧
    (pinos_port_link env_veto (init_world cfg0) 0 1).ports = init_world cfg0 ∧
    (pinos_port_link env0 (init_world cfg0) 0 1).res = true ∧
    (pinos_port_link env_veto (init_world cfg0) 0 1).log
      = [Event.signal_linked 0 1, Event.signal_linked 1 0] :=
  ⟨(link_veto env_veto (init_world cfg0) 0 1
      (Or.inr ⟨fun _ => false, by simp [all_linked_handlers, env_veto], rfl⟩)).1,
    (link_veto env_veto (init_world cfg0) 0 1
      (Or.inr ⟨fun _ => false, by simp [all_linked_handlers, env_veto], rfl⟩)).2,
    by decide, by decide⟩

/-- C6: an input port with `max_peers = 1` that has one peer refuses every
further link, as first or as second argument: `pinos_port_link` returns FALSE,
makes no call out of the library (no `linked` signal is emitted) and leaves
the heap, with the peers of both ports, as it was. -/
theorem full_input_refuses_link (env : Env) (w : World) (p x : PortId)
    (_hdir : (w p).direction = PINOS_DIRECTION_INPUT) (hmax : (w p).max_peers = 1)
    (hlen : (w p).peers.length = 1) :
    ((pinos_port_link env w p x).res = false ∧ (pinos_port_link env w p x).log = [] ∧
      (pinos_port_link env w p x).ports = w) ∧
    ((pinos_port_link env w x p).res = false ∧ (pinos_port_link env w x p).log = [] ∧
      (pinos_port_link env w x p).ports = w) := by
  have hfull : (w p).peers.length ≥ (w p).max_peers := by omega
  constructor
  · rw [link_unfold]
    by_cases hd : (w p).direction = (w x).direction
    · rw [if_pos hd]; exact ⟨rfl, rfl, rfl⟩
    · rw [if_neg hd, if_pos hfull]; exact ⟨rfl, rfl, rfl⟩
  · rw [link_unfold]
    by_cases hd : (w x).direction = (w p).direction
    · rw [if_pos hd]; exact ⟨rfl, rfl, rfl⟩
    · rw [if_neg hd]
      by_cases hx : (w x).peers.length ≥ (w x).max_peers
      · rw [if_pos hx]; exact ⟨rfl, rfl, rfl⟩
      · rw [if_neg hx, if_pos hfull]; exact ⟨rfl, rfl, rfl⟩

theorem full_input_refuses_link_witness :
    ((pinos_port_link env0 (run env0 (init_world cfg0) [.link 0 1]) 1 3).res = false ∧
      (pinos_port_link env0 (run env0 (init_world cfg0) [.link 0 1]) 1 3).log = [] ∧
      (pinos_port_link env0 (run env0 (init_world cfg0) [.link 0 1]) 1 3).ports
        = run env0 (init_world cfg0) [.link 0 1]) ∧
    ((pinos_port_link env0 (run env0 (init_world cfg0) [.link 0 1]) 3 1).res = false ∧
      (pinos_port_link env0 (run env0 (init_world cfg0) [.link 0 1]) 3 1).log = [] ∧
      (pinos_port_link env0 (run env0 (init_world cfg0) [.link 0 1]) 3 1).ports
        = run env0 (init_world cfg0) [.link 0 1]) :=
  full_input_refuses_link env0 (run env0 (init_world cfg0) [.link 0 1]) 1 3
    (by decide) (by decide) (by decide)

/-- C7: two linked ports have different directions. `pinos_port_link` changes
a peer array only when its two ports differ in direction, and in every heap
reached from freshly constructed ports, `b` among the peers of `a` implies
that `a` and `b` differ in direction. -/
theorem linked_ports_differ_in_direction (ok : World → Op → Prop)
    (cfg : PortId → PortConfig) (w : World) (h : ReachableBy ok cfg w) (a b : PortId)
    (hb : b ∈ (w a).peers) :
    (w a).direction ≠ (w b).direction ∧
    ∀ (env : Env) (x y : PortId), (w x).direction = (w y).direction →
      (pinos_port_link env w x y).res = false ∧ (pinos_port_link env w x y).ports = w := by
  refine ⟨(graphInv_reachable ok cfg w h).dir a b hb, fun env x y hxy => ?_⟩
  rw [link_unfold, if_pos hxy]
  exact ⟨rfl, rfl⟩

theorem linked_ports_differ_in_direction_witness :
    (run env0 (init_world cfg0) ops_graph 0).direction
      ≠ (run env0 (init_world cfg0) ops_graph 2).direction ∧
    2 ∈ (run env0 (init_world cfg0) ops_graph 0).peers :=
  ⟨(linked_ports_differ_in_direction (fun _ _ => True) cfg0 _
    (reachableBy_run _ cfg0 env0 ops_graph _ ReachableBy.init
      (by simp [admitted, ops_graph])) 0 2 (by decide)).1, by decide⟩

/-- The delivery of a format change to a port that has no socket and no
current inbound buffer. -/
theorem receive_format_change (env : Env) (w : World) (i : PortId) (v : String)
    (hs : (w i).sockets0 = false) (hb : (w i).buffer = none) :
    (pinos_port_receive_buffer env w i (format_change_buffer ⟨0, v⟩)).res = true ∧
    (pinos_port_receive_buffer env w i (format_change_buffer ⟨0, v⟩)).log =
      [Event.receive_buffer i (format_change_buffer ⟨0, v⟩), Event.notify_format i] ++
        (if (w i).received_buffer_cb then
          [Event.received_buffer_cb i (format_change_buffer ⟨0, v⟩)
            (some (format_change_buffer ⟨0, v⟩))] else []) ∧
    ((pinos_port_receive_buffer env w i (format_change_buffer ⟨0, v⟩)).ports i).format
      = some v ∧
    ((pinos_port_receive_buffer env w i (format_change_buffer ⟨0, v⟩)).ports i).buffer
      = none := by
  have hp : parse_if_control w i (format_change_buffer ⟨0, v⟩)
      = (set_format w i (some v), [Event.notify_format i]) := by
    simp [parse_if_control, format_change_buffer, PinosBuffer.is_control,
      PINOS_BUFFER_FLAG_CONTROL, parse_control_buffer, parse_control_packets,
      Packet.is_format_change, pinos_buffer_iter_parse_format_change]
  unfold pinos_port_receive_buffer
  rw [hb]
  simp only [Option.isSome_none, Bool.false_eq_true, if_false, hp]
  simp [hs, deliver_to_callback, pinos_port_peek_buffer]

/-- C8, as the code has it: a link propagates the format of the source to a
destination that is not in the middle of a delivery. For an output port `o`
with format `v` and an input port `i` with no socket and no current inbound
buffer, a `pinos_port_link (o, i)` that succeeds emits the two `linked`
signals, hands `i` the one control buffer `FormatChange{id=0, format=v}`
(shown to the callback of `i` if it has one) and leaves `i` with format `v`. -/
theorem link_propagates_format (env : Env) (w : World) (o i : PortId) (v : String)
    (ho : (w o).direction = PINOS_DIRECTION_OUTPUT) (hf : (w o).format = some v)
    (_hi : (w i).direction = PINOS_DIRECTION_INPUT) (hs : (w i).sockets0 = false)
    (hb : (w i).buffer = none) (hres : (pinos_port_link env w o i).res = true) :
    (pinos_port_link env w o i).log =
      [Event.signal_linked o i, Event.signal_linked i o,
        Event.receive_buffer i (format_change_buffer ⟨0, v⟩), Event.notify_format i] ++
        (if (w i).received_buffer_cb then
          [Event.received_buffer_cb i (format_change_buffer ⟨0, v⟩)
            (some (format_change_buffer ⟨0, v⟩))] else []) ∧
    received_by i (pinos_port_link env w o i).log = [format_change_buffer ⟨0, v⟩] ∧
    (format_change_buffer ⟨0, v⟩).is_control = true ∧
    ((pinos_port_link env w o i).ports i).format = some v := by
  have hlog : (pinos_port_link env w o i).log =
      [Event.signal_linked o i, Event.signal_linked i o,
        Event.receive_buffer i (format_change_buffer ⟨0, v⟩), Event.notify_format i] ++
        (if (w i).received_buffer_cb then
          [Event.received_buffer_cb i (format_change_buffer ⟨0, v⟩)
            (some (format_change_buffer ⟨0, v⟩))] else []) ∧
      ((pinos_port_link env w o i).ports i).format = some v := by
    rw [link_unfold] at hres ⊢
    have hso : (if (w o).direction ≠ PINOS_DIRECTION_OUTPUT then i else o) = o :=
      if_neg (not_not.mpr ho)
    have hsi : (if (w o).direction ≠ PINOS_DIRECTION_OUTPUT then o else i) = i :=
      if_neg (not_not.mpr ho)
    simp only [hso, hsi] at hres ⊢
    split at hres
    · exact absurd hres (by simp)
    · split at hres
      · exact absurd hres (by simp)
      · split at hres
        · exact absurd hres (by simp)
        · split at hres
          · exact absurd hres (by simp)
          · split at hres
            · exact absurd hres (by simp)
            · rename_i h1 h2 h3 h4 h5
              rw [if_neg h1, if_neg h2, if_neg h3, if_neg h4, if_neg h5]
              have hfl := link_added_fields env w o i
              have hfmt : (link_added env w o i o).format = some v := by
                rw [(hfl o).2.2.2.1, hf]
              have hr := receive_format_change env (link_added env w o i) i v
                (by rw [(hfl i).2.2.2.2.1, hs]) (by rw [(hfl i).2.2.1, hb])
              unfold link_tail
              simp only [hfmt]
              rw [(hfl i).2.2.2.2.2] at hr
              refine ⟨?_, hr.2.2.1⟩
              rw [hr.2.1, hr.1]
              simp
  refine ⟨hlog.1, ?_, ?_, hlog.2⟩
  · rw [hlog.1]
    by_cases hc : (w i).received_buffer_cb = true <;> simp [hc, received_by]
  · simp [format_change_buffer, PinosBuffer.is_control, PINOS_BUFFER_FLAG_CONTROL]

theorem link_propagates_format_witness :
    (pinos_port_link env0 (init_world cfg0) 0 1).log =
      [Event.signal_linked 0 1, Event.signal_linked 1 0,
        Event.receive_buffer 1 (format_change_buffer ⟨0, "v"⟩), Event.notify_format 1] ++
        (if (init_world cfg0 1).received_buffer_cb then
          [Event.received_buffer_cb 1 (format_change_buffer ⟨0, "v"⟩)
            (some (format_change_buffer ⟨0, "v"⟩))] else []) ∧
    received_by 1 (pinos_port_link env0 (init_world cfg0) 0 1).log
      = [format_change_buffer ⟨0, "v"⟩] ∧
    (format_change_buffer ⟨0, "v"⟩).is_control = true ∧
    ((pinos_port_link env0 (init_world cfg0) 0 1).ports 1).format = some "v" :=
  link_propagates_format env0 (init_world cfg0) 0 1 "v" (by decide) (by decide) (by decide)
    (by decide) (by decide) (by decide)

/-- C8, as stated, fails: port 1 is an input without socket; a send on its
peer 3 has brought it to its received-buffer callback, so its current inbound
buffer is set. The output port 0 has the format "v". Called there,
`pinos_port_link (0, 1)` succeeds and adds the peers, but the delivery of the
format change is refused, a warning is logged, port 1 accepts no buffer and
its format stays unset. -/
theorem link_in_callback_drops_format :
    step_log env0 (run env0 (init_world cfg0)
        [.set_max_peers 1 2, .set_received_buffer_cb 1 true, .link 3 1]) (.send_buffer 3 buf0)
      = [Event.receive_buffer 1 buf0,
          Event.received_buffer_cb 1 buf0 (pinos_port_peek_buffer world_in_callback 1)] ∧
    (world_in_callback 0).direction = PINOS_DIRECTION_OUTPUT ∧
    (world_in_callback 0).format = some "v" ∧
    (world_in_callback 1).direction = PINOS_DIRECTION_INPUT ∧
    (world_in_callback 1).sockets0 = false ∧
    (pinos_port_link env0 world_in_callback 0 1).res = true ∧
    ((pinos_port_link env0 world_in_callback 0 1).ports 1).peers = [3, 0] ∧
    received_by 1 (pinos_port_link env0 world_in_callback 0 1).log = [] ∧
    (pinos_port_link env0 world_in_callback 0 1).log =
      [Event.signal_linked 0 1, Event.signal_linked 1 0,
        Event.warning 1 "counld not receive format"] ∧
    ((pinos_port_link env0 world_in_callback 0 1).ports 1).format ≠ some "v" := by
  decide

/-! ## The current inbound buffer -/

theorem allPeekOk_nil : AllPeekOk [] := fun _ h => absurd h (List.not_mem_nil _)

theorem allPeekOk_append {l1 l2 : List Event} (h1 : AllPeekOk l1) (h2 : AllPeekOk l2) :
    AllPeekOk (l1 ++ l2) := fun e he =>
  (List.mem_append.mp he).elim (h1 e) (h2 e)

theorem allPeekOk_cons {e : Event} {l : List Event} (h1 : e.peek_ok) (h2 : AllPeekOk l) :
    AllPeekOk (e :: l) := fun x hx =>
  (List.mem_cons.mp hx).elim (fun h => h ▸ h1) (h2 x)

theorem parse_control_packets_peek (port : PortId) (pks : List Packet) (w : World) :
    AllPeekOk (parse_control_packets port pks w).2 := by
  induction pks generalizing w with
  | nil => exact allPeekOk_nil
  | cons pk rest ih =>
    unfold parse_control_packets
    split
    · split
      · exact ih w
      · exact allPeekOk_cons trivial (ih _)
    · exact ih w

theorem parse_if_control_peek (w : World) (port : PortId) (buffer : PinosBuffer) :
    AllPeekOk (parse_if_control w port buffer).2 := by
  unfold parse_if_control
  split
  · exact parse_control_packets_peek port buffer.packets w
  · exact allPeekOk_nil

theorem deliver_to_callback_peek (w : World) (port : PortId) (buffer : PinosBuffer) :
    AllPeekOk (deliver_to_callback w port buffer).2 := by
  unfold deliver_to_callback
  simp only
  split
  · exact allPeekOk_cons (by simp [Event.peek_ok, pinos_port_peek_buffer]) allPeekOk_nil
  · exact allPeekOk_nil

theorem notify_buffer_peek (w : World) (port : PortId) (buffer : PinosBuffer) :
    AllPeekOk (notify_buffer w port buffer).2 := by
  unfold notify_buffer
  split
  · exact allPeekOk_cons (by simp [Event.peek_ok, pinos_port_peek_buffer]) allPeekOk_nil
  · exact allPeekOk_nil

theorem receive_buffer_peek (env : Env) (w : World) (port : PortId) (buffer : PinosBuffer) :
    AllPeekOk (pinos_port_receive_buffer env w port buffer).log := by
  unfold pinos_port_receive_buffer
  split
  · exact allPeekOk_nil
  · simp only
    split
    · exact allPeekOk_cons trivial (allPeekOk_append (parse_if_control_peek w port buffer)
        (allPeekOk_cons trivial allPeekOk_nil))
    · exact allPeekOk_cons trivial (allPeekOk_append (parse_if_control_peek w port buffer)
        (deliver_to_callback_peek _ port buffer))

theorem send_buffer_loop_peek (env : Env) (buffer : PinosBuffer) (ps : List PortId)
    (w : World) (res : Bool) (err : Option GError) :
    AllPeekOk (send_buffer_loop env buffer ps w res err).log := by
  induction ps generalizing w res err with
  | nil => exact allPeekOk_nil
  | cons peer rest ih =>
    unfold send_buffer_loop
    exact allPeekOk_append (receive_buffer_peek env w peer buffer) (ih _ _ _)

theorem send_buffer_peek (env : Env) (w : World) (port : PortId) (buffer : PinosBuffer) :
    AllPeekOk (pinos_port_send_buffer env w port buffer).log := by
  unfold pinos_port_send_buffer
  refine allPeekOk_append (allPeekOk_append (parse_if_control_peek w port buffer) ?_)
    (send_buffer_loop_peek _ _ _ _ _ _)
  split
  · exact allPeekOk_cons trivial allPeekOk_nil
  · exact allPeekOk_nil

theorem socket_condition_loop_peek (env : Env) (buffer : PinosBuffer) (ps : List PortId)
    (w : World) : AllPeekOk (socket_condition_loop env buffer ps w).2 := by
  induction ps generalizing w with
  | nil => exact allPeekOk_nil
  | cons peer rest ih =>
    unfold socket_condition_loop
    refine allPeekOk_append (allPeekOk_append (receive_buffer_peek env w peer buffer) ?_) (ih _)
    split
    · exact allPeekOk_cons trivial allPeekOk_nil
    · exact allPeekOk_nil

theorem on_socket_condition_peek (env : Env) (w : World) (port : PortId)
    (condition : GIOCondition) : AllPeekOk (on_socket_condition env w port condition).log := by
  unfold on_socket_condition
  cases condition with
  | G_IO_IN =>
    simp only
    cases read_buffer env port with
    | error e => exact allPeekOk_cons trivial allPeekOk_nil
    | ok buffer =>
      exact allPeekOk_append (allPeekOk_append (parse_if_control_peek w port buffer)
        (notify_buffer_peek _ port buffer)) (socket_condition_loop_peek _ _ _ _)
  | G_IO_OUT => exact allPeekOk_cons trivial allPeekOk_nil
  | other => exact allPeekOk_nil

theorem link_tail_peek (env : Env) (w4 : World) (src dst : PortId) :
    AllPeekOk (link_tail env w4 src dst).log := by
  unfold link_tail
  simp only
  split
  · exact allPeekOk_cons trivial (allPeekOk_cons trivial allPeekOk_nil)
  · refine allPeekOk_append (allPeekOk_append
      (allPeekOk_cons trivial (allPeekOk_cons trivial allPeekOk_nil))
      (receive_buffer_peek env w4 dst _)) ?_
    split
    · exact allPeekOk_cons trivial allPeekOk_nil
    · exact allPeekOk_nil

theorem link_peek (env : Env) (w : World) (a b : PortId) :
    AllPeekOk (pinos_port_link env w a b).log := by
  rw [link_unfold]
  by_cases h1 : (w a).direction = (w b).direction
  · rw [if_pos h1]; exact allPeekOk_nil
  · rw [if_neg h1]
    by_cases h2 : (w a).peers.length ≥ (w a).max_peers
    · rw [if_pos h2]; exact allPeekOk_nil
    · rw [if_neg h2]
      by_cases h3 : (w b).peers.length ≥ (w b).max_peers
      · rw [if_pos h3]; exact allPeekOk_nil
      · rw [if_neg h3]
        simp only
        generalize (if (w a).direction ≠ PINOS_DIRECTION_OUTPUT then b else a) = src
        generalize (if (w a).direction ≠ PINOS_DIRECTION_OUTPUT then a else b) = dst
        by_cases h4 : g_signal_emit_linked env src dst true = false
        · rw [if_pos h4]
          exact @allPeekOk_cons (Event.signal_linked src dst) _ trivial allPeekOk_nil
        · rw [if_neg h4]
          by_cases h5 : g_signal_emit_linked env dst src true = false
          · rw [if_pos h5]
            exact @allPeekOk_cons (Event.signal_linked src dst) _ trivial
              (@allPeekOk_cons (Event.signal_linked dst src) _ trivial allPeekOk_nil)
          · rw [if_neg h5]
            exact link_tail_peek env _ _ _

theorem unlink_all_loop_peek (port : PortId) (fuel i : Nat) (w : World) :
    AllPeekOk (unlink_all_loop port fuel i w).2 := by
  induction fuel generalizing i w with
  | zero => exact allPeekOk_nil
  | succ fuel ih =>
    unfold unlink_all_loop
    split
    · exact allPeekOk_nil
    · exact allPeekOk_cons trivial (allPeekOk_cons trivial (ih _ _))

theorem step_log_peek (env : Env) (w : World) (op : Op) : AllPeekOk (step_log env w op) := by
  cases op with
  | link a b => exact link_peek env w a b
  | unlink a b => exact allPeekOk_cons trivial (allPeekOk_cons trivial allPeekOk_nil)
  | dispose p => exact unlink_all_loop_peek p _ _ _
  | send_buffer p buffer => exact send_buffer_peek env w p buffer
  | receive_buffer p buffer => exact receive_buffer_peek env w p buffer
  | socket_condition p c => exact on_socket_condition_peek env w p c
  | set_max_peers p n => exact allPeekOk_nil
  | set_peers p paths => exact allPeekOk_nil
  | set_received_buffer_cb p cb => exact allPeekOk_nil
  | get_socket_pair p => exact allPeekOk_nil

/-- A delivery refused because a buffer is queued: the error, and nothing
else happens. -/
theorem receive_buffer_queued (env : Env) (w : World) (port : PortId) (buffer : PinosBuffer)
    (h : (w port).buffer ≠ none) :
    (pinos_port_receive_buffer env w port buffer).res = false ∧
    (pinos_port_receive_buffer env w port buffer).error =
      some ⟨GIOErrorEnum.G_IO_ERROR_NOT_FOUND, "buffer was already queued on port"⟩ ∧
    (pinos_port_receive_buffer env w port buffer).log = [] ∧
    (pinos_port_receive_buffer env w port buffer).ports = w := by
  unfold pinos_port_receive_buffer
  have hs : (w port).buffer.isSome = true := by
    cases hb : (w port).buffer with
    | none => exact absurd hb h
    | some b => rfl
  rw [if_pos hs]
  exact ⟨rfl, rfl, rfl, rfl⟩

/-- C10: the current inbound buffer is set only inside the received-buffer
callback. In every heap reached from freshly constructed ports
`pinos_port_peek_buffer` gives NULL on every port, it gives NULL again after
every further operation (a delivery, a send, a link, the socket handler,
whether it succeeds or fails), and in every call of a received-buffer
callback during the operation it gives the buffer that is being delivered. -/
theorem peek_buffer_only_in_callback (ok : World → Op → Prop) (cfg : PortId → PortConfig)
    (w : World) (h : ReachableBy ok cfg w) :
    (∀ p, pinos_port_peek_buffer w p = none) ∧
    ∀ (env : Env) (op : Op),
      (∀ p, pinos_port_peek_buffer (step env w op) p = none) ∧
      ∀ e ∈ step_log env w op, e.peek_ok := by
  have hq := graphInv_reachable ok cfg w h
  exact ⟨hq.quiet, fun env op => ⟨(graphInv_step env w op hq).quiet, step_log_peek env w op⟩⟩

theorem peek_buffer_only_in_callback_witness :
    pinos_port_peek_buffer (run env0 (init_world cfg0) ops_callback) 1 = none ∧
    pinos_port_peek_buffer
      (step env0 (run env0 (init_world cfg0) ops_callback) (.send_buffer 0 buf0)) 1 = none ∧
    Event.peek_ok (Event.received_buffer_cb 1 buf0 (some buf0)) ∧
    step_log env0 (run env0 (init_world cfg0) ops_callback) (.send_buffer 0 buf0)
      = [Event.receive_buffer 1 buf0, Event.received_buffer_cb 1 buf0 (some buf0)] :=
  ⟨(peek_buffer_only_in_callback (fun _ _ => True) cfg0 _
      (reachableBy_run _ cfg0 env0 ops_callback _ ReachableBy.init
        (by simp [admitted, ops_callback]))).1 1,
    ((peek_buffer_only_in_callback (fun _ _ => True) cfg0 _
      (reachableBy_run _ cfg0 env0 ops_callback _ ReachableBy.init
        (by simp [admitted, ops_callback]))).2 env0 (.send_buffer 0 buf0)).1 1,
    ((peek_buffer_only_in_callback (fun _ _ => True) cfg0 _
      (reachableBy_run _ cfg0 env0 ops_callback _ ReachableBy.init
        (by simp [admitted, ops_callback]))).2 env0 (.send_buffer 0 buf0)).2 _ (by decide),
    by decide⟩

/-! ## Fan-out to the peers -/

theorem parse_control_packets_buffer (port : PortId) (pks : List Packet) (w : World)
    (q : PortId) : ((parse_control_packets port pks w).1 q).buffer = (w q).buffer := by
  induction pks generalizing w with
  | nil => rfl
  | cons pk rest ih =>
    unfold parse_control_packets
    split
    · split
      · exact ih w
      · rw [ih]; exact (set_format_fields w port _ q).2.2.2.1
    · exact ih w

theorem parse_if_control_buffer (w : World) (port : PortId) (buffer : PinosBuffer)
    (q : PortId) : ((parse_if_control w port buffer).1 q).buffer = (w q).buffer := by
  unfold parse_if_control
  split
  · exact parse_control_packets_buffer port buffer.packets w q
  · rfl

/-- A delivery leaves the current inbound buffer of every port as it was. -/
theorem receive_buffer_buffer (env : Env) (w : World) (port : PortId) (buffer : PinosBuffer)
    (q : PortId) :
    ((pinos_port_receive_buffer env w port buffer).ports q).buffer = (w q).buffer := by
  unfold pinos_port_receive_buffer
  by_cases hb : (w port).buffer.isSome = true
  · rw [if_pos hb]
  · rw [if_neg hb]
    simp only
    split
    · exact parse_if_control_buffer w port buffer q
    · unfold deliver_to_callback
      simp only [set_buffer_buffer]
      by_cases hq : q = port
      · subst hq
        rw [if_pos rfl]
        cases h : (w q).buffer with
        | none => rfl
        | some b => rw [h] at hb; exact absurd rfl hb
      · rw [if_neg hq, if_neg hq]
        exact parse_if_control_buffer w port buffer q

theorem deliveries_append (l1 l2 : List Event) :
    deliveries (l1 ++ l2) = deliveries l1 ++ deliveries l2 := by
  induction l1 with
  | nil => rfl
  | cons e rest ih => cases e <;> simp [deliveries, ih]

theorem parse_control_packets_deliveries (port : PortId) (pks : List Packet) (w : World) :
    deliveries (parse_control_packets port pks w).2 = [] := by
  induction pks generalizing w with
  | nil => rfl
  | cons pk rest ih =>
    unfold parse_control_packets
    split
    · split
      · exact ih w
      · simp only [deliveries]; exact ih _
    · exact ih w

theorem parse_if_control_deliveries (w : World) (port : PortId) (buffer : PinosBuffer) :
    deliveries (parse_if_control w port buffer).2 = [] := by
  unfold parse_if_control
  split
  · exact parse_control_packets_deliveries port buffer.packets w
  · rfl

theorem deliver_to_callback_deliveries (w : World) (port : PortId) (buffer : PinosBuffer) :
    deliveries (deliver_to_callback w port buffer).2 = [] := by
  unfold deliver_to_callback
  simp only
  split <;> rfl

theorem notify_buffer_deliveries (w : World) (port : PortId) (buffer : PinosBuffer) :
    deliveries (notify_buffer w port buffer).2 = [] := by
  unfold notify_buffer
  split <;> rfl

/-- One call of `pinos_port_receive_buffer` records one delivery, unless the
port is in the middle of a delivery. -/
theorem receive_buffer_deliveries (env : Env) (w : World) (port : PortId)
    (buffer : PinosBuffer) :
    deliveries (pinos_port_receive_buffer env w port buffer).log =
      (free_peers w [port]).map (fun q => (q, buffer)) := by
  unfold pinos_port_receive_buffer free_peers
  by_cases hb : (w port).buffer.isSome = true
  · rw [if_pos hb]
    have : (w port).buffer.isNone = false := by
      cases h : (w port).buffer with
      | none => rw [h] at hb; exact absurd hb (by simp)
      | some b => rfl
    simp [deliveries, this]
  · rw [if_neg hb]
    have : (w port).buffer.isNone = true := by
      cases h : (w port).buffer with
      | none => rfl
      | some b => rw [h] at hb; exact absurd rfl hb
    simp only
    split
    · simp [deliveries, deliveries_append, parse_if_control_deliveries, this]
    · simp [deliveries, deliveries_append, parse_if_control_deliveries,
        deliver_to_callback_deliveries, this]

theorem free_peers_cons (w : World) (p : PortId) (ps : List PortId) :
    free_peers w (p :: ps) = free_peers w [p] ++ free_peers w ps := by
  unfold free_peers
  by_cases h : (w p).buffer.isNone = true <;> simp [List.filter_cons, h]

theorem free_peers_congr {w w' : World} (h : ∀ q, (w' q).buffer = (w q).buffer)
    (ps : List PortId) : free_peers w' ps = free_peers w ps := by
  unfold free_peers
  congr 1
  funext q
  rw [h q]

theorem free_peers_of_quiet {w : World} (ps : List PortId)
    (h : ∀ q ∈ ps, (w q).buffer = none) : free_peers w ps = ps := by
  unfold free_peers
  rw [List.filter_eq_self]
  intro q hq
  rw [h q hq]; rfl

theorem send_buffer_loop_deliveries (env : Env) (buffer : PinosBuffer) (ps : List PortId)
    (w : World) (res : Bool) (err : Option GError) :
    deliveries (send_buffer_loop env buffer ps w res err).log =
      (free_peers w ps).map (fun q => (q, buffer)) := by
  induction ps generalizing w res err with
  | nil => rfl
  | cons peer rest ih =>
    unfold send_buffer_loop
    simp only
    rw [deliveries_append, ih, receive_buffer_deliveries, free_peers_cons w peer rest,
      List.map_append, free_peers_congr (receive_buffer_buffer env w peer buffer)]

theorem socket_condition_loop_deliveries (env : Env) (buffer : PinosBuffer)
    (ps : List PortId) (w : World) :
    deliveries (socket_condition_loop env buffer ps w).2 =
      (free_peers w ps).map (fun q => (q, buffer)) := by
  induction ps generalizing w with
  | nil => rfl
  | cons peer rest ih =>
    unfold socket_condition_loop
    simp only
    have hw : deliveries (if (!(pinos_port_receive_buffer env w peer buffer).res) = true
        then [Event.warning peer "failed to receive buffer"] else []) = [] := by
      split <;> rfl
    rw [deliveries_append, deliveries_append, ih, hw, receive_buffer_deliveries,
      free_peers_cons w peer rest, List.map_append, List.append_nil,
      free_peers_congr (receive_buffer_buffer env w peer buffer)]

/-- The loop of `pinos_port_send_buffer` as the source writes it, with the
array read again in every round, visits the peers read on entry from index
`i` on, each once and in order; the length of the array is fuel enough. -/
theorem send_buffer_for_eq_loop (env : Env) (buffer : PinosBuffer) (port : PortId)
    (fuel i : Nat) (w : World) (res : Bool) (err : Option GError)
    (hfuel : (w port).peers.length - i ≤ fuel) :
    send_buffer_for env buffer port fuel i w res err =
      send_buffer_loop env buffer ((w port).peers.drop i) w res err := by
  induction fuel generalizing i w res err with
  | zero =>
    have hi : (w port).peers.length ≤ i := by omega
    rw [List.drop_of_length_le hi]
    rfl
  | succ fuel ih =>
    unfold send_buffer_for
    cases hp : (w port).peers[i]? with
    | none =>
      have hi : (w port).peers.length ≤ i := by
        by_contra hlt
        have hlt2 : i < (w port).peers.length := by omega
        rw [List.getElem?_eq_getElem hlt2] at hp
        exact absurd hp (by simp)
      rw [List.drop_of_length_le hi]
      rfl
    | some peer =>
      obtain ⟨hi, hget⟩ := List.getElem?_eq_some.mp hp
      have hpeers := (receive_buffer_frame env w peer buffer).peers port
      simp only
      rw [ih (i + 1) _ _ _ (by rw [hpeers]; omega), hpeers, List.drop_eq_getElem_cons hi, hget]
      rfl

/-- The loop of `on_socket_condition` as the source writes it visits the peers
read on entry from index `i` on, each once and in order. -/
theorem socket_condition_for_eq_loop (env : Env) (buffer : PinosBuffer) (port : PortId)
    (fuel i : Nat) (w : World) (hfuel : (w port).peers.length - i ≤ fuel) :
    socket_condition_for env buffer port fuel i w =
      socket_condition_loop env buffer ((w port).peers.drop i) w := by
  induction fuel generalizing i w with
  | zero =>
    have hi : (w port).peers.length ≤ i := by omega
    rw [List.drop_of_length_le hi]
    rfl
  | succ fuel ih =>
    unfold socket_condition_for
    cases hp : (w port).peers[i]? with
    | none =>
      have hi : (w port).peers.length ≤ i := by
        by_contra hlt
        have hlt2 : i < (w port).peers.length := by omega
        rw [List.getElem?_eq_getElem hlt2] at hp
        exact absurd hp (by simp)
      rw [List.drop_of_length_le hi]
      rfl
    | some peer =>
      obtain ⟨hi, hget⟩ := List.getElem?_eq_some.mp hp
      have hpeers := (receive_buffer_frame env w peer buffer).peers port
      simp only
      rw [ih (i + 1) _ (by rw [hpeers]; omega), hpeers, List.drop_eq_getElem_cons hi, hget]
      rfl

/-- The return value and the error of the loop of `pinos_port_send_buffer`
after one more peer: the return value is that of the last call, the error is
the first one that was set. -/
theorem send_buffer_loop_last (env : Env) (buffer : PinosBuffer) (ps : List PortId)
    (p : PortId) (w : World) (res : Bool) (err : Option GError) :
    (send_buffer_loop env buffer (ps ++ [p]) w res err).res =
      (pinos_port_receive_buffer env (send_buffer_loop env buffer ps w res err).ports p
        buffer).res ∧
    (send_buffer_loop env buffer (ps ++ [p]) w res err).error =
      g_set_error (send_buffer_loop env buffer ps w res err).error
        (pinos_port_receive_buffer env (send_buffer_loop env buffer ps w res err).ports p
          buffer).error := by
  induction ps generalizing w res err with
  | nil => exact ⟨rfl, rfl⟩
  | cons q rest ih =>
    simp only [List.cons_append]
    unfold send_buffer_loop
    exact ih _ _ _

/-- C11, on the code: `pinos_port_send_buffer` returns what
`pinos_port_receive_buffer` returned on the last peer. Port 0 has the peers 1
and 2; the write to the socket of peer 1 fails, the delivery to peer 2
succeeds: the call returns TRUE and reports no error. -/
theorem send_buffer_hides_first_failure :
    (run env0 (init_world cfg0) ops_fan_out 0).peers = [1, 2] ∧
    (pinos_port_receive_buffer env_epipe (run env0 (init_world cfg0) ops_fan_out) 1 buf0).res
      = false ∧
    (pinos_port_receive_buffer env_epipe (run env0 (init_world cfg0) ops_fan_out) 1
      buf0).error = some ⟨GIOErrorEnum.from_errno 32, "could not sendmsg"⟩ ∧
    (pinos_port_send_buffer env_epipe (run env0 (init_world cfg0) ops_fan_out) 0 buf0).res
      = true ∧
    (pinos_port_send_buffer env_epipe (run env0 (init_world cfg0) ops_fan_out) 0 buf0).error
      = none := by
  decide

/-- With callbacks that make no call into the library, fan-out reaches every
peer in the order of the peer array. Both `pinos_port_send_buffer` and the
readable case of `on_socket_condition` hand
the buffer to the peers in index order, each as often as it stands in the
array; a peer that is itself in the middle of a delivery refuses at the queue
check, and neither that nor a failed write on a peer stops the loop. The
loops as the source writes them, with the array read again in every round,
are the walks over the peers read on entry. -/
theorem fan_out_in_peer_order (env : Env) (w : World) (port : PortId) (buffer : PinosBuffer)
    (hread : read_buffer env port = .ok buffer) :
    deliveries (pinos_port_send_buffer env w port buffer).log =
      (free_peers w (w port).peers).map (fun q => (q, buffer)) ∧
    deliveries (on_socket_condition env w port .G_IO_IN).log =
      (free_peers (heap_at_fan_out w port buffer) (w port).peers).map (fun q => (q, buffer)) ∧
    (∀ res err, send_buffer_for env buffer port (w port).peers.length 0 w res err =
      send_buffer_loop env buffer (w port).peers w res err) ∧
    socket_condition_for env buffer port (w port).peers.length 0 w =
      socket_condition_loop env buffer (w port).peers w := by
  refine ⟨?_, ?_, fun res err => ?_, ?_⟩
  · unfold pinos_port_send_buffer
    simp only
    have hev : deliveries (if ((parse_if_control w port buffer).1 port).sockets0 = true
        then [Event.write_buffer port buffer] else []) = [] := by
      split <;> rfl
    rw [deliveries_append, deliveries_append, parse_if_control_deliveries, hev,
      send_buffer_loop_deliveries, (parse_if_control_frame w port buffer).peers,
      free_peers_congr (parse_if_control_buffer w port buffer)]
    rfl
  · unfold on_socket_condition
    simp only [hread]
    rw [deliveries_append, deliveries_append, parse_if_control_deliveries,
      notify_buffer_deliveries, socket_condition_loop_deliveries,
      (notify_buffer_frame _ port buffer).peers, (parse_if_control_frame w port buffer).peers]
    rfl
  · have h := send_buffer_for_eq_loop env buffer port (w port).peers.length 0 w res err
      (by omega)
    rw [h, List.drop_zero]
  · have h := socket_condition_for_eq_loop env buffer port (w port).peers.length 0 w
      (by omega)
    rw [h, List.drop_zero]

theorem fan_out_in_peer_order_witness :
    deliveries (pinos_port_send_buffer env_epipe (run env0 (init_world cfg0) ops_fan_out) 0
      buf0).log =
      (free_peers (run env0 (init_world cfg0) ops_fan_out)
        (run env0 (init_world cfg0) ops_fan_out 0).peers).map (fun q => (q, buf0)) ∧
    deliveries (on_socket_condition env_epipe (run env0 (init_world cfg0) ops_fan_out) 0
      .G_IO_IN).log = [(1, buf0), (2, buf0)] ∧
    (pinos_port_receive_buffer env_epipe (run env0 (init_world cfg0) ops_fan_out) 1 buf0).res
      = false ∧
    (free_peers (run env0 (init_world cfg0) ops_fan_out)
        (run env0 (init_world cfg0) ops_fan_out 0).peers).map (fun q => (q, buf0))
      = [(1, buf0), (2, buf0)] :=
  ⟨(fan_out_in_peer_order env_epipe (run env0 (init_world cfg0) ops_fan_out) 0 buf0 rfl).1,
    by decide, by decide, by decide⟩

/-! ## Format filtering -/

/-- C13, on the code: a NULL that `pinos_port_filter_formats` returns for a
peer goes into the next round as "no filter". The output port 0 offers audio
and has the peers 1 (video) and 2 (audio); the three have no format in common.
Without a filter the call returns the blob "audio/x-raw", the formats of the
last peer, and leaves the `NotFound` error of peer 1 in the error location;
with two levels of recursion the fuel is enough, and more fuel gives the same. -/
theorem filter_formats_restarts_after_null :
    (run env0 (init_world cfg0) ops_two_peers 0).direction = PINOS_DIRECTION_OUTPUT ∧
    (run env0 (init_world cfg0) ops_two_peers 0).peers = [1, 2] ∧
    caps_intersect (caps_intersect (.structures ["audio/x-raw"]) (.structures ["video/x-raw"]))
      (.structures ["audio/x-raw"]) = .structures [] ∧
    pinos_port_filter_formats fa0 formats_mismatch (run env0 (init_world cfg0) ops_two_peers)
      2 0 none none =
      some ⟨some "audio/x-raw",
        some ⟨GIOErrorEnum.G_IO_ERROR_NOT_FOUND, "No compatible format found"⟩, [0, 1, 2]⟩ ∧
    pinos_port_filter_formats fa0 formats_mismatch (run env0 (init_world cfg0) ops_two_peers)
      3 0 none none =
      pinos_port_filter_formats fa0 formats_mismatch (run env0 (init_world cfg0) ops_two_peers)
        2 0 none none := by
  decide

/-- C14, as the code has it: filtering with no filter gives back the possible
formats of a port that has no peers to filter through. For a port that is not
an output or has no peers, whose `possible-formats` after the `format-request`
signal is a string `s` that parses to caps that are not empty,
`pinos_port_filter_formats (port, NULL)` returns these caps as
`gst_caps_to_string` writes them (the blob `s` itself when `s` is in that
form), sets no error and emits `format-request` once, on the port. -/
theorem filter_formats_no_filter (fa : FormatAlgebra) (possible_formats : PortId → Option String)
    (w : World) (fuel : Nat) (port : PortId) (error : Option GError) (s : String)
    (caps : GstCaps) (hs : possible_formats port = some s)
    (hc : fa.gst_caps_from_string s = some caps) (he : fa.gst_caps_is_empty caps = false)
    (hp : (w port).direction ≠ PINOS_DIRECTION_OUTPUT ∨ (w port).peers = []) :
    pinos_port_filter_formats fa possible_formats w (fuel + 1) port none error =
      some ⟨some (fa.gst_caps_to_string caps), error, [port]⟩ ∧
    (fa.gst_caps_to_string caps = s →
      (pinos_port_filter_formats fa possible_formats w (fuel + 1) port none error).map
        FilterOut.res = some (possible_formats port)) := by
  have h : pinos_port_filter_formats fa possible_formats w (fuel + 1) port none error =
      some ⟨some (fa.gst_caps_to_string caps), error, [port]⟩ := by
    unfold pinos_port_filter_formats
    simp only [hs, hc, he, Bool.false_eq_true, if_false]
    rcases hp with hp | hp
    · rw [if_neg hp]
    · rw [hp]
      split <;> rfl
  refine ⟨h, fun hts => ?_⟩
  rw [h, hs, hts]
  rfl

theorem filter_formats_no_filter_witness :
    pinos_port_filter_formats fa0 formats_subset (run env0 (init_world cfg0) ops_two_peers) 1
      1 none none = some ⟨some (fa0.gst_caps_to_string (.structures ["audio/x-raw"])), none, [1]⟩ ∧
    fa0.gst_caps_to_string (.structures ["audio/x-raw"]) = "audio/x-raw" :=
  ⟨(filter_formats_no_filter fa0 formats_subset (run env0 (init_world cfg0) ops_two_peers) 0 1
    none "audio/x-raw" (.structures ["audio/x-raw"]) (by decide) (by decide) (by decide)
    (Or.inl (by decide))).1, by decide⟩

/-- C14, as stated, fails: the output port 0 offers audio and video and has
peers that offer audio only. `pinos_port_filter_formats (port 0, NULL)`
filters through the peers and returns "audio/x-raw", not the possible formats
of port 0. -/
theorem filter_formats_no_filter_narrows :
    formats_subset 0 = some "audio/x-raw; video/x-raw" ∧
    fa0.gst_caps_to_string (.structures ["audio/x-raw", "video/x-raw"])
      = "audio/x-raw; video/x-raw" ∧
    pinos_port_filter_formats fa0 formats_subset (run env0 (init_world cfg0) ops_two_peers) 2
      0 none none = some ⟨some "audio/x-raw", none, [0, 1, 2]⟩ ∧
    (pinos_port_filter_formats fa0 formats_subset (run env0 (init_world cfg0) ops_two_peers) 2
      0 none none).map FilterOut.res ≠ some (formats_subset 0) := by
  decide

/-! ## Frames on the socket -/

namespace Wire

theorem recv_loop_eintr (n : Nat) (faults : List Nat) (q : List Segment)
    (h : ∀ e ∈ faults, e = EINTR) :
    recv_loop n faults q = (.ok (recv_now n q).1, ⟨(recv_now n q).2, []⟩) := by
  induction faults with
  | nil => rfl
  | cons e rest ih =>
    unfold recv_loop
    rw [if_pos (h e (List.mem_cons_self _ _))]
    exact ih (fun x hx => h x (List.mem_cons_of_mem _ hx))

theorem recv_loop_ok (n : Nat) (faults : List Nat) (q : List Segment)
    (x : List Nat × List Nat) (s2 : Socket) (h : recv_loop n faults q = (.ok x, s2)) :
    x = (recv_now n q).1 ∧ s2 = ⟨(recv_now n q).2, []⟩ := by
  induction faults with
  | nil =>
    unfold recv_loop at h
    simp only [Prod.mk.injEq, Except.ok.injEq] at h
    exact ⟨h.1.symm, h.2.symm⟩
  | cons e rest ih =>
    unfold recv_loop at h
    split at h
    · exact ih h
    · simp at h

theorem send_loop_eintr (data fds : List Nat) (faults : List Nat) (q : List Segment)
    (h : ∀ e ∈ faults, e = EINTR) :
    send_loop data fds faults q = (.ok data.length, ⟨q ++ [⟨data, fds⟩], []⟩) := by
  induction faults with
  | nil => rfl
  | cons e rest ih =>
    unfold send_loop
    rw [if_pos (h e (List.mem_cons_self _ _))]
    exact ih (fun x hx => h x (List.mem_cons_of_mem _ hx))

theorem write_at_zero_take (mem bytes : List Nat) :
    (write_at mem 0 bytes).take bytes.length = bytes := by
  simp [write_at]

theorem write_at_zero_take_of_length (mem bytes : List Nat) (n : Nat)
    (h : bytes.length = n) : (write_at mem 0 bytes).take n = bytes := by
  rw [← h]; exact write_at_zero_take mem bytes

/-- A header staged at the start of a memory area and a payload staged behind
it read back as header and payload. -/
theorem write_at_header_payload (mem hdr payload : List Nat) :
    (write_at (write_at mem 0 hdr) hdr.length payload).take (hdr.length + payload.length)
      = hdr ++ payload := by
  simp [write_at, List.take_append_eq_append_take]

/-- A write that is interrupted any number of times and then goes through
puts the frame and its open files on the queue as one segment. -/
theorem write_buffer_ok (sb : PinosStackBuffer) (s : Socket)
    (hf : ∀ e ∈ s.faults, e = EINTR) (hfds : sb.n_fds ≤ MAX_FDS)
    (hsize : sb.size ≤ sb.data.length) :
    write_buffer sb s =
      (.ok (), ⟨s.queue ++ [⟨sb.data.take sb.size, sb.fds.take sb.n_fds⟩], []⟩) := by
  unfold write_buffer
  rw [if_neg (by omega), send_loop_eintr _ _ _ _ hf]
  simp only [List.length_take]
  rw [if_pos (by omega)]

/-- The payload read of a frame whose announced length is what the first
segment of the queue holds. -/
theorem read_payload_ok (hl : StackHeaderLayout) (data payload : List Nat)
    (faults : List Nat) (rest : List Segment) (hf : ∀ e ∈ faults, e = EINTR)
    (hlen : hl.length (data.take hl.size) = payload.length) (hpos : payload ≠ []) :
    read_payload hl data ⟨⟨payload, []⟩ :: rest, faults⟩ =
      (.ok (write_at data hl.size payload), ⟨rest, []⟩) := by
  unfold read_payload
  have hp : 0 < payload.length := List.length_pos.mpr hpos
  rw [hlen, if_pos hp, recv_loop_eintr _ _ _ hf]
  simp [recv_now]

theorem recv_now_header (hs : Nat) (hdr payload fds : List Nat) (rest : List Segment)
    (hh : hdr.length = hs) (hfd : fds.length ≤ MAX_FDS) :
    recv_now hs (⟨hdr ++ payload, fds⟩ :: rest) =
      ((hdr, fds), if payload = [] then rest else ⟨payload, []⟩ :: rest) := by
  unfold recv_now
  have hfds : fds.take MAX_FDS = fds := List.take_of_length_le hfd
  by_cases hp : payload = []
  · subst hp
    simp [hh, hfds]
  · have hpos : 0 < payload.length := List.length_pos.mpr hp
    have hlt : ¬ (hdr ++ payload).length ≤ hs := by
      rw [List.length_append]; omega
    simp only [hlt, if_false, hp, hfds]
    rw [← hh]
    simp

theorem write_at_nil (mem : List Nat) (off : Nat) : write_at mem off [] = mem := by
  simp [write_at]

/-- The read of a frame that fits the staging area: the header and the
payload are staged in `recv_data`, the open files in `recv_fds`. -/
theorem read_buffer_fits (hl : StackHeaderLayout) (fresh : Nat → List Nat)
    (recv_data recv_fds hdr payload fds : List Nat) (rest : List Segment) (faults : List Nat)
    (hh : hdr.length = hl.size) (hp : payload.length = hl.length hdr)
    (hfit : hl.size + payload.length ≤ MAX_BUFFER_SIZE) (hf : ∀ e ∈ faults, e = EINTR)
    (hfd : fds.length ≤ MAX_FDS) :
    read_buffer hl fresh 0 recv_data recv_fds ⟨⟨hdr ++ payload, fds⟩ :: rest, faults⟩ =
      (.ok { data := write_at (write_at recv_data 0 hdr) hl.size payload,
             max_size := MAX_BUFFER_SIZE, size := hl.size + payload.length,
             free_data := false, fds := (scm_rights recv_fds fds).1, max_fds := 0,
             n_fds := (scm_rights recv_fds fds).2, refcount := 1, magic := PSB_MAGIC },
        ⟨rest, []⟩) := by
  unfold read_buffer
  have htake : (write_at recv_data 0 hdr).take hl.size = hdr :=
    write_at_zero_take_of_length _ _ _ hh
  simp only [ne_eq, not_true_eq_false, if_false, recv_loop_eintr _ _ _ hf,
    recv_now_header hl.size hdr payload fds rest hh hfd, hh, htake]
  have hnr : ¬ MAX_BUFFER_SIZE < hl.size + hl.length hdr := by omega
  simp only [hnr, decide_False, Bool.false_eq_true, if_false]
  by_cases hpe : payload = []
  · subst hpe
    have hz : hl.length hdr = 0 := by simpa using hp.symm
    simp [read_payload, htake, hz, write_at_nil]
  · rw [if_neg hpe, read_payload_ok hl _ payload [] rest (by simp) (by rw [htake, hp]) hpe]
    simp [hp]

/-- The read of a frame that does not fit the staging area: `sb->data` and
`hdr` are moved to fresh memory, the header that was read stays behind in the
staging area, and `hdr->length` is then read from the fresh memory. When that
reads as zero, no payload is read: the buffer returned holds what the fresh
memory held, and the payload stays on the socket. -/
theorem read_buffer_oversize (hl : StackHeaderLayout) (fresh : Nat → List Nat)
    (recv_data recv_fds hdr payload fds : List Nat) (rest : List Segment) (faults : List Nat)
    (hh : hdr.length = hl.size) (hov : MAX_BUFFER_SIZE < hl.size + hl.length hdr)
    (hf : ∀ e ∈ faults, e = EINTR) (hfd : fds.length ≤ MAX_FDS) (hpe : payload ≠ [])
    (hz : hl.length ((fresh (hl.size + hl.length hdr)).take hl.size) = 0) :
    read_buffer hl fresh 0 recv_data recv_fds ⟨⟨hdr ++ payload, fds⟩ :: rest, faults⟩ =
      (.ok { data := fresh (hl.size + hl.length hdr),
             max_size := hl.size + hl.length hdr, size := hl.size + hl.length hdr,
             free_data := true, fds := (scm_rights recv_fds fds).1, max_fds := 0,
             n_fds := (scm_rights recv_fds fds).2, refcount := 1, magic := PSB_MAGIC },
        ⟨⟨payload, []⟩ :: rest, []⟩) := by
  unfold read_buffer
  have htake : (write_at recv_data 0 hdr).take hl.size = hdr :=
    write_at_zero_take_of_length _ _ _ hh
  simp only [ne_eq, not_true_eq_false, if_false, recv_loop_eintr _ _ _ hf,
    recv_now_header hl.size hdr payload fds rest hh hfd, hh, htake, hov, decide_True,
    if_true, if_neg hpe]
  simp [read_payload, hz]

/-- What a read that returns a buffer decided about the staging: the size of
the frame is the header size plus the announced length, the staging area is
kept when the frame is at most `MAX_BUFFER_SIZE` bytes, and fresh memory of
the size of the frame is taken otherwise. -/
theorem read_buffer_staging (hl : StackHeaderLayout) (fresh : Nat → List Nat)
    (recv_data recv_fds : List Nat) (s s2 : Socket) (sb : PinosStackBuffer)
    (h : read_buffer hl fresh 0 recv_data recv_fds s = (.ok sb, s2)) :
    sb.size = hl.size + hl.length (recv_now hl.size s.queue).1.1 ∧
    sb.free_data = decide (MAX_BUFFER_SIZE < sb.size) ∧
    sb.max_size = (if MAX_BUFFER_SIZE < sb.size then sb.size else MAX_BUFFER_SIZE) ∧
    sb.refcount = 1 := by
  unfold read_buffer at h
  simp only [ne_eq, not_true_eq_false, if_false] at h
  split at h
  · simp at h
  · rename_i bytes cmsg s1 hrecv
    have hb := (recv_loop_ok _ _ _ _ _ hrecv).1
    split at h
    · simp at h
    · rename_i hlen
      have hlen2 : bytes.length = hl.size := by
        by_contra hne; exact hlen hne
      have htake : (write_at recv_data 0 bytes).take hl.size = bytes :=
        write_at_zero_take_of_length _ _ _ hlen2
      have hbytes : bytes = (recv_now hl.size s.queue).1.1 := by
        rw [← hb]
      simp only [htake] at h
      split at h
      · simp at h
      · simp at h
      · simp only [Prod.mk.injEq, Outcome.ok.injEq] at h
        rw [← h.1, ← hbytes]
        simp

theorem hl16_length_header16 (n : Nat) (hn : n < 4294967296) :
    hl16.length (header16 n) = n := by
  simp only [hl16, header16, List.cons_append, List.nil_append, List.getD_cons_zero,
    List.getD_cons_succ]
  omega

theorem frame16_data_length (n : Nat) : (frame16 n).data.length = 16 + n := by
  simp [frame16, header16]
  omega

theorem header16_length (n : Nat) : (header16 n).length = 16 := by
  simp [header16]

theorem frame16_on_socket (n : Nat) :
    write_buffer (frame16 n) socket0 = (.ok (), ⟨[segment16 n], []⟩) := by
  rw [write_buffer_ok (frame16 n) socket0 (by simp [socket0]) (by simp [frame16, MAX_FDS])
    (by rw [frame16_data_length]; simp [frame16])]
  have hd : (frame16 n).data.take (frame16 n).size = (frame16 n).data :=
    List.take_of_length_le (by rw [frame16_data_length]; simp [frame16])
  rw [hd]
  simp [frame16, socket0, segment16]

/-- The read of `frame16 n` when header and payload fit the staging area. -/
theorem read_frame16_fits (n : Nat) (hn : 16 + n ≤ 1024) (faults : List Nat)
    (hf : ∀ e ∈ faults, e = EINTR) :
    read_buffer hl16 zeros 0 (zeros 1024) (zeros 16) ⟨[segment16 n], faults⟩ =
      (.ok (staged16 n), ⟨[], []⟩) := by
  have h := read_buffer_fits hl16 zeros (zeros 1024) (zeros 16) (header16 n)
    (List.replicate n 7) [3, 5] [] faults (header16_length n)
    (by rw [hl16_length_header16 n (by omega)]; simp)
    (by simp [hl16, MAX_BUFFER_SIZE]; omega) hf (by simp [MAX_FDS])
  simp only [List.length_replicate] at h
  exact h

/-- The read of `frame16 n` when header and payload do not fit the staging
area and the fresh memory holds zeros: the header is lost and the payload
stays on the socket. -/
theorem read_frame16_oversize (n : Nat) (hn : 1024 < 16 + n) (hn2 : n < 4294967296)
    (faults : List Nat) (hf : ∀ e ∈ faults, e = EINTR) :
    read_buffer hl16 zeros 0 (zeros 1024) (zeros 16) ⟨[segment16 n], faults⟩ =
      (.ok (lost16 n), ⟨[⟨List.replicate n 7, []⟩], []⟩) := by
  have hlen := hl16_length_header16 n hn2
  have h := read_buffer_oversize hl16 zeros (zeros 1024) (zeros 16) (header16 n)
    (List.replicate n 7) [3, 5] [] faults (header16_length n)
    (by rw [hlen]; simpa [hl16, MAX_BUFFER_SIZE] using hn) hf (by simp [MAX_FDS])
    (by
      intro he
      have := congrArg List.length he
      simp at this
      omega)
    (by
      rw [hlen]
      have h16 : (zeros (hl16.size + n)).take hl16.size = List.replicate 16 0 := by
        simp [zeros, hl16, List.take_replicate]
      rw [h16]
      decide)
  rw [hlen] at h
  exact h

/-- Framing round trip for a frame that fits the staging area: for a buffer
whose header and payload together are at most `MAX_BUFFER_SIZE` bytes, with at
most `MAX_FDS` open files, `write_buffer` on one end of a fresh socket pair
and `read_buffer` on the other, each interrupted any number of times, give a
buffer with the same header, the same payload and the same open files,
reference count one, held in the staging area. -/
theorem round_trip_in_staging (hl : StackHeaderLayout) (fresh : Nat → List Nat)
    (recv_data recv_fds : List Nat) (sb : PinosStackBuffer) (fw fr : List Nat)
    (hw : ∀ e ∈ fw, e = EINTR) (hr : ∀ e ∈ fr, e = EINTR)
    (hdata : sb.size ≤ sb.data.length)
    (hlen : sb.size = hl.size + hl.length (sb.header hl))
    (hfds : sb.n_fds ≤ MAX_FDS) (hfdl : sb.n_fds ≤ sb.fds.length)
    (hfit : sb.size ≤ MAX_BUFFER_SIZE) :
    ∃ rb, read_buffer hl fresh 0 recv_data recv_fds
        ⟨(write_buffer sb ⟨[], fw⟩).2.queue, fr⟩ = (.ok rb, ⟨[], []⟩) ∧
      rb.header hl = sb.header hl ∧ rb.payload hl = sb.payload hl ∧
      rb.fd_list = sb.fd_list ∧ rb.size = sb.size ∧ rb.refcount = 1 ∧
      rb.free_data = false := by
  have hhs : hl.size ≤ sb.size := by omega
  have hsplit : sb.data.take sb.size = sb.header hl ++ sb.payload hl := by
    unfold PinosStackBuffer.header PinosStackBuffer.payload
    have : sb.data.take hl.size = (sb.data.take sb.size).take hl.size := by
      rw [List.take_take, Nat.min_eq_left hhs]
    rw [this, List.take_append_drop]
  have hhl : (sb.header hl).length = hl.size := by
    unfold PinosStackBuffer.header
    rw [List.length_take]; omega
  have hpl : (sb.payload hl).length = hl.length (sb.header hl) := by
    unfold PinosStackBuffer.payload
    rw [List.length_drop, List.length_take]; omega
  have hfl : sb.fd_list.length ≤ MAX_FDS := by
    unfold PinosStackBuffer.fd_list
    rw [List.length_take]; omega
  rw [write_buffer_ok sb ⟨[], fw⟩ hw hfds hdata]
  simp only [List.nil_append, hsplit]
  have hrd := read_buffer_fits hl fresh recv_data recv_fds (sb.header hl) (sb.payload hl)
    sb.fd_list [] fr hhl hpl (by omega) hr hfl
  refine ⟨_, hrd, ?_, ?_, ?_, ?_, rfl, rfl⟩
  · show (write_at (write_at recv_data 0 (sb.header hl)) hl.size (sb.payload hl)).take hl.size
      = sb.header hl
    rw [← hhl]
    simp [write_at]
  · show ((write_at (write_at recv_data 0 (sb.header hl)) hl.size (sb.payload hl)).take
      (hl.size + (sb.payload hl).length)).drop hl.size = sb.payload hl
    have := write_at_header_payload recv_data (sb.header hl) (sb.payload hl)
    rw [hhl] at this
    rw [this, ← hhl, List.drop_left]
  · show ((scm_rights recv_fds sb.fd_list).1).take (scm_rights recv_fds sb.fd_list).2
      = sb.fd_list
    unfold scm_rights
    split
    · rename_i he; rw [he]; rfl
    · exact write_at_zero_take _ _
  · show hl.size + (sb.payload hl).length = sb.size
    omega

theorem frame16_header (n : Nat) : (frame16 n).header hl16 = header16 n := by
  unfold PinosStackBuffer.header frame16
  simp only [hl16]
  rw [← header16_length n, List.take_left]

theorem frame16_payload (n : Nat) : (frame16 n).payload hl16 = List.replicate n 7 := by
  unfold PinosStackBuffer.payload
  have hd : (frame16 n).data.take (frame16 n).size = (frame16 n).data :=
    List.take_of_length_le (by rw [frame16_data_length]; simp [frame16])
  rw [hd]
  simp only [frame16, hl16]
  rw [← header16_length n, List.drop_left]

theorem lost16_header (n : Nat) : (lost16 n).header hl16 = List.replicate 16 0 := by
  simp [PinosStackBuffer.header, lost16, hl16, zeros, List.take_replicate]

theorem lost16_payload (n : Nat) : (lost16 n).payload hl16 = List.replicate n 0 := by
  simp [PinosStackBuffer.payload, lost16, hl16, zeros, List.take_replicate,
    List.drop_replicate]

theorem replicate_zero_ne_seven (n : Nat) (h : 0 < n) :
    (List.replicate n 0 : List Nat) ≠ List.replicate n 7 := by
  cases n with
  | zero => omega
  | succ m => simp [List.replicate_succ]

/-- C15, on the code: the round trip loses the header of a frame whose payload
is within `MAX_BUFFER_SIZE` but which, with its header, is not. A buffer with a
16 byte header, 1024 payload bytes and two open files is written on a fresh
socket pair; `read_buffer` reads the header into the staging area, moves
`hdr` to fresh memory without the header, and returns a buffer whose header is
what the fresh memory held (zeros here), with the payload left on the socket. -/
theorem round_trip_loses_header_at_1024 :
    ((frame16 1024).payload hl16).length = 1024 ∧ (frame16 1024).n_fds = 2 ∧
    write_buffer (frame16 1024) socket0 = (.ok (), ⟨[segment16 1024], []⟩) ∧
    read_buffer hl16 zeros 0 (zeros 1024) (zeros 16) ⟨[segment16 1024], [EINTR]⟩ =
      (.ok (lost16 1024), ⟨[⟨List.replicate 1024 7, []⟩], []⟩) ∧
    (lost16 1024).header hl16 = List.replicate 16 0 ∧
    (frame16 1024).header hl16 = header16 1024 ∧
    header16 1024 ≠ List.replicate 16 0 :=
  ⟨by rw [frame16_payload, List.length_replicate], rfl, frame16_on_socket 1024,
    read_frame16_oversize 1024 (by omega) (by omega) [EINTR] (by simp),
    lost16_header 1024, frame16_header 1024, by decide⟩

/-- C16, as the code has it: the staging area holds the header and the
payload. A read that returns a buffer keeps the staging area (no fresh
memory, `max_size = MAX_BUFFER_SIZE`) exactly when the header size plus the
announced payload length is at most `MAX_BUFFER_SIZE`, and takes fresh memory
of exactly that sum otherwise. -/
theorem staging_boundary (hl : StackHeaderLayout) (fresh : Nat → List Nat)
    (recv_data recv_fds : List Nat) (s s2 : Socket) (sb : PinosStackBuffer)
    (h : read_buffer hl fresh 0 recv_data recv_fds s = (.ok sb, s2)) :
    (sb.free_data = false ∧ sb.max_size = MAX_BUFFER_SIZE ↔
      hl.size + hl.length (recv_now hl.size s.queue).1.1 ≤ MAX_BUFFER_SIZE) ∧
    (sb.free_data = true ∧ sb.max_size = hl.size + hl.length (recv_now hl.size s.queue).1.1 ↔
      MAX_BUFFER_SIZE + 1 ≤ hl.size + hl.length (recv_now hl.size s.queue).1.1) := by
  obtain ⟨hsz, hfree, hmax, _⟩ := read_buffer_staging hl fresh recv_data recv_fds s s2 sb h
  by_cases hc : MAX_BUFFER_SIZE < sb.size
  · have hf : sb.free_data = true := by rw [hfree]; exact decide_eq_true hc
    have hm : sb.max_size = sb.size := by rw [hmax, if_pos hc]
    refine ⟨⟨fun h2 => ?_, fun h2 => ?_⟩, ⟨fun _ => ?_, fun _ => ⟨hf, by rw [hm, hsz]⟩⟩⟩
    · rw [hf] at h2; exact absurd h2.1 (by simp)
    · omega
    · omega
  · have hf : sb.free_data = false := by rw [hfree]; exact decide_eq_false hc
    have hm : sb.max_size = MAX_BUFFER_SIZE := by rw [hmax, if_neg hc]
    refine ⟨⟨fun _ => ?_, fun _ => ⟨hf, hm⟩⟩, ⟨fun h2 => ?_, fun h2 => ?_⟩⟩
    · omega
    · rw [hf] at h2; exact absurd h2.1 (by simp)
    · omega

theorem staging_boundary_witness :
    ((staged16 1008).free_data = false ∧ (staged16 1008).max_size = MAX_BUFFER_SIZE ↔
      hl16.size + hl16.length (recv_now hl16.size (Socket.mk [segment16 1008] []).queue).1.1
        ≤ MAX_BUFFER_SIZE) ∧
    (staged16 1008).free_data = false ∧ (staged16 1008).max_size = 1024 ∧
    (staged16 1008).size = 1024 :=
  ⟨(staging_boundary hl16 zeros (zeros 1024) (zeros 16) ⟨[segment16 1008], []⟩ ⟨[], []⟩
      (staged16 1008) (read_frame16_fits 1008 (by omega) [] (by simp))).1, rfl, rfl, rfl⟩

/-- C16, as stated, fails: a header of 16 bytes announces a payload of exactly
1024 bytes. Header and payload are 1040 bytes, more than the staging area
holds, and `read_buffer` takes fresh memory: `free_data` is set and
`max_size` is 1040. -/
theorem staging_left_at_payload_1024 :
    hl16.length (header16 1024) = 1024 ∧
    read_buffer hl16 zeros 0 (zeros 1024) (zeros 16) ⟨[segment16 1024], []⟩ =
      (.ok (lost16 1024), ⟨[⟨List.replicate 1024 7, []⟩], []⟩) ∧
    (lost16 1024).free_data = true ∧ (lost16 1024).max_size = 1040 ∧
    ¬ ((lost16 1024).free_data = false ∧ (lost16 1024).max_size = MAX_BUFFER_SIZE) :=
  ⟨hl16_length_header16 1024 (by omega),
    read_frame16_oversize 1024 (by omega) (by omega) [] (by simp), rfl, rfl,
    fun h => absurd h.1 (by decide)⟩

/-- C17, on the code: the oversize read loses the header. A header of 16 bytes
announces 1025 payload bytes; `read_buffer` reads it into the staging area,
takes fresh memory of 1041 bytes and points `hdr` at it without copying the
header. The buffer it returns has the size 1041, but its header is what the
fresh memory held (zeros here, which announce no payload), no payload byte is
read, and the 1025 bytes stay on the socket. -/
theorem oversize_read_loses_header :
    hl16.length (header16 1025) = 1025 ∧
    read_buffer hl16 zeros 0 (zeros 1024) (zeros 16) ⟨[segment16 1025], []⟩ =
      (.ok (lost16 1025), ⟨[⟨List.replicate 1025 7, []⟩], []⟩) ∧
    (lost16 1025).size = 1041 ∧
    (lost16 1025).header hl16 = List.replicate 16 0 ∧
    header16 1025 ≠ List.replicate 16 0 ∧
    (lost16 1025).payload hl16 = List.replicate 1025 0 ∧
    (List.replicate 1025 0 : List Nat) ≠ List.replicate 1025 7 :=
  ⟨hl16_length_header16 1025 (by omega),
    read_frame16_oversize 1025 (by omega) (by omega) [] (by simp), rfl,
    lost16_header 1025, by decide, lost16_payload 1025, replicate_zero_ne_seven 1025 (by omega)⟩

end Wire


/-! ## The context -/

namespace Ctx

open PinosContextState PinosSubscriptionState PinosSubscriptionFlags PinosSubscriptionEvent

@[simp] theorem context_set_state_state (c : PinosContext) (s : PinosContextState)
    (e : Option GError) : (context_set_state c s e).state = s := by
  unfold context_set_state
  by_cases h : c.state ≠ s
  · rw [if_pos h]
  · rw [if_neg h]; exact not_not.mp h

@[simp] theorem context_set_state_client (c : PinosContext) (s : PinosContextState)
    (e : Option GError) : (context_set_state c s e).client = c.client := by
  unfold context_set_state; split <;> rfl

@[simp] theorem context_set_state_daemon (c : PinosContext) (s : PinosContextState)
    (e : Option GError) : (context_set_state c s e).daemon = c.daemon := by
  unfold context_set_state; split <;> rfl

@[simp] theorem context_set_state_connect_client_calls (c : PinosContext)
    (s : PinosContextState) (e : Option GError) :
    (context_set_state c s e).connect_client_calls = c.connect_client_calls := by
  unfold context_set_state; split <;> rfl

@[simp] theorem context_set_state_get_proxy_calls (c : PinosContext)
    (s : PinosContextState) (e : Option GError) :
    (context_set_state c s e).get_proxy_calls = c.get_proxy_calls := by
  unfold context_set_state; split <;> rfl

@[simp] theorem context_set_state_disconnect_calls (c : PinosContext)
    (s : PinosContextState) (e : Option GError) :
    (context_set_state c s e).disconnect_calls = c.disconnect_calls := by
  unfold context_set_state; split <;> rfl

@[simp] theorem context_set_state_scheduled_connect (c : PinosContext)
    (s : PinosContextState) (e : Option GError) :
    (context_set_state c s e).scheduled_connect = c.scheduled_connect := by
  unfold context_set_state; split <;> rfl

@[simp] theorem context_set_state_scheduled_disconnect (c : PinosContext)
    (s : PinosContextState) (e : Option GError) :
    (context_set_state c s e).scheduled_disconnect = c.scheduled_disconnect := by
  unfold context_set_state; split <;> rfl

@[simp] theorem context_set_state_crashed (c : PinosContext)
    (s : PinosContextState) (e : Option GError) :
    (context_set_state c s e).crashed = c.crashed := by
  unfold context_set_state; split <;> rfl

/-- After `context_set_state` with an error, or on a context that has one, the
context has an error whenever the new state differs from the old one or the
context had an error before. -/
theorem context_set_state_error (c : PinosContext) (s : PinosContextState)
    (e : Option GError) (h : c.state = s → c.error ≠ none) (he : c.error ≠ none ∨ e ≠ none) :
    (context_set_state c s e).error ≠ none := by
  unfold context_set_state
  by_cases hs : c.state ≠ s
  · rw [if_pos hs]
    cases e with
    | none => simpa using he
    | some x => simp
  · rw [if_neg hs]; exact h (not_not.mp hs)

/-- The function `context_set_state` never takes an error away. -/
theorem context_set_state_error_kept (c : PinosContext) (s : PinosContextState)
    (e : Option GError) (h : c.error ≠ none) : (context_set_state c s e).error ≠ none :=
  context_set_state_error c s e (fun _ => h) (Or.inl h)

theorem run_append (c : PinosContext) (l1 l2 : List Input) :
    run c (l1 ++ l2) = run (run c l1) l2 := by
  induction l1 generalizing c with
  | nil => rfl
  | cons i rest ih => exact ih (step c i)

theorem context_reachableBy_run (ok : Input → Prop) (l : List Input) (c : PinosContext)
    (hc : ReachableBy ok c) (hl : ∀ i ∈ l, ok i) : ReachableBy ok (run c l) := by
  induction l generalizing c with
  | nil => exact hc
  | cons i rest ih =>
    exact ih (step c i) (ReachableBy.step c i hc (hl i (List.mem_cons_self i rest)))
      (fun j hj => hl j (List.mem_cons_of_mem i hj))

theorem reachable_run (l : List Input) : Reachable (run pinos_context_init l) :=
  context_reachableBy_run (fun _ => True) l pinos_context_init ReachableBy.init (fun _ _ => trivial)

/-- An invariant of `step` holds after every list of inputs. -/
theorem run_invariant (P : PinosContext → Prop) (ok : Input → Prop)
    (hstep : ∀ c i, P c → ok i → P (step c i)) (l : List Input) (c : PinosContext)
    (hc : P c) (hl : ∀ i ∈ l, ok i) : P (run c l) := by
  induction l generalizing c with
  | nil => exact hc
  | cons i rest ih =>
    exact ih (step c i) (hstep c i hc (hl i (List.mem_cons_self i rest)))
      (fun j hj => hl j (List.mem_cons_of_mem i hj))

theorem subscription_cb_client (c : PinosContext) (event : PinosSubscriptionEvent)
    (flags : PinosSubscriptionFlags) (object : Nat) :
    (subscription_cb c event flags object).client = c.client := by
  unfold subscription_cb
  cases flags <;> cases event <;> simp <;> split <;> (try split) <;> simp

theorem subscription_cb_state (c : PinosContext) (event : PinosSubscriptionEvent)
    (flags : PinosSubscriptionFlags) (object : Nat) :
    (subscription_cb c event flags object).state = c.state ∨
      (subscription_cb c event flags object).state = PINOS_CONTEXT_STATE_ERROR := by
  unfold subscription_cb
  cases flags <;> cases event <;> simp <;> split <;> (try split) <;> simp

theorem subscription_cb_daemon (c : PinosContext) (event : PinosSubscriptionEvent)
    (flags : PinosSubscriptionFlags) (object : Nat) :
    (subscription_cb c event flags object).daemon =
      if flags = PINOS_SUBSCRIPTION_FLAG_DAEMON then some object else c.daemon := by
  unfold subscription_cb
  cases flags <;> cases event <;> simp <;> split <;> (try split) <;> simp

theorem subscription_cb_calls (c : PinosContext) (event : PinosSubscriptionEvent)
    (flags : PinosSubscriptionFlags) (object : Nat) :
    (subscription_cb c event flags object).connect_client_calls = c.connect_client_calls ∧
    (subscription_cb c event flags object).get_proxy_calls = c.get_proxy_calls ∧
    (subscription_cb c event flags object).disconnect_calls = c.disconnect_calls ∧
    (subscription_cb c event flags object).scheduled_disconnect = c.scheduled_disconnect := by
  unfold subscription_cb
  cases flags <;> cases event <;> simp <;> split <;> (try split) <;> simp

/-- A context in Ready has a client proxy: one step. -/
theorem step_ready_client (c : PinosContext) (i : Input)
    (h : c.state = PINOS_CONTEXT_STATE_READY → c.client ≠ none) :
    (step c i).state = PINOS_CONTEXT_STATE_READY → (step c i).client ≠ none := by
  unfold step
  by_cases hc : c.crashed = true
  · rw [if_pos hc]; exact h
  rw [if_neg hc]
  cases i with
  | connect flags =>
    simp only [handle, pinos_context_connect]
    by_cases h1 : c.connection ≠ none
    · rw [if_pos h1]; exact h
    · rw [if_neg h1]; simp
  | disconnect =>
    simp only [handle, pinos_context_disconnect]
    by_cases h1 : c.disconnecting = true
    · rw [if_pos h1]; exact h
    · rw [if_neg h1]
      by_cases h2 : c.client = none
      · rw [if_pos h2]; simp [finish_client_disconnect]
      · rw [if_neg h2]; exact h
  | set_subscription_mask mask => exact h
  | run_do_connect =>
    simp only [handle]
    by_cases h1 : 0 < c.scheduled_connect
    · rw [if_pos h1]; exact h
    · rw [if_neg h1]; exact h
  | run_do_disconnect =>
    simp only [handle]
    by_cases h1 : 0 < c.scheduled_disconnect
    · rw [if_pos h1]; simp only [do_disconnect]; split <;> exact h
    · rw [if_neg h1]; exact h
  | name_appeared connection =>
    simp only [handle]
    by_cases h1 : c.id ≠ 0
    · rw [if_pos h1]; exact h
    · rw [if_neg h1]; exact h
  | name_vanished connection =>
    simp only [handle]
    by_cases h1 : c.id ≠ 0
    · rw [if_pos h1]; simp only [on_name_vanished]; split <;> simp
    · rw [if_neg h1]; exact h
  | subscribe_state state =>
    cases state <;> simp only [handle, subscription_state] <;> try exact h
    simp only [on_daemon_connected]; split <;> simp
  | subscription event flags object =>
    simp only [handle]
    rw [subscription_cb_client]
    intro hs
    rcases subscription_cb_state c event flags object with h1 | h1
    · exact h (h1 ▸ hs)
    · rw [h1] at hs; cases hs
  | client_connected result =>
    simp only [handle]
    by_cases h1 : 0 < c.connect_client_calls
    · rw [if_pos h1]; simp only [on_client_connected]
      split
      · exact h
      · split
        · simp
        · exact h
    · rw [if_neg h1]; exact h
  | client_proxy result =>
    simp only [handle]
    by_cases h1 : 0 < c.get_proxy_calls
    · rw [if_pos h1]; cases result <;> simp [on_client_proxy, PINOS_STREAM_STATE_ERROR]
    · rw [if_neg h1]; exact h
  | client_disconnected result =>
    simp only [handle]
    by_cases h1 : 0 < c.disconnect_calls
    · rw [if_pos h1]; simp only [on_client_disconnected]
      split
      · rename_i hcl
        intro hs
        exact absurd hcl (h hs)
      · split
        · simp
        · simp [finish_client_disconnect]
    · rw [if_neg h1]; exact h

theorem errorInv_set_none (c : PinosContext) (s : PinosContextState)
    (hs : s ≠ PINOS_CONTEXT_STATE_ERROR) : ErrorInv (context_set_state c s none) := by
  intro h
  rw [context_set_state_state] at h
  exact absurd h hs

theorem errorInv_set_some (c : PinosContext) (s : PinosContextState) (x : GError)
    (h : ErrorInv c) : ErrorInv (context_set_state c s (some x)) := by
  unfold context_set_state
  by_cases hs : c.state ≠ s
  · rw [if_pos hs]; intro _; simp
  · rw [if_neg hs]; exact h

theorem subscription_cb_errorInv (c : PinosContext) (event : PinosSubscriptionEvent)
    (flags : PinosSubscriptionFlags) (object : Nat) (h : ErrorInv c) :
    ErrorInv (subscription_cb c event flags object) := by
  have key : ∀ c1 : PinosContext, ErrorInv c1 →
      ErrorInv (if flags ∈ c1.subscription_mask then
        { c1 with log := c1.log ++ [Action.subscription_event event flags object] }
        else c1) := by
    intro c1 h1
    split
    · exact h1
    · exact h1
  unfold subscription_cb
  refine key _ ?_
  cases flags <;> cases event <;> simp <;> first
    | exact h
    | (split <;> first
        | exact h
        | exact errorInv_set_some _ _ _ h)

/-- A context in Error has an error: one step. -/
theorem step_errorInv (c : PinosContext) (i : Input) (h : ErrorInv c) :
    ErrorInv (step c i) := by
  unfold step
  by_cases hc : c.crashed = true
  · rw [if_pos hc]; exact h
  rw [if_neg hc]
  cases i with
  | connect flags =>
    simp only [handle, pinos_context_connect]
    by_cases h1 : c.connection ≠ none
    · rw [if_pos h1]; exact h
    · rw [if_neg h1]; exact errorInv_set_none _ _ (by decide)
  | disconnect =>
    simp only [handle, pinos_context_disconnect]
    by_cases h1 : c.disconnecting = true
    · rw [if_pos h1]; exact h
    · rw [if_neg h1]
      by_cases h2 : c.client = none
      · rw [if_pos h2]; exact errorInv_set_none _ _ (by decide)
      · rw [if_neg h2]; exact h
  | set_subscription_mask mask => exact h
  | run_do_connect =>
    simp only [handle]
    by_cases h1 : 0 < c.scheduled_connect
    · rw [if_pos h1]; exact h
    · rw [if_neg h1]; exact h
  | run_do_disconnect =>
    simp only [handle]
    by_cases h1 : 0 < c.scheduled_disconnect
    · rw [if_pos h1]; simp only [do_disconnect]; split <;> exact h
    · rw [if_neg h1]; exact h
  | name_appeared connection =>
    simp only [handle]
    by_cases h1 : c.id ≠ 0
    · rw [if_pos h1]; exact h
    · rw [if_neg h1]; exact h
  | name_vanished connection =>
    simp only [handle]
    by_cases h1 : c.id ≠ 0
    · rw [if_pos h1]; simp only [on_name_vanished]
      split
      · exact errorInv_set_none _ _ (by decide)
      · exact errorInv_set_some _ _ _ h
    · rw [if_neg h1]; exact h
  | subscribe_state state =>
    cases state <;> simp only [handle, subscription_state] <;> try exact h
    have h2 : ErrorInv (context_set_state c PINOS_CONTEXT_STATE_REGISTERING none) :=
      errorInv_set_none _ _ (by decide)
    simp only [on_daemon_connected]
    split <;> exact h2
  | subscription event flags object =>
    simp only [handle]
    exact subscription_cb_errorInv c event flags object h
  | client_connected result =>
    simp only [handle]
    by_cases h1 : 0 < c.connect_client_calls
    · rw [if_pos h1]; simp only [on_client_connected]
      split
      · exact h
      · split
        · exact errorInv_set_some _ _ _ h
        · exact h
    · rw [if_neg h1]; exact h
  | client_proxy result =>
    simp only [handle]
    by_cases h1 : 0 < c.get_proxy_calls
    · rw [if_pos h1]
      cases result with
      | error e => exact errorInv_set_some _ _ _ h
      | ok proxy => exact errorInv_set_none _ _ (by decide)
    · rw [if_neg h1]; exact h
  | client_disconnected result =>
    simp only [handle]
    by_cases h1 : 0 < c.disconnect_calls
    · rw [if_pos h1]; simp only [on_client_disconnected]
      split
      · exact h
      · split
        · exact errorInv_set_some _ _ _ h
        · exact errorInv_set_none _ _ (by decide)
    · rw [if_neg h1]; exact h

theorem reachable_errorInv (c : PinosContext) (hr : Reachable c) : ErrorInv c := by
  induction hr with
  | init => intro h0; cases h0
  | step c0 i _ _ ih => exact step_errorInv c0 i ih

/-- In every reachable context, Error comes with an error. -/
theorem error_state_has_error (c : PinosContext) (hr : Reachable c)
    (hs : c.state = PINOS_CONTEXT_STATE_ERROR) : c.error ≠ none :=
  reachable_errorInv c hr hs

/-- The daemon proxy stays while no disconnect is called: one step. -/
theorem step_daemonInv (c : PinosContext) (i : Input) (h : DaemonInv c)
    (hi : not_disconnect i) : DaemonInv (step c i) := by
  obtain ⟨h1, h2, h3⟩ := h
  have h3' : (0 < c.connect_client_calls ∨ 0 < c.get_proxy_calls) → c.daemon ≠ none :=
    fun h => h3 (h.elim Or.inl (fun x => Or.inr (Or.inl x)))
  unfold step
  by_cases hc : c.crashed = true
  · rw [if_pos hc]; exact ⟨h1, h2, h3⟩
  rw [if_neg hc]
  cases i with
  | connect flags =>
    simp only [handle, pinos_context_connect]
    by_cases h4 : c.connection ≠ none
    · rw [if_pos h4]; exact ⟨h1, h2, h3⟩
    · rw [if_neg h4]
      refine ⟨by simpa using h1, by simpa using h2, ?_⟩
      simpa using h3'
  | disconnect => exact absurd hi (by simp [not_disconnect])
  | set_subscription_mask mask => exact ⟨h1, h2, h3⟩
  | run_do_connect =>
    simp only [handle]
    by_cases h4 : 0 < c.scheduled_connect
    · rw [if_pos h4]; exact ⟨h1, h2, h3⟩
    · rw [if_neg h4]; exact ⟨h1, h2, h3⟩
  | run_do_disconnect =>
    simp only [handle]
    rw [if_neg (by omega)]; exact ⟨h1, h2, h3⟩
  | name_appeared connection =>
    simp only [handle]
    by_cases h4 : c.id ≠ 0
    · rw [if_pos h4]; exact ⟨h1, h2, h3⟩
    · rw [if_neg h4]; exact ⟨h1, h2, h3⟩
  | name_vanished connection =>
    simp only [handle]
    by_cases h4 : c.id ≠ 0
    · rw [if_pos h4]; simp only [on_name_vanished]
      split
      · refine ⟨by simpa using h1, by simpa using h2, ?_⟩
        simpa using h3'
      · refine ⟨by simpa using h1, by simpa using h2, ?_⟩
        simpa using h3'
    · rw [if_neg h4]; exact ⟨h1, h2, h3⟩
  | subscribe_state state =>
    cases state <;> simp only [handle, subscription_state] <;> try exact ⟨h1, h2, h3⟩
    simp only [on_daemon_connected]
    split
    · rename_i d hd
      simp only [context_set_state_daemon] at hd
      refine ⟨by simpa using h1, by simpa using h2, ?_⟩
      intro _
      simp [hd]
    · refine ⟨by simpa using h1, by simpa using h2, ?_⟩
      simpa using h3'
  | subscription event flags object =>
    simp only [handle]
    obtain ⟨e1, e2, e3, e4⟩ := subscription_cb_calls c event flags object
    refine ⟨by rw [e4]; exact h1, by rw [e3]; exact h2, ?_⟩
    rw [e1, e2, subscription_cb_daemon]
    intro h5
    by_cases h6 : flags = PINOS_SUBSCRIPTION_FLAG_DAEMON
    · rw [if_pos h6]; simp
    · rw [if_neg h6]
      apply h3
      rcases h5 with h5 | h5 | h5
      · exact Or.inl h5
      · exact Or.inr (Or.inl h5)
      · rcases subscription_cb_state c event flags object with h7 | h7
        · exact Or.inr (Or.inr (h7 ▸ h5))
        · rw [h7] at h5; cases h5
  | client_connected result =>
    simp only [handle]
    by_cases h4 : 0 < c.connect_client_calls
    · rw [if_pos h4]
      have hd : c.daemon ≠ none := h3 (Or.inl h4)
      simp only [on_client_connected]
      split
      · rename_i hn; exact absurd hn hd
      · split
        · refine ⟨by simpa using h1, by simpa using h2, ?_⟩
          intro _; simpa using hd
        · exact ⟨h1, h2, fun _ => hd⟩
    · rw [if_neg h4]; exact ⟨h1, h2, h3⟩
  | client_proxy result =>
    simp only [handle]
    by_cases h4 : 0 < c.get_proxy_calls
    · rw [if_pos h4]
      have hd : c.daemon ≠ none := h3 (Or.inr (Or.inl h4))
      cases result with
      | error e =>
        simp only [on_client_proxy]
        refine ⟨by simpa using h1, by simpa using h2, ?_⟩
        intro _; simpa using hd
      | ok proxy =>
        simp only [on_client_proxy]
        refine ⟨by simpa using h1, by simpa using h2, ?_⟩
        intro _; simpa using hd
    · rw [if_neg h4]; exact ⟨h1, h2, h3⟩
  | client_disconnected result =>
    simp only [handle]
    rw [if_neg (by omega)]; exact ⟨h1, h2, h3⟩

/-- C18, on the code: a connect whose name watch reports that the daemon is
not there puts the context in Error with "Connection closed"; a disconnect
then moves it to Unconnected, and `pinos_context_get_error` still returns that
error. The context is reachable, its state is not Error, and its error is not
NULL. -/
theorem error_outlives_error_state :
    Reachable (run pinos_context_init inputs_error_then_disconnect) ∧
    pinos_context_get_state (run pinos_context_init inputs_error_then_disconnect)
      = PINOS_CONTEXT_STATE_UNCONNECTED ∧
    pinos_context_get_error (run pinos_context_init inputs_error_then_disconnect)
      = some ⟨GIOErrorEnum.G_IO_ERROR_CLOSED, "Connection closed"⟩ :=
  ⟨reachable_run _, by decide, by decide⟩

/-- C19, counterexample: a disconnect that is called while the request for the
client proxy is under way clears the daemon proxy, and the proxy that arrives
afterwards moves the context to Ready: Ready with a client and no daemon. -/
theorem ready_without_daemon :
    Reachable (run pinos_context_init inputs_disconnect_in_handshake) ∧
    (run pinos_context_init inputs_disconnect_in_handshake).state
      = PINOS_CONTEXT_STATE_READY ∧
    (run pinos_context_init inputs_disconnect_in_handshake).daemon = none ∧
    (run pinos_context_init inputs_disconnect_in_handshake).client = some 20 :=
  ⟨reachable_run _, by decide, by decide, by decide⟩

/-- C19, amended: after any list of inputs to a new context (calls,
callbacks and completions in any order), a context in Ready has a client
proxy, and it has a daemon proxy too unless `pinos_context_disconnect` is among
the inputs. -/
theorem ready_has_client (l : List Input)
    (hs : (run pinos_context_init l).state = PINOS_CONTEXT_STATE_READY) :
    (run pinos_context_init l).client ≠ none ∧
    ((run pinos_context_init l).daemon ≠ none ∨ Input.disconnect ∈ l) := by
  constructor
  · exact run_invariant (fun c => c.state = PINOS_CONTEXT_STATE_READY → c.client ≠ none)
      (fun _ => True) (fun c i h _ => step_ready_client c i h) l pinos_context_init
      (fun h => by cases h) (fun _ _ => trivial) hs
  · by_cases hd : Input.disconnect ∈ l
    · exact Or.inr hd
    · left
      have hinv : DaemonInv (run pinos_context_init l) :=
        run_invariant DaemonInv not_disconnect step_daemonInv l pinos_context_init
          ⟨rfl, rfl, fun h => by
            rcases h with h | h | h
            · exact absurd h (by decide)
            · exact absurd h (by decide)
            · cases h⟩
          (fun i hi => by
            cases i <;> trivial)
      exact hinv.2.2 (Or.inr (Or.inr hs))

theorem ready_has_client_witness :
    (run pinos_context_init inputs_handshake).state = PINOS_CONTEXT_STATE_READY ∧
    ((run pinos_context_init inputs_handshake).client ≠ none ∧
      ((run pinos_context_init inputs_handshake).daemon ≠ none ∨
        Input.disconnect ∈ inputs_handshake)) :=
  ⟨by decide, ready_has_client inputs_handshake (by decide)⟩

/-- C20, counterexample: a context that connected with `NoFail` and is in
Error because `ConnectClient` failed goes to Connecting when the name vanishes
and to Registering when the subscribe object reports Ready; no connect call is
involved. -/
theorem error_left_without_connect :
    Reachable (run pinos_context_init inputs_connect_fails) ∧
    (run pinos_context_init inputs_connect_fails).state = PINOS_CONTEXT_STATE_ERROR ∧
    (step (run pinos_context_init inputs_connect_fails) (.name_vanished none)).state
      = PINOS_CONTEXT_STATE_CONNECTING ∧
    (step (run pinos_context_init inputs_connect_fails)
      (.subscribe_state PINOS_SUBSCRIPTION_STATE_READY)).state
      = PINOS_CONTEXT_STATE_REGISTERING :=
  ⟨reachable_run _, by decide, by decide, by decide⟩

/-- C20, amended: on a context in Error (that has not crashed) the state
stays Error at name appeared, at name vanished unless the context connected
with `NoFail` and the name is watched (then Connecting), at subscribe states
other than Ready (Ready gives Registering), at roster deltas, at either
outcome of `ConnectClient`, at a failed proxy resolution (a resolved proxy that
was asked for gives Ready), at a failed `Disconnect` (a successful one that was
called on a client gives Unconnected), at the scheduled calls, and at a
disconnect call unless there is no client and no disconnect under way (then
Unconnected). -/
theorem error_kept_by (c : PinosContext) (hs : c.state = PINOS_CONTEXT_STATE_ERROR)
    (hc : c.crashed = false) (connection : Nat) (vanished : Option Nat)
    (s : PinosSubscriptionState) (event : PinosSubscriptionEvent)
    (flags : PinosSubscriptionFlags) (object : Nat) (r : Except GError String)
    (e : GError) (proxy : Nat) :
    (step c (.name_appeared connection)).state = PINOS_CONTEXT_STATE_ERROR ∧
    (step c (.name_vanished vanished)).state =
      (if c.flags.nofail = true ∧ c.id ≠ 0 then PINOS_CONTEXT_STATE_CONNECTING
        else PINOS_CONTEXT_STATE_ERROR) ∧
    (step c (.subscribe_state s)).state =
      (if s = PINOS_SUBSCRIPTION_STATE_READY then PINOS_CONTEXT_STATE_REGISTERING
        else PINOS_CONTEXT_STATE_ERROR) ∧
    (step c (.subscription event flags object)).state = PINOS_CONTEXT_STATE_ERROR ∧
    (step c (.client_connected r)).state = PINOS_CONTEXT_STATE_ERROR ∧
    (step c (.client_proxy (.error e))).state = PINOS_CONTEXT_STATE_ERROR ∧
    (step c (.client_proxy (.ok proxy))).state =
      (if 0 < c.get_proxy_calls then PINOS_CONTEXT_STATE_READY
        else PINOS_CONTEXT_STATE_ERROR) ∧
    (step c (.client_disconnected (.error e))).state = PINOS_CONTEXT_STATE_ERROR ∧
    (step c (.client_disconnected (.ok ()))).state =
      (if 0 < c.disconnect_calls ∧ c.client ≠ none then PINOS_CONTEXT_STATE_UNCONNECTED
        else PINOS_CONTEXT_STATE_ERROR) ∧
    (step c .run_do_connect).state = PINOS_CONTEXT_STATE_ERROR ∧
    (step c .run_do_disconnect).state = PINOS_CONTEXT_STATE_ERROR ∧
    (step c .disconnect).state =
      (if c.disconnecting = false ∧ c.client = none then PINOS_CONTEXT_STATE_UNCONNECTED
        else PINOS_CONTEXT_STATE_ERROR) := by
  have hstep : ∀ i, step c i = handle c i := by
    intro i; unfold step; rw [hc]; rfl
  simp only [hstep, handle]
  refine ⟨?_, ?_, ?_, ?_, ?_, ?_, ?_, ?_, ?_, ?_, ?_, ?_⟩
  · split <;> exact hs
  · by_cases h1 : c.id ≠ 0
    · rw [if_pos h1]; simp only [on_name_vanished]
      by_cases h2 : c.flags.nofail = true
      · rw [if_pos h2, if_pos ⟨h2, h1⟩]; simp
      · rw [if_neg h2, if_neg (fun h => h2 h.1)]; simp
    · rw [if_neg h1, if_neg (fun h => h1 h.2)]; exact hs
  · cases s
    · rw [if_neg (by decide)]; exact hs
    · rw [if_neg (by decide)]; exact hs
    · rw [if_pos rfl]; simp only [subscription_state, on_daemon_connected]
      split <;> simp
    · rw [if_neg (by decide)]; exact hs
  · rcases subscription_cb_state c event flags object with h1 | h1
    · rw [h1]; exact hs
    · exact h1
  · by_cases h1 : 0 < c.connect_client_calls
    · rw [if_pos h1]; simp only [on_client_connected]
      split
      · exact hs
      · split
        · simp
        · exact hs
    · rw [if_neg h1]; exact hs
  · by_cases h1 : 0 < c.get_proxy_calls
    · rw [if_pos h1]; simp [on_client_proxy, PINOS_STREAM_STATE_ERROR]
    · rw [if_neg h1]; exact hs
  · by_cases h1 : 0 < c.get_proxy_calls
    · rw [if_pos h1, if_pos h1]; simp [on_client_proxy]
    · rw [if_neg h1, if_neg h1]; exact hs
  · by_cases h1 : 0 < c.disconnect_calls
    · rw [if_pos h1]; simp only [on_client_disconnected]
      split
      · exact hs
      · simp
    · rw [if_neg h1]; exact hs
  · by_cases h1 : 0 < c.disconnect_calls
    · rw [if_pos h1]; simp only [on_client_disconnected]
      split
      · rename_i h2
        rw [if_neg (fun h => h.2 h2)]; exact hs
      · rename_i p h2
        have h3 : c.client ≠ none := by
          intro h4; rw [h4] at h2; cases h2
        rw [if_pos ⟨h1, h3⟩]; simp [finish_client_disconnect]
    · rw [if_neg h1, if_neg (fun h => h1 h.1)]; exact hs
  · by_cases h1 : 0 < c.scheduled_connect
    · rw [if_pos h1]; exact hs
    · rw [if_neg h1]; exact hs
  · by_cases h1 : 0 < c.scheduled_disconnect
    · rw [if_pos h1]; simp only [do_disconnect]; split <;> exact hs
    · rw [if_neg h1]; exact hs
  · simp only [pinos_context_disconnect]
    by_cases h1 : c.disconnecting = true
    · rw [if_pos h1, if_neg (fun h => by rw [h.1] at h1; cases h1)]; exact hs
    · rw [if_neg h1]
      have h1' : c.disconnecting = false := by simpa using h1
      by_cases h2 : c.client = none
      · rw [if_pos h2, if_pos ⟨h1', h2⟩]; simp [finish_client_disconnect]
      · rw [if_neg h2, if_neg (fun h => h2 h.2)]; exact hs

theorem error_kept_by_witness :
    (run pinos_context_init inputs_connect_fails).state = PINOS_CONTEXT_STATE_ERROR ∧
    (run pinos_context_init inputs_connect_fails).crashed = false ∧
    (step (run pinos_context_init inputs_connect_fails) (.name_appeared 2)).state
      = PINOS_CONTEXT_STATE_ERROR :=
  ⟨by decide, by decide,
    (error_kept_by (run pinos_context_init inputs_connect_fails) (by decide) (by decide) 2 none
      PINOS_SUBSCRIPTION_STATE_READY PINOS_SUBSCRIPTION_EVENT_NEW
      PINOS_SUBSCRIPTION_FLAG_SOURCE 30 (.ok "/c/1")
      ⟨GIOErrorEnum.G_IO_ERROR_NOT_FOUND, "no such object"⟩ 20).1⟩

theorem step_eq_handle (c : PinosContext) (i : Input) (hc : c.crashed = false) :
    step c i = handle c i := by
  unfold step; rw [hc]; rfl

theorem context_set_state_same (c : PinosContext) (s : PinosContextState)
    (e : Option GError) (h : c.state = s) : context_set_state c s e = c := by
  unfold context_set_state
  rw [if_neg (not_not.mpr h)]

theorem context_set_state_some (c : PinosContext) (s : PinosContextState) (x : GError)
    (h : c.state ≠ s) :
    context_set_state c s (some x) =
      { c with error := some x, state := s, log := c.log ++ [Action.notify_state s] } := by
  unfold context_set_state
  rw [if_pos h]

theorem context_set_state_none (c : PinosContext) (s : PinosContextState)
    (h : c.state ≠ s) :
    context_set_state c s none =
      { c with state := s, log := c.log ++ [Action.notify_state s] } := by
  unfold context_set_state
  rw [if_pos h]

/-- The error after `context_set_state`: the new one when the state changes
and an error is given, the old one otherwise. -/
theorem context_set_state_error_eq (c : PinosContext) (s : PinosContextState)
    (e : Option GError) :
    (context_set_state c s e).error =
      if c.state = s then c.error else (match e with
        | some x => some x
        | none => c.error) := by
  unfold context_set_state
  by_cases h : c.state = s
  · rw [if_neg (not_not.mpr h), if_pos h]
  · rw [if_pos h, if_neg h]

/-- The log after `context_set_state`: one more notification when the state
changes. -/
theorem context_set_state_log (c : PinosContext) (s : PinosContextState)
    (e : Option GError) :
    (context_set_state c s e).log =
      if c.state = s then c.log else c.log ++ [Action.notify_state s] := by
  unfold context_set_state
  by_cases h : c.state = s
  · rw [if_neg (not_not.mpr h), if_pos h]
  · rw [if_pos h, if_neg h]

/-- C21, counterexample: the context is in Error because `ConnectClient`
failed ("no such method"), `NoFail` is not set and the name is watched. A
name-vanished event leaves the state Error and the error of the failed call in
place: the error is not "Connection closed". -/
theorem name_vanished_keeps_first_error :
    (run pinos_context_init inputs_connect_fails_plain).state = PINOS_CONTEXT_STATE_ERROR ∧
    (run pinos_context_init inputs_connect_fails_plain).flags.nofail = false ∧
    (run pinos_context_init inputs_connect_fails_plain).id ≠ 0 ∧
    (step (run pinos_context_init inputs_connect_fails_plain) (.name_vanished none)).state
      = PINOS_CONTEXT_STATE_ERROR ∧
    pinos_context_get_error
      (step (run pinos_context_init inputs_connect_fails_plain) (.name_vanished none))
      = some ⟨GIOErrorEnum.G_IO_ERROR_NOT_FOUND, "no such method"⟩ ∧
    pinos_context_get_error
      (step (run pinos_context_init inputs_connect_fails_plain) (.name_vanished none))
      ≠ some connection_closed := by
  decide

/-- C21, amended: while the name is watched, a name-vanished event moves the
context, from every state, to Connecting when `NoFail` is set and to Error
otherwise. The error becomes "Connection closed" when `NoFail` is not set and
the state was not Error already; in Error, and with `NoFail`, the error is
what it was. -/
theorem name_vanished_transition (c : PinosContext) (vanished : Option Nat)
    (hc : c.crashed = false) (hid : c.id ≠ 0) :
    (step c (.name_vanished vanished)).state =
      (if c.flags.nofail = true then PINOS_CONTEXT_STATE_CONNECTING
        else PINOS_CONTEXT_STATE_ERROR) ∧
    pinos_context_get_error (step c (.name_vanished vanished)) =
      (if c.flags.nofail = true ∨ c.state = PINOS_CONTEXT_STATE_ERROR then c.error
        else some connection_closed) := by
  rw [step_eq_handle c _ hc]
  simp only [handle, pinos_context_get_error]
  rw [if_pos hid]
  simp only [on_name_vanished]
  by_cases hn : c.flags.nofail = true
  · rw [if_pos hn, if_pos hn, if_pos (Or.inl hn)]
    refine ⟨context_set_state_state _ _ _, ?_⟩
    rw [context_set_state_error_eq]
    split <;> rfl
  · rw [if_neg hn, if_neg hn]
    refine ⟨context_set_state_state _ _ _, ?_⟩
    rw [context_set_state_error_eq]
    by_cases hs : c.state = PINOS_CONTEXT_STATE_ERROR
    · rw [if_pos hs, if_pos (Or.inr hs)]
    · rw [if_neg hs, if_neg (fun h => h.elim hn hs)]
      rfl

theorem name_vanished_transition_witness :
    (run pinos_context_init inputs_handshake).crashed = false ∧
    (run pinos_context_init inputs_handshake).id ≠ 0 ∧
    (run pinos_context_init inputs_handshake).state = PINOS_CONTEXT_STATE_READY ∧
    (step (run pinos_context_init inputs_handshake) (.name_vanished none)).state
      = PINOS_CONTEXT_STATE_ERROR ∧
    pinos_context_get_error (step (run pinos_context_init inputs_handshake)
      (.name_vanished none)) = some connection_closed :=
  ⟨by decide, by decide, by decide,
    name_vanished_transition (run pinos_context_init inputs_handshake) none (by decide)
      (by decide)⟩

/-- What `subscription_cb` does to state and error at a Client/Remove. -/
theorem subscription_cb_client_remove (c : PinosContext) (object : Nat) :
    (subscription_cb c PINOS_SUBSCRIPTION_EVENT_REMOVE PINOS_SUBSCRIPTION_FLAG_CLIENT
      object).state =
      (if some object = c.client ∧ c.disconnecting = false then PINOS_CONTEXT_STATE_ERROR
        else c.state) ∧
    (subscription_cb c PINOS_SUBSCRIPTION_EVENT_REMOVE PINOS_SUBSCRIPTION_FLAG_CLIENT
      object).error =
      (if some object = c.client ∧ c.disconnecting = false ∧
          c.state ≠ PINOS_CONTEXT_STATE_ERROR then some client_disappeared
        else c.error) := by
  unfold subscription_cb
  by_cases h : some object = c.client ∧ c.disconnecting = false
  · by_cases hs : c.state = PINOS_CONTEXT_STATE_ERROR
    · simp [h, hs, context_set_state_same]
      constructor <;> split <;> rfl
    · simp [h, hs, context_set_state_some, client_disappeared]
      constructor <;> split <;> rfl
  · have h' : ¬ (some object = c.client ∧ c.disconnecting = false ∧
        c.state ≠ PINOS_CONTEXT_STATE_ERROR) := fun hh => h ⟨hh.1, hh.2.1⟩
    rw [if_neg h, if_neg h']
    simp only [reduceCtorEq, if_false, if_true]
    rw [if_neg h]
    constructor <;> split <;> rfl

/-- C22: in Ready, a Client/Remove for the own client proxy moves the context
to Error with "Client disappeared" when `disconnecting` is not set and changes
neither state nor error when it is, as it is after a call of
`pinos_context_disconnect`; a Client/Remove for another object leaves the
state as it is, in Ready and in every other state. -/
theorem own_client_removed (c c2 : PinosContext) (object other : Nat)
    (hc : c.crashed = false) (hs : c.state = PINOS_CONTEXT_STATE_READY)
    (hcl : c.client = some object) (hne : other ≠ object)
    (h2 : c2.client ≠ some other) :
    (step c (.subscription PINOS_SUBSCRIPTION_EVENT_REMOVE PINOS_SUBSCRIPTION_FLAG_CLIENT
      object)).state =
      (if c.disconnecting = true then PINOS_CONTEXT_STATE_READY
        else PINOS_CONTEXT_STATE_ERROR) ∧
    pinos_context_get_error (step c (.subscription PINOS_SUBSCRIPTION_EVENT_REMOVE
      PINOS_SUBSCRIPTION_FLAG_CLIENT object)) =
      (if c.disconnecting = true then c.error else some client_disappeared) ∧
    (step (step c .disconnect) (.subscription PINOS_SUBSCRIPTION_EVENT_REMOVE
      PINOS_SUBSCRIPTION_FLAG_CLIENT object)).state = PINOS_CONTEXT_STATE_READY ∧
    (step c (.subscription PINOS_SUBSCRIPTION_EVENT_REMOVE PINOS_SUBSCRIPTION_FLAG_CLIENT
      other)).state = PINOS_CONTEXT_STATE_READY ∧
    (step c2 (.subscription PINOS_SUBSCRIPTION_EVENT_REMOVE PINOS_SUBSCRIPTION_FLAG_CLIENT
      other)).state = c2.state := by
  have hstep : ∀ i, step c i = handle c i := fun i => step_eq_handle c i hc
  have hown : some object = c.client := hcl.symm
  have hoth : ¬ (some other = c.client) := by
    rw [hcl]; intro h; exact hne (Option.some.inj h)
  refine ⟨?_, ?_, ?_, ?_, ?_⟩
  · rw [hstep]
    simp only [handle]
    rw [(subscription_cb_client_remove c object).1]
    by_cases hd : c.disconnecting = true
    · rw [if_pos hd, if_neg (fun h => by rw [hd] at h; exact absurd h.2 (by decide))]
      exact hs
    · rw [if_neg hd, if_pos ⟨hown, by simpa using hd⟩]
  · rw [hstep]
    simp only [handle, pinos_context_get_error]
    rw [(subscription_cb_client_remove c object).2]
    by_cases hd : c.disconnecting = true
    · rw [if_pos hd, if_neg (fun h => by rw [hd] at h; exact absurd h.2.1 (by decide))]
    · rw [if_neg hd, if_pos ⟨hown, by simpa using hd, by rw [hs]; decide⟩]
  · have hdis : step c .disconnect = c ∨
        ((step c .disconnect).crashed = false ∧ (step c .disconnect).state = c.state ∧
          (step c .disconnect).disconnecting = true) := by
      rw [hstep]
      simp only [handle, pinos_context_disconnect]
      by_cases hd : c.disconnecting = true
      · rw [if_pos hd]; exact Or.inl rfl
      · rw [if_neg hd, if_neg (by rw [hcl]; simp)]
        exact Or.inr ⟨hc, rfl, rfl⟩
    have hdd : (step c .disconnect).crashed = false ∧
        (step c .disconnect).state = PINOS_CONTEXT_STATE_READY ∧
        ((step c .disconnect).disconnecting = true ∨ c.disconnecting = true) := by
      rcases hdis with h | ⟨h1, h2, h3⟩
      · rw [h]
        by_cases hd : c.disconnecting = true
        · exact ⟨hc, hs, Or.inr hd⟩
        · exfalso
          have h4 := congrArg PinosContext.disconnecting h
          rw [hstep] at h4
          simp only [handle, pinos_context_disconnect] at h4
          rw [if_neg hd, if_neg (by rw [hcl]; simp)] at h4
          simp at h4
          exact hd h4
      · exact ⟨h1, h2.trans hs, Or.inl h3⟩
    obtain ⟨h1, h2, h3⟩ := hdd
    have h3' : (step c .disconnect).disconnecting = true := by
      rcases h3 with h3 | h3
      · exact h3
      · rcases hdis with h | ⟨_, _, h⟩
        · rw [h]; exact h3
        · exact h
    rw [step_eq_handle _ _ h1]
    simp only [handle]
    rw [(subscription_cb_client_remove _ object).1,
      if_neg (fun h => by rw [h3'] at h; exact absurd h.2 (by decide))]
    exact h2
  · rw [hstep]
    simp only [handle]
    rw [(subscription_cb_client_remove c other).1, if_neg (fun h => hoth h.1)]
    exact hs
  · unfold step
    by_cases hx : c2.crashed = true
    · rw [if_pos hx]
    · rw [if_neg hx]
      simp only [handle]
      rw [(subscription_cb_client_remove c2 other).1,
        if_neg (fun h => h2 h.1.symm)]

theorem own_client_removed_witness :
    (run pinos_context_init inputs_handshake).state = PINOS_CONTEXT_STATE_READY ∧
    (run pinos_context_init inputs_handshake).client = some 20 ∧
    (run pinos_context_init inputs_handshake).disconnecting = false ∧
    (step (run pinos_context_init inputs_handshake)
      (.subscription PINOS_SUBSCRIPTION_EVENT_REMOVE PINOS_SUBSCRIPTION_FLAG_CLIENT 20)).state
      = PINOS_CONTEXT_STATE_ERROR ∧
    pinos_context_get_error (step (run pinos_context_init inputs_handshake)
      (.subscription PINOS_SUBSCRIPTION_EVENT_REMOVE PINOS_SUBSCRIPTION_FLAG_CLIENT 20))
      = some client_disappeared ∧
    (step (step (run pinos_context_init inputs_handshake) .disconnect)
      (.subscription PINOS_SUBSCRIPTION_EVENT_REMOVE PINOS_SUBSCRIPTION_FLAG_CLIENT 20)).state
      = PINOS_CONTEXT_STATE_READY ∧
    (step (run pinos_context_init inputs_handshake)
      (.subscription PINOS_SUBSCRIPTION_EVENT_REMOVE PINOS_SUBSCRIPTION_FLAG_CLIENT 21)).state
      = PINOS_CONTEXT_STATE_READY ∧
    (step (run pinos_context_init inputs_registering)
      (.subscription PINOS_SUBSCRIPTION_EVENT_REMOVE PINOS_SUBSCRIPTION_FLAG_CLIENT 21)).state
      = (run pinos_context_init inputs_registering).state :=
  ⟨by decide, by decide, by decide,
    own_client_removed (run pinos_context_init inputs_handshake)
      (run pinos_context_init inputs_registering) 20 21 (by decide) (by decide) (by decide)
      (by decide) (by decide)⟩

/-- C23: the connect happy path. On a new context the inputs connect (with any
flags), the scheduled `do_connect`, name appeared, Daemon/New, subscribe Ready,
a `ConnectClient` that returns a path and the client proxy for it give the
state trace Unconnected, Connecting, Registering, Ready; the context ends in
Ready with the proxy as its client, and `pinos_context_get_error` is NULL. -/
theorem connect_happy_path (flags : PinosContextFlags) (connection daemon proxy : Nat)
    (path : String) :
    state_trace (run pinos_context_init
      [.connect flags, .run_do_connect, .name_appeared connection,
        .subscription PINOS_SUBSCRIPTION_EVENT_NEW PINOS_SUBSCRIPTION_FLAG_DAEMON daemon,
        .subscribe_state PINOS_SUBSCRIPTION_STATE_READY, .client_connected (.ok path),
        .client_proxy (.ok proxy)]) =
      [PINOS_CONTEXT_STATE_UNCONNECTED, PINOS_CONTEXT_STATE_CONNECTING,
        PINOS_CONTEXT_STATE_REGISTERING, PINOS_CONTEXT_STATE_READY] ∧
    pinos_context_get_state (run pinos_context_init
      [.connect flags, .run_do_connect, .name_appeared connection,
        .subscription PINOS_SUBSCRIPTION_EVENT_NEW PINOS_SUBSCRIPTION_FLAG_DAEMON daemon,
        .subscribe_state PINOS_SUBSCRIPTION_STATE_READY, .client_connected (.ok path),
        .client_proxy (.ok proxy)]) = PINOS_CONTEXT_STATE_READY ∧
    pinos_context_get_error (run pinos_context_init
      [.connect flags, .run_do_connect, .name_appeared connection,
        .subscription PINOS_SUBSCRIPTION_EVENT_NEW PINOS_SUBSCRIPTION_FLAG_DAEMON daemon,
        .subscribe_state PINOS_SUBSCRIPTION_STATE_READY, .client_connected (.ok path),
        .client_proxy (.ok proxy)]) = none ∧
    (run pinos_context_init
      [.connect flags, .run_do_connect, .name_appeared connection,
        .subscription PINOS_SUBSCRIPTION_EVENT_NEW PINOS_SUBSCRIPTION_FLAG_DAEMON daemon,
        .subscribe_state PINOS_SUBSCRIPTION_STATE_READY, .client_connected (.ok path),
        .client_proxy (.ok proxy)]).client = some proxy := by
  refine ⟨?_, ?_, ?_, ?_⟩
  · rfl
  · rfl
  · rfl
  · simp [run, step, handle, pinos_context_init, pinos_context_connect, context_set_state,
      do_connect, on_name_appeared, subscription_cb, subscription_state, on_daemon_connected,
      on_client_connected, on_client_proxy]

/-- C24, counterexample: the name vanishes while `ConnectClient` is under way
and `NoFail` is not set, so the context is in Error with "Connection closed".
The call then fails: the state is Error, but the error is still "Connection
closed", not the error of the failed call. -/
theorem connect_failure_after_vanish_keeps_error :
    (run pinos_context_init inputs_vanished_in_handshake).state
      = PINOS_CONTEXT_STATE_ERROR ∧
    0 < (run pinos_context_init inputs_vanished_in_handshake).connect_client_calls ∧
    (step (run pinos_context_init inputs_vanished_in_handshake)
      (.client_connected (.error service_unknown))).state = PINOS_CONTEXT_STATE_ERROR ∧
    pinos_context_get_error (step (run pinos_context_init inputs_vanished_in_handshake)
      (.client_connected (.error service_unknown))) = some connection_closed ∧
    pinos_context_get_error (step (run pinos_context_init inputs_vanished_in_handshake)
      (.client_connected (.error service_unknown))) ≠ some service_unknown := by
  decide

/-- C24, amended: a handshake failure on a context that is not in Error
already is fatal. When a `ConnectClient` call that was made on a daemon proxy
that is still there fails, or when the client proxy that was asked for cannot
be resolved, the state becomes Error, the error is the error of the failure,
and the context calls nothing but the warning and the state notification: no
proxy is asked for, no call is made. -/
theorem handshake_failure_is_fatal (c1 c2 : PinosContext) (e : GError)
    (h1c : c1.crashed = false) (h1s : c1.state ≠ PINOS_CONTEXT_STATE_ERROR)
    (h1d : c1.daemon ≠ none) (h1p : 0 < c1.connect_client_calls)
    (h2c : c2.crashed = false) (h2s : c2.state ≠ PINOS_CONTEXT_STATE_ERROR)
    (h2p : 0 < c2.get_proxy_calls) :
    (step c1 (.client_connected (.error e))).state = PINOS_CONTEXT_STATE_ERROR ∧
    pinos_context_get_error (step c1 (.client_connected (.error e))) = some e ∧
    (step c1 (.client_connected (.error e))).log =
      c1.log ++ [Action.warning "failed to connect client",
        Action.notify_state PINOS_CONTEXT_STATE_ERROR] ∧
    (step c1 (.client_connected (.error e))).get_proxy_calls = c1.get_proxy_calls ∧
    (step c2 (.client_proxy (.error e))).state = PINOS_CONTEXT_STATE_ERROR ∧
    pinos_context_get_error (step c2 (.client_proxy (.error e))) = some e ∧
    (step c2 (.client_proxy (.error e))).log =
      c2.log ++ [Action.warning "failed to get client proxy",
        Action.notify_state PINOS_CONTEXT_STATE_ERROR] ∧
    (step c2 (.client_proxy (.error e))).connect_client_calls = c2.connect_client_calls ∧
    (step c2 (.client_proxy (.error e))).get_proxy_calls = c2.get_proxy_calls - 1 := by
  rw [step_eq_handle c1 _ h1c, step_eq_handle c2 _ h2c]
  simp only [handle, pinos_context_get_error]
  rw [if_pos h1p, if_pos h2p]
  obtain ⟨d, hd⟩ := Option.ne_none_iff_exists'.mp h1d
  simp only [on_client_connected, on_client_proxy, PINOS_STREAM_STATE_ERROR, hd]
  rw [context_set_state_some _ _ _ (by simpa using h1s),
    context_set_state_some _ _ _ (by simpa using h2s)]
  simp

theorem handshake_failure_is_fatal_witness :
    (run pinos_context_init inputs_registering).state = PINOS_CONTEXT_STATE_REGISTERING ∧
    (run pinos_context_init inputs_proxy_requested).state = PINOS_CONTEXT_STATE_REGISTERING ∧
    (step (run pinos_context_init inputs_registering)
      (.client_connected (.error service_unknown))).state = PINOS_CONTEXT_STATE_ERROR ∧
    pinos_context_get_error (step (run pinos_context_init inputs_registering)
      (.client_connected (.error service_unknown))) = some service_unknown :=
  ⟨by decide, by decide,
    (handshake_failure_is_fatal (run pinos_context_init inputs_registering)
      (run pinos_context_init inputs_proxy_requested) service_unknown (by decide) (by decide)
      (by decide) (by decide) (by decide) (by decide) (by decide)).1,
    (handshake_failure_is_fatal (run pinos_context_init inputs_registering)
      (run pinos_context_init inputs_proxy_requested) service_unknown (by decide) (by decide)
      (by decide) (by decide) (by decide) (by decide) (by decide)).2.1⟩

@[simp] theorem context_set_state_subscription_mask (c : PinosContext)
    (s : PinosContextState) (e : Option GError) :
    (context_set_state c s e).subscription_mask = c.subscription_mask := by
  unfold context_set_state; split <;> rfl

@[simp] theorem context_set_state_lists (c : PinosContext) (s : PinosContextState)
    (e : Option GError) :
    (context_set_state c s e).clients = c.clients ∧
    (context_set_state c s e).sources = c.sources ∧
    (context_set_state c s e).sinks = c.sinks ∧
    (context_set_state c s e).channels = c.channels := by
  unfold context_set_state; split <;> exact ⟨rfl, rfl, rfl, rfl⟩

@[simp] theorem context_set_state_fields (c : PinosContext) (s : PinosContextState)
    (e : Option GError) :
    (context_set_state c s e).flags = c.flags ∧
    (context_set_state c s e).connection = c.connection ∧
    (context_set_state c s e).disconnecting = c.disconnecting ∧
    (context_set_state c s e).id = c.id := by
  unfold context_set_state; split <;> exact ⟨rfl, rfl, rfl, rfl⟩

theorem subscription_events_append (l1 l2 : List Action) :
    subscription_events (l1 ++ l2) = subscription_events l1 ++ subscription_events l2 := by
  simp [subscription_events]

theorem notified_states_append (l1 l2 : List Action) :
    notified_states (l1 ++ l2) = notified_states l1 ++ notified_states l2 := by
  simp [notified_states]

/-- C25: subscription fan-out. For every roster delta `subscription_cb` emits
`subscription-event` with the event, the kind and the object exactly when the
kind is in the subscription mask, and, forwarded or not, updates what it keeps
for the kind and nothing it keeps for another kind: a New puts the object at
the head of the list, a Remove takes one occurrence of it out, a Change leaves
the list as it is, and for the daemon every event stores the object in the
daemon slot. -/
theorem subscription_fan_out (c : PinosContext) (event : PinosSubscriptionEvent)
    (flags kind : PinosSubscriptionFlags) (object : Nat) :
    subscription_events (subscription_cb c event flags object).log =
      subscription_events c.log ++
        (if flags ∈ c.subscription_mask then [(event, flags, object)] else []) ∧
    roster (subscription_cb c event flags object) kind =
      (if kind = flags then
        (if flags = PINOS_SUBSCRIPTION_FLAG_DAEMON then [object]
          else match event with
            | PINOS_SUBSCRIPTION_EVENT_NEW => object :: roster c flags
            | PINOS_SUBSCRIPTION_EVENT_CHANGE => roster c flags
            | PINOS_SUBSCRIPTION_EVENT_REMOVE => (roster c flags).erase object)
        else roster c kind) ∧
    ((roster c flags).erase object).count object = (roster c flags).count object - 1 := by
  refine ⟨?_, ?_, List.count_erase_self object (roster c flags)⟩
  · unfold subscription_cb
    cases flags <;> cases event <;>
      simp only [reduceCtorEq, if_false, if_true] <;>
      (repeat' split) <;>
      simp_all [subscription_events, context_set_state_log, Action.emitted] <;>
      (try split) <;> simp [Action.emitted]
  · unfold subscription_cb
    cases flags <;> cases event <;> cases kind <;>
      simp only [reduceCtorEq, if_false, if_true] <;>
      (repeat' split) <;>
      simp_all [roster]

/-- What `finish_client_disconnect` leaves behind. -/
theorem finish_client_disconnect_fields (c : PinosContext) :
    (finish_client_disconnect c).client = none ∧
    (finish_client_disconnect c).daemon = none ∧
    (finish_client_disconnect c).id = 0 ∧
    (finish_client_disconnect c).state = PINOS_CONTEXT_STATE_UNCONNECTED ∧
    (finish_client_disconnect c).connection = c.connection ∧
    (finish_client_disconnect c).disconnecting = c.disconnecting ∧
    (finish_client_disconnect c).crashed = c.crashed ∧
    (finish_client_disconnect c).flags = c.flags := by
  unfold finish_client_disconnect
  simp only [context_set_state_state, context_set_state_client, context_set_state_daemon,
    context_set_state_fields, context_set_state_crashed]
  split
  · simp
  · rename_i h
    simpa using h

/-- A disconnect that goes through the `Disconnect` call: the call of
`pinos_context_disconnect`, the scheduled `do_disconnect`, and the successful
completion end in `finish_client_disconnect`. -/
theorem run_inputs_disconnect (c : PinosContext) (p : Nat) (hc : c.crashed = false)
    (hd : c.disconnecting = false) (hcl : c.client = some p) :
    ∃ c1 : PinosContext, run c inputs_disconnect = finish_client_disconnect c1 ∧
      c1.disconnecting = false ∧ c1.connection = c.connection ∧ c1.crashed = false ∧
      c1.flags = c.flags := by
  refine ⟨{ c with
      disconnecting := false,
      scheduled_disconnect := c.scheduled_disconnect + 1 - 1,
      disconnect_calls := c.disconnect_calls + 1 - 1,
      log := c.log ++ [Action.invoke_do_disconnect] ++ [Action.disconnect_call] },
    ?_, rfl, rfl, hc, rfl⟩
  simp [inputs_disconnect, run, step, handle, hc, hd, hcl, pinos_context_disconnect,
    do_disconnect, on_client_disconnected]

/-- C26: disconnect. Without a client proxy (and no disconnect under way)
`pinos_context_disconnect` returns TRUE and the state is Unconnected when it
returns. With a client proxy it returns TRUE, sets `disconnecting` and leaves
the state as it is; once the scheduled `do_disconnect` has made the
`Disconnect` call and the call has completed successfully, client and daemon
are NULL, the watch id is 0, `disconnecting` is not set and the state is
Unconnected. While `disconnecting` is set the call returns FALSE and changes
nothing. -/
theorem disconnect_contract (c1 c2 c3 : PinosContext) (p : Nat)
    (h1d : c1.disconnecting = false) (h1c : c1.client = none)
    (h2x : c2.crashed = false) (h2d : c2.disconnecting = false) (h2c : c2.client = some p)
    (h3d : c3.disconnecting = true) :
    (pinos_context_disconnect c1).1 = true ∧
    pinos_context_get_state (pinos_context_disconnect c1).2
      = PINOS_CONTEXT_STATE_UNCONNECTED ∧
    (pinos_context_disconnect c2).1 = true ∧
    (pinos_context_disconnect c2).2.disconnecting = true ∧
    (pinos_context_disconnect c2).2.state = c2.state ∧
    (run c2 inputs_disconnect).client = none ∧
    (run c2 inputs_disconnect).daemon = none ∧
    (run c2 inputs_disconnect).id = 0 ∧
    (run c2 inputs_disconnect).disconnecting = false ∧
    (run c2 inputs_disconnect).state = PINOS_CONTEXT_STATE_UNCONNECTED ∧
    pinos_context_disconnect c3 = (false, c3) := by
  obtain ⟨d, hd, hdd, _, _, _⟩ := run_inputs_disconnect c2 p h2x h2d h2c
  obtain ⟨f1, f2, f3, f4, _, f6, _, _⟩ := finish_client_disconnect_fields d
  have g := finish_client_disconnect_fields c1
  refine ⟨?_, ?_, ?_, ?_, ?_, ?_, ?_, ?_, ?_, ?_, ?_⟩
  · simp [pinos_context_disconnect, h1d, h1c]
  · simp [pinos_context_disconnect, h1d, h1c, pinos_context_get_state, g.2.2.2.1]
  · simp [pinos_context_disconnect, h2d, h2c]
  · simp [pinos_context_disconnect, h2d, h2c]
  · simp [pinos_context_disconnect, h2d, h2c]
  · rw [hd]; exact f1
  · rw [hd]; exact f2
  · rw [hd]; exact f3
  · rw [hd, f6]; exact hdd
  · rw [hd]; exact f4
  · simp [pinos_context_disconnect, h3d]

theorem disconnect_contract_witness :
    (pinos_context_disconnect pinos_context_init).1 = true ∧
    (run pinos_context_init inputs_handshake).state = PINOS_CONTEXT_STATE_READY ∧
    (run pinos_context_init inputs_handshake).client = some 20 ∧
    (step (run pinos_context_init inputs_handshake) .disconnect).disconnecting = true ∧
    (run (run pinos_context_init inputs_handshake) inputs_disconnect).state
      = PINOS_CONTEXT_STATE_UNCONNECTED :=
  ⟨(disconnect_contract pinos_context_init (run pinos_context_init inputs_handshake)
      (step (run pinos_context_init inputs_handshake) .disconnect) 20 (by decide) (by decide)
      (by decide) (by decide) (by decide) (by decide)).1,
    by decide, by decide, by decide,
    (disconnect_contract pinos_context_init (run pinos_context_init inputs_handshake)
      (step (run pinos_context_init inputs_handshake) .disconnect) 20 (by decide) (by decide)
      (by decide) (by decide) (by decide) (by decide)).2.2.2.2.2.2.2.2.2.1⟩

theorem unnoticed_refl (c : PinosContext) : Unnoticed c c := ⟨rfl, rfl, rfl⟩

/-- A `context_set_state` to the state the context is in, after changes that
no observer of the state sees, is not seen either. -/
theorem unnoticed_set_same (c c1 : PinosContext) (s : PinosContextState)
    (e : Option GError) (h1 : c1.state = s) (hu : Unnoticed c c1) :
    Unnoticed c (context_set_state c1 s e) := by
  rw [context_set_state_same c1 s e h1]; exact hu

/-- C28: `context_set_state` to the state the context is in changes nothing:
no notification is scheduled, the error that comes with the call is dropped
and the recorded error stays. So on a context in Error every further failure
(name vanished without `NoFail`, a failed `ConnectClient`, a client proxy that
cannot be resolved, a failed `Disconnect`, the own client removed) leaves the
state Error, the first error in place and the state notifications as they
were. -/
theorem set_state_same_is_noop (c cE : PinosContext) (s : PinosContextState)
    (error : Option GError) (x : GError) (vanished : Option Nat) (object : Nat)
    (h : c.state = s) (hEs : cE.state = PINOS_CONTEXT_STATE_ERROR)
    (hEc : cE.crashed = false) (hEn : cE.flags.nofail = false) :
    context_set_state c s error = c ∧
    Unnoticed cE (step cE (.name_vanished vanished)) ∧
    Unnoticed cE (step cE (.client_connected (.error x))) ∧
    Unnoticed cE (step cE (.client_proxy (.error x))) ∧
    Unnoticed cE (step cE (.client_disconnected (.error x))) ∧
    Unnoticed cE (step cE (.subscription PINOS_SUBSCRIPTION_EVENT_REMOVE
      PINOS_SUBSCRIPTION_FLAG_CLIENT object)) := by
  refine ⟨context_set_state_same c s error h, ?_, ?_, ?_, ?_, ?_⟩
  · rw [step_eq_handle _ _ hEc]
    simp only [handle]
    split
    · simp only [on_name_vanished, hEn]
      rw [if_neg (by decide)]
      exact unnoticed_set_same _ _ _ _ hEs ⟨rfl, rfl, rfl⟩
    · exact unnoticed_refl cE
  · rw [step_eq_handle _ _ hEc]
    simp only [handle]
    split
    · simp only [on_client_connected]
      split
      · exact ⟨rfl, rfl, rfl⟩
      · refine unnoticed_set_same _ _ _ _ hEs ⟨rfl, rfl, ?_⟩
        simp [notified_states, Action.notified]
    · exact unnoticed_refl cE
  · rw [step_eq_handle _ _ hEc]
    simp only [handle]
    split
    · simp only [on_client_proxy, PINOS_STREAM_STATE_ERROR]
      refine unnoticed_set_same _ _ _ _ hEs ⟨rfl, rfl, ?_⟩
      simp [notified_states, Action.notified]
    · exact unnoticed_refl cE
  · rw [step_eq_handle _ _ hEc]
    simp only [handle]
    split
    · simp only [on_client_disconnected]
      split
      · exact ⟨rfl, rfl, rfl⟩
      · refine unnoticed_set_same _ _ _ _ hEs ⟨rfl, rfl, ?_⟩
        simp [notified_states, Action.notified]
    · exact unnoticed_refl cE
  · rw [step_eq_handle _ _ hEc]
    simp only [handle]
    have key : ∀ c1 : PinosContext, Unnoticed cE c1 →
        Unnoticed cE (if PINOS_SUBSCRIPTION_FLAG_CLIENT ∈ c1.subscription_mask then
          { c1 with log := c1.log ++ [Action.subscription_event
            PINOS_SUBSCRIPTION_EVENT_REMOVE PINOS_SUBSCRIPTION_FLAG_CLIENT object] }
          else c1) := by
      intro c1 h1
      split
      · refine ⟨h1.1, h1.2.1, ?_⟩
        rw [← h1.2.2]
        simp [notified_states, Action.notified]
      · exact h1
    unfold subscription_cb
    refine key _ ?_
    simp only [reduceCtorEq, if_false, if_true]
    split
    · exact unnoticed_set_same _ _ _ _ hEs ⟨rfl, rfl, rfl⟩
    · exact ⟨rfl, rfl, rfl⟩

theorem set_state_same_is_noop_witness :
    (run pinos_context_init inputs_connect_fails_plain).state = PINOS_CONTEXT_STATE_ERROR ∧
    context_set_state (run pinos_context_init inputs_connect_fails_plain)
      PINOS_CONTEXT_STATE_ERROR (some connection_closed)
      = run pinos_context_init inputs_connect_fails_plain ∧
    Unnoticed (run pinos_context_init inputs_connect_fails_plain)
      (step (run pinos_context_init inputs_connect_fails_plain) (.name_vanished none)) ∧
    pinos_context_get_error (run pinos_context_init inputs_connect_fails_plain)
      = some service_unknown ∧
    notified_states (run pinos_context_init inputs_connect_fails_plain).log =
      [PINOS_CONTEXT_STATE_CONNECTING, PINOS_CONTEXT_STATE_REGISTERING,
        PINOS_CONTEXT_STATE_ERROR] :=
  ⟨by decide,
    (set_state_same_is_noop (run pinos_context_init inputs_connect_fails_plain)
      (run pinos_context_init inputs_connect_fails_plain) PINOS_CONTEXT_STATE_ERROR
      (some connection_closed) service_unknown none 20 (by decide) (by decide) (by decide)
      (by decide)).1,
    (set_state_same_is_noop (run pinos_context_init inputs_connect_fails_plain)
      (run pinos_context_init inputs_connect_fails_plain) PINOS_CONTEXT_STATE_ERROR
      (some connection_closed) service_unknown none 20 (by decide) (by decide) (by decide)
      (by decide)).2.1,
    by decide, by decide⟩

/-- C29: a disconnect never resets the connection. On a context that has a
connection (from name appeared), after a disconnect that has completed, at once
when there is no client proxy and through the `Disconnect` call when there is
one, the connection is still the same, the state is Unconnected, and
`pinos_context_connect` returns FALSE and changes nothing: the state stays
Unconnected, the flags are not stored, no `do_connect` is scheduled. -/
theorem disconnect_keeps_connection (c1 c2 : PinosContext) (p : Nat)
    (flags : PinosContextFlags)
    (h1x : c1.crashed = false) (h1d : c1.disconnecting = false) (h1c : c1.client = none)
    (h1n : c1.connection ≠ none)
    (h2x : c2.crashed = false) (h2d : c2.disconnecting = false) (h2c : c2.client = some p)
    (h2n : c2.connection ≠ none) :
    (step c1 .disconnect).connection = c1.connection ∧
    (step c1 .disconnect).state = PINOS_CONTEXT_STATE_UNCONNECTED ∧
    pinos_context_connect (step c1 .disconnect) flags = (false, step c1 .disconnect) ∧
    step (step c1 .disconnect) (.connect flags) = step c1 .disconnect ∧
    (run c2 inputs_disconnect).connection = c2.connection ∧
    (run c2 inputs_disconnect).state = PINOS_CONTEXT_STATE_UNCONNECTED ∧
    pinos_context_connect (run c2 inputs_disconnect) flags = (false, run c2 inputs_disconnect) ∧
    step (run c2 inputs_disconnect) (.connect flags) = run c2 inputs_disconnect := by
  have hconn : ∀ d : PinosContext, d.connection ≠ none →
      pinos_context_connect d flags = (false, d) := by
    intro d hd
    unfold pinos_context_connect
    rw [if_pos hd]
  have hstepc : ∀ d : PinosContext, d.connection ≠ none →
      step d (.connect flags) = d := by
    intro d hd
    unfold step
    split
    · rfl
    · simp only [handle]; rw [hconn d hd]
  have e1 : step c1 .disconnect = finish_client_disconnect c1 := by
    rw [step_eq_handle c1 _ h1x]
    simp [handle, pinos_context_disconnect, h1d, h1c]
  obtain ⟨d, hd, _, hdc, _, _⟩ := run_inputs_disconnect c2 p h2x h2d h2c
  have g1 := finish_client_disconnect_fields c1
  have g2 := finish_client_disconnect_fields d
  have n1 : (finish_client_disconnect c1).connection ≠ none := by
    rw [g1.2.2.2.2.1]; exact h1n
  have n2 : (finish_client_disconnect d).connection ≠ none := by
    rw [g2.2.2.2.2.1, hdc]; exact h2n
  rw [e1, hd]
  exact ⟨g1.2.2.2.2.1, g1.2.2.2.1, hconn _ n1, hstepc _ n1,
    g2.2.2.2.2.1.trans hdc, g2.2.2.2.1, hconn _ n2, hstepc _ n2⟩

theorem disconnect_keeps_connection_witness :
    (run pinos_context_init inputs_name_appeared).connection = some 1 ∧
    (run pinos_context_init inputs_handshake).connection = some 1 ∧
    (run (run pinos_context_init inputs_handshake) inputs_disconnect).connection
      = (run pinos_context_init inputs_handshake).connection ∧
    (run (run pinos_context_init inputs_handshake) inputs_disconnect).state
      = PINOS_CONTEXT_STATE_UNCONNECTED ∧
    pinos_context_connect (run (run pinos_context_init inputs_handshake) inputs_disconnect)
      flags_nofail = (false, run (run pinos_context_init inputs_handshake) inputs_disconnect) :=
  ⟨by decide, by decide,
    (disconnect_keeps_connection (run pinos_context_init inputs_name_appeared)
      (run pinos_context_init inputs_handshake) 20 flags_nofail (by decide) (by decide)
      (by decide) (by decide) (by decide) (by decide) (by decide) (by decide)).2.2.2.2.1,
    (disconnect_keeps_connection (run pinos_context_init inputs_name_appeared)
      (run pinos_context_init inputs_handshake) 20 flags_nofail (by decide) (by decide)
      (by decide) (by decide) (by decide) (by decide) (by decide) (by decide)).2.2.2.2.2.1,
    (disconnect_keeps_connection (run pinos_context_init inputs_name_appeared)
      (run pinos_context_init inputs_handshake) 20 flags_nofail (by decide) (by decide)
      (by decide) (by decide) (by decide) (by decide) (by decide) (by decide)).2.2.2.2.2.2.1⟩


end Ctx


/-! ## Control parsing -/

theorem last_format_cons (change : PinosPacketFormatChange)
    (rest : List PinosPacketFormatChange) (format : Option String) :
    last_format (change :: rest) format = last_format rest (some change.format) := by
  unfold last_format
  cases rest with
  | nil => rfl
  | cons a l =>
    rw [List.getLast?_cons_cons]
    cases h : (a :: l).getLast? with
    | none => simp at h
    | some x => rfl

/-- The loop of `parse_control_buffer`: the format of the port is that of the
last packet that parsed, there is one `format` notification for each packet
that parsed, and the format of no other port changes. -/
theorem parse_control_packets_spec (port : PortId) (pks : List Packet) (w : World)
    (q : PortId) :
    ((parse_control_packets port pks w).1 q).format =
      (if q = port then
        last_format (pks.filterMap pinos_buffer_iter_parse_format_change) (w q).format
        else (w q).format) ∧
    (parse_control_packets port pks w).2 =
      List.replicate (pks.filterMap pinos_buffer_iter_parse_format_change).length
        (Event.notify_format port) := by
  induction pks generalizing w with
  | nil =>
    constructor
    · simp [parse_control_packets, last_format]
    · rfl
  | cons pk rest ih =>
    cases pk with
    | format_change change =>
      have h := ih (set_format w port (some change.format))
      simp only [parse_control_packets, Packet.is_format_change,
        pinos_buffer_iter_parse_format_change, if_true, List.filterMap_cons,
        List.length_cons, List.replicate_succ]
      refine ⟨?_, by rw [h.2]⟩
      rw [h.1, last_format_cons, set_format_format]
      by_cases hq : q = port
      · rw [if_pos hq, if_pos hq, if_pos hq]
      · rw [if_neg hq, if_neg hq, if_neg hq]
    | malformed_format_change =>
      simpa [parse_control_packets, Packet.is_format_change,
        pinos_buffer_iter_parse_format_change] using ih w
    | other type =>
      simpa [parse_control_packets, Packet.is_format_change,
        pinos_buffer_iter_parse_format_change] using ih w

/-- C27: control parsing. After `parse_control_buffer` the format of the port
is the format string of the last `FormatChange` packet of the buffer that
parsed, and the format it had when no packet parsed (the buffer holds only
unknown packets and packets that do not parse, or none); there is one `format`
notification, on the port, for each packet that parsed; the format of every
other port is what it was. -/
theorem control_parsing (w : World) (port q : PortId) (buffer : PinosBuffer) :
    ((parse_control_buffer w port buffer).1 port).format =
      last_format (format_changes buffer) (w port).format ∧
    last_format [] (w port).format = (w port).format ∧
    (parse_control_buffer w port buffer).2 =
      List.replicate (format_changes buffer).length (Event.notify_format port) ∧
    ((parse_control_buffer w port buffer).1 q).format =
      (if q = port then last_format (format_changes buffer) (w port).format
        else (w q).format) := by
  unfold parse_control_buffer format_changes
  have h := parse_control_packets_spec port buffer.packets w
  refine ⟨?_, rfl, (h port).2, ?_⟩
  · rw [(h port).1, if_pos rfl]
  · rw [(h q).1]
    by_cases hq : q = port
    · rw [if_pos hq, if_pos hq, hq]
    · rw [if_neg hq, if_neg hq]


/-- A control buffer with two `FormatChange` packets, a packet that does not
parse and two unknown packets: the format is that of the second
`FormatChange`, and there are two notifications. -/
theorem control_parsing_two_formats :
    format_changes buf_two_formats = [⟨0, "audio/raw"⟩, ⟨1, "video/raw"⟩] ∧
    ((parse_control_buffer (init_world cfg0) 0 buf_two_formats).1 0).format
      = some "video/raw" ∧
    (parse_control_buffer (init_world cfg0) 0 buf_two_formats).2
      = [Event.notify_format 0, Event.notify_format 0] := by
  decide

/-! ## The mixer operations -/

namespace Mix

theorem add_int_int16 (d s : Int) (hd : is_int16 d = true) (hs : is_int16 s = true) :
    add_int d s = some (d + s) := by
  simp only [is_int16, INT16_MIN, INT16_MAX, decide_eq_true_eq] at hd hs
  unfold add_int INT32_MIN INT32_MAX
  rw [if_pos (by omega)]

theorem clamp_int16 (d s : Int) :
    to_int16 (SPA_CLAMP (d + s) INT16_MIN INT16_MAX) = saturating_sum d s := by
  unfold to_int16 SPA_CLAMP saturating_sum INT16_MIN INT16_MAX
  by_cases h1 : d + s < -32768
  · rw [if_pos h1, max_eq_right (by omega), min_eq_left (by omega)]
    rfl
  · rw [if_neg h1, max_eq_left (by omega)]
    by_cases h2 : 32767 < d + s
    · rw [if_pos h2, min_eq_right (by omega)]
      rfl
    · rw [if_neg h2, min_eq_left (by omega)]
      omega

theorem saturating_sum_int16 (d s : Int) : is_int16 (saturating_sum d s) = true := by
  unfold saturating_sum
  simp only [is_int16, INT16_MIN, INT16_MAX, decide_eq_true_eq]
  split
  · omega
  · split <;> omega

theorem div_sizeof_int16_nonneg (n_bytes : Int) (h0 : 0 ≤ n_bytes)
    (h1 : n_bytes ≤ INT32_MAX) :
    div_sizeof_int16 n_bytes = ((n_bytes / 2).toNat : Int) := by
  unfold INT32_MAX at h1
  unfold div_sizeof_int16 to_int32
  omega

/-- The loop of `add_s16` with `m` rounds to go, the first samples `pre` of
`dst` done: with more fuel than rounds and at least `m` samples left in both
arrays it ends after `m` more rounds, with the saturating sums in place of the
next `m` samples and the others as they were. -/
theorem add_s16_loop_spec (m : Nat) :
    ∀ (fuel : Nat) (pre rem spre srem : List Int), m < fuel → spre.length = pre.length →
      m ≤ rem.length → m ≤ srem.length → (m : Int) ≤ INT32_MAX →
      (∀ x ∈ rem, is_int16 x = true) → (∀ x ∈ srem, is_int16 x = true) →
      add_s16_loop fuel (pre ++ rem) (spre ++ srem) pre.length (m : Int) =
        some (pre ++ saturating_add m rem srem, pre.length + m) := by
  induction m with
  | zero =>
    intro fuel pre rem spre srem hf _ _ _ _ _ _
    cases fuel with
    | zero => omega
    | succ f =>
      cases rem <;> cases srem <;> simp [add_s16_loop, saturating_add]
  | succ k ih =>
    intro fuel pre rem spre srem hf hpre hr hsr hmax hd hs
    cases fuel with
    | zero => omega
    | succ f =>
      cases rem with
      | nil => simp at hr
      | cons d rem1 =>
        cases srem with
        | nil => simp at hsr
        | cons s srem1 =>
          have hd0 : is_int16 d = true := hd d (List.mem_cons_self d rem1)
          have hs0 : is_int16 s = true := hs s (List.mem_cons_self s srem1)
          have hn : add_int ((k + 1 : Nat) : Int) (-1) = some (k : Int) := by
            unfold INT32_MAX at hmax
            unfold add_int INT32_MIN INT32_MAX
            rw [if_pos (by push_cast at hmax ⊢; omega)]
            congr 1
            push_cast
            omega
          have hne : ((k + 1 : Nat) : Int) ≠ 0 := by push_cast; omega
          have hgd : (pre ++ d :: rem1)[pre.length]? = some d := by
            rw [List.getElem?_append_right (Nat.le_refl _)]; simp
          have hgs : (spre ++ s :: srem1)[pre.length]? = some s := by
            rw [← hpre, List.getElem?_append_right (Nat.le_refl _)]; simp
          have hset : (pre ++ d :: rem1).set pre.length (saturating_sum d s) =
              (pre ++ [saturating_sum d s]) ++ rem1 := by
            simp
          have hih := ih f (pre ++ [saturating_sum d s]) rem1 (spre ++ [s]) srem1
            (by omega) (by simp [hpre]) (by simpa using hr) (by simpa using hsr)
            (by push_cast at hmax ⊢; omega)
            (fun x hx => hd x (List.mem_cons_of_mem d hx))
            (fun x hx => hs x (List.mem_cons_of_mem s hx))
          unfold add_s16_loop
          rw [if_neg hne, hn]
          simp only [hgd, hgs, add_int_int16 d s hd0 hs0, clamp_int16, hset]
          have hl : (pre ++ [saturating_sum d s]).length = pre.length + 1 := by simp
          rw [hl] at hih
          have hsrc : spre ++ s :: srem1 = (spre ++ [s]) ++ srem1 := by simp
          rw [hsrc, hih]
          simp [saturating_add, Nat.add_assoc, Nat.add_comm 1 k]

/-- The samples of `saturating_add`, one by one. -/
theorem saturating_add_getD (n : Nat) :
    ∀ (dst src : List Int) (j : Nat), n ≤ dst.length → n ≤ src.length →
      (saturating_add n dst src).length = dst.length ∧
      (saturating_add n dst src).getD j 0 =
        (if j < n then saturating_sum (dst.getD j 0) (src.getD j 0) else dst.getD j 0) := by
  induction n with
  | zero =>
    intro dst src j _ _
    cases dst <;> cases src <;> simp [saturating_add]
  | succ k ih =>
    intro dst src j hd hs
    cases dst with
    | nil => simp at hd
    | cons d dst1 =>
      cases src with
      | nil => simp at hs
      | cons s src1 =>
        have h := ih dst1 src1 (j - 1) (by simpa using hd) (by simpa using hs)
        cases j with
        | zero => simp [saturating_add, h.1]
        | succ i =>
          have h2 := (ih dst1 src1 i (by simpa using hd) (by simpa using hs)).2
          simp only [saturating_add, List.length_cons, h.1, List.getD_cons_succ, h2,
            Nat.add_lt_add_iff_right, true_and]

/-- C30: `add_s16` is a saturating element-wise sum. For an `n_bytes` that is
not negative and arrays of `int16_t` samples with at least `n_bytes / 2`
samples each, the loop ends (any fuel above `n_bytes / 2` is enough) after
`n_bytes / 2` rounds, rounded down, and no sum leaves the `int` range; sample
`j` of `dst` is then the sum of the two samples held at -32768 and 32767 when
`j < n_bytes / 2`, and what it was otherwise, and `dst` has the length it
had. -/
theorem add_s16_saturating_sum (dst src : List Int) (n_bytes : Int) (fuel j : Nat)
    (h0 : 0 ≤ n_bytes) (h1 : n_bytes ≤ INT32_MAX)
    (hd : ∀ x ∈ dst, is_int16 x = true) (hs : ∀ x ∈ src, is_int16 x = true)
    (hld : (n_bytes / 2).toNat ≤ dst.length) (hls : (n_bytes / 2).toNat ≤ src.length)
    (hfuel : (n_bytes / 2).toNat < fuel) :
    add_s16 fuel dst src n_bytes =
      some (saturating_add (n_bytes / 2).toNat dst src, (n_bytes / 2).toNat) ∧
    (saturating_add (n_bytes / 2).toNat dst src).length = dst.length ∧
    (saturating_add (n_bytes / 2).toNat dst src).getD j 0 =
      (if j < (n_bytes / 2).toNat then saturating_sum (dst.getD j 0) (src.getD j 0)
        else dst.getD j 0) := by
  have hk : ((n_bytes / 2).toNat : Int) ≤ INT32_MAX := by
    unfold INT32_MAX at h1 ⊢
    omega
  have hloop := add_s16_loop_spec (n_bytes / 2).toNat fuel [] dst [] src hfuel rfl hld hls hk
    hd hs
  have hpt := saturating_add_getD (n_bytes / 2).toNat dst src j hld hls
  refine ⟨?_, hpt.1, hpt.2⟩
  unfold add_s16
  rw [div_sizeof_int16_nonneg n_bytes h0 h1]
  simpa using hloop

theorem add_s16_saturating_sum_witness :
    add_s16 3 [32000, -32000, 5, 7] [1000, -1000, 6, 9] 5 =
      some (saturating_add 2 [32000, -32000, 5, 7] [1000, -1000, 6, 9], 2) ∧
    saturating_add 2 [32000, -32000, 5, 7] [1000, -1000, 6, 9] = [32767, -32768, 5, 7] :=
  ⟨(add_s16_saturating_sum [32000, -32000, 5, 7] [1000, -1000, 6, 9] 5 3 0 (by decide)
      (by decide) (by decide) (by decide) (by decide) (by decide) (by decide)).1,
    by decide⟩

end Mix


/-! ## User code that calls back into the library -/

namespace Reentrant

theorem parse_control_packets_quiet (user : UserCode) (port : PortId)
    (h : user.notify_quiet port) (pks : List Packet) (w : World) :
    parse_control_packets user port pks w = Pinos.parse_control_packets port pks w := by
  induction pks generalizing w with
  | nil => rfl
  | cons pk rest ih =>
    unfold parse_control_packets Pinos.parse_control_packets
    by_cases hf : pk.is_format_change = true
    · rw [if_pos hf, if_pos hf]
      cases pinos_buffer_iter_parse_format_change pk with
      | none => exact ih w
      | some change =>
        simp only
        rw [(h _).1, (h _).2, ih]
        rfl
    · rw [if_neg hf, if_neg hf]
      exact ih w

theorem parse_if_control_quiet (user : UserCode) (port : PortId)
    (h : user.notify_quiet port) (w : World) (buffer : PinosBuffer) :
    parse_if_control user w port buffer = Pinos.parse_if_control w port buffer := by
  unfold parse_if_control Pinos.parse_if_control parse_control_buffer
    Pinos.parse_control_buffer
  rw [parse_control_packets_quiet user port h]

theorem deliver_to_callback_quiet (user : UserCode) (port : PortId)
    (h : user.cb_quiet port) (w : World) (buffer : PinosBuffer) :
    deliver_to_callback user w port buffer = Pinos.deliver_to_callback w port buffer := by
  unfold deliver_to_callback Pinos.deliver_to_callback
  simp only
  split
  · rw [(h _).1, (h _).2]
  · rfl

theorem notify_buffer_quiet (user : UserCode) (port : PortId)
    (h : user.cb_quiet port) (w : World) (buffer : PinosBuffer) :
    notify_buffer user w port buffer = Pinos.notify_buffer w port buffer := by
  unfold notify_buffer Pinos.notify_buffer
  split
  · simp only
    rw [(h _).1, (h _).2]
  · rfl

/-- A delivery to a port whose callback and `format` handlers make no call
into the library is the delivery of the sections above. -/
theorem receive_buffer_quiet (env : Env) (user : UserCode) (port : PortId)
    (hcb : user.cb_quiet port) (hn : user.notify_quiet port) (w : World)
    (buffer : PinosBuffer) :
    pinos_port_receive_buffer env user w port buffer =
      Pinos.pinos_port_receive_buffer env w port buffer := by
  unfold pinos_port_receive_buffer Pinos.pinos_port_receive_buffer
  simp only [parse_if_control_quiet user port hn, deliver_to_callback_quiet user port hcb]

/-- The loop of `pinos_port_send_buffer` over peers whose user code makes no
call into the library: it ends when the fuel is more than the peers left, and
is then the walk over the peers read on entry. -/
theorem send_buffer_for_quiet (env : Env) (user : UserCode) (buffer : PinosBuffer)
    (port : PortId) (fuel i : Nat) (w : World) (res : Bool) (err : Option GError)
    (hq : ∀ q ∈ (w port).peers, user.cb_quiet q ∧ user.notify_quiet q) :
    send_buffer_for env user buffer port fuel i w res err =
      if (w port).peers.length - i < fuel then
        some (send_buffer_loop env buffer ((w port).peers.drop i) w res err)
      else none := by
  induction fuel generalizing i w res err with
  | zero =>
    rw [if_neg (by omega)]
    rfl
  | succ fuel ih =>
    unfold send_buffer_for
    cases hp : (w port).peers[i]? with
    | none =>
      have hi : (w port).peers.length ≤ i := by
        by_contra hlt
        have hlt2 : i < (w port).peers.length := by omega
        rw [List.getElem?_eq_getElem hlt2] at hp
        exact absurd hp (by simp)
      rw [if_pos (by omega), List.drop_of_length_le hi]
      rfl
    | some peer =>
      obtain ⟨hi, hget⟩ := List.getElem?_eq_some.mp hp
      have hmem : peer ∈ (w port).peers := by rw [← hget]; exact List.getElem_mem hi
      have hr := receive_buffer_quiet env user peer (hq peer hmem).1 (hq peer hmem).2 w buffer
      have hpeers := (receive_buffer_frame env w peer buffer).peers port
      simp only
      rw [hr, ih (i + 1) _ _ _ (by rw [hpeers]; exact hq), hpeers]
      by_cases hf : (w port).peers.length - i < fuel + 1
      · rw [if_pos hf, if_pos (by omega), List.drop_eq_getElem_cons hi, hget]
        rfl
      · rw [if_neg hf, if_neg (by omega)]

/-- The loop of `on_socket_condition` over peers whose user code makes no call
into the library. -/
theorem socket_condition_for_quiet (env : Env) (user : UserCode) (buffer : PinosBuffer)
    (port : PortId) (fuel i : Nat) (w : World)
    (hq : ∀ q ∈ (w port).peers, user.cb_quiet q ∧ user.notify_quiet q) :
    socket_condition_for env user buffer port fuel i w =
      if (w port).peers.length - i < fuel then
        some (socket_condition_loop env buffer ((w port).peers.drop i) w)
      else none := by
  induction fuel generalizing i w with
  | zero =>
    rw [if_neg (by omega)]
    rfl
  | succ fuel ih =>
    unfold socket_condition_for
    cases hp : (w port).peers[i]? with
    | none =>
      have hi : (w port).peers.length ≤ i := by
        by_contra hlt
        have hlt2 : i < (w port).peers.length := by omega
        rw [List.getElem?_eq_getElem hlt2] at hp
        exact absurd hp (by simp)
      rw [if_pos (by omega), List.drop_of_length_le hi]
      rfl
    | some peer =>
      obtain ⟨hi, hget⟩ := List.getElem?_eq_some.mp hp
      have hmem : peer ∈ (w port).peers := by rw [← hget]; exact List.getElem_mem hi
      have hr := receive_buffer_quiet env user peer (hq peer hmem).1 (hq peer hmem).2 w buffer
      have hpeers := (receive_buffer_frame env w peer buffer).peers port
      simp only
      rw [hr, ih (i + 1) _ (by rw [hpeers]; exact hq), hpeers]
      by_cases hf : (w port).peers.length - i < fuel + 1
      · rw [if_pos hf, if_pos (by omega), List.drop_eq_getElem_cons hi, hget]
        rfl
      · rw [if_neg hf, if_neg (by omega)]

/-- With user code that makes no call into the library on the port and on its
peers, `pinos_port_send_buffer` is the function of the sections above, or has
no result when the fuel is not more than the number of peers. -/
theorem send_buffer_quiet (env : Env) (user : UserCode) (fuel : Nat) (w : World)
    (port : PortId) (buffer : PinosBuffer) (hn : user.notify_quiet port)
    (hq : ∀ q ∈ (w port).peers, user.cb_quiet q ∧ user.notify_quiet q) :
    pinos_port_send_buffer env user fuel w port buffer =
      if (w port).peers.length < fuel then
        some (Pinos.pinos_port_send_buffer env w port buffer)
      else none := by
  unfold pinos_port_send_buffer Pinos.pinos_port_send_buffer
  have hpeers := (parse_if_control_frame w port buffer).peers port
  rw [parse_if_control_quiet user port hn]
  simp only
  rw [send_buffer_for_quiet env user buffer port fuel 0 _ _ _ (by rw [hpeers]; exact hq),
    hpeers, Nat.sub_zero, List.drop_zero]
  by_cases hf : (w port).peers.length < fuel
  · rw [if_pos hf, if_pos hf]
  · rw [if_neg hf, if_neg hf]

/-- The same for the readable case of `on_socket_condition`. -/
theorem on_socket_condition_quiet (env : Env) (user : UserCode) (fuel : Nat) (w : World)
    (port : PortId) (buffer : PinosBuffer) (hread : read_buffer env port = .ok buffer)
    (hn : user.notify_quiet port) (hcb : user.cb_quiet port)
    (hq : ∀ q ∈ (w port).peers, user.cb_quiet q ∧ user.notify_quiet q) :
    on_socket_condition env user fuel w port .G_IO_IN =
      if (w port).peers.length < fuel then
        some (Pinos.on_socket_condition env w port .G_IO_IN)
      else none := by
  unfold on_socket_condition Pinos.on_socket_condition
  have hpeers : ((Pinos.notify_buffer (Pinos.parse_if_control w port buffer).1 port
      buffer).1 port).peers = (w port).peers := by
    rw [(notify_buffer_frame _ port buffer).peers port,
      (parse_if_control_frame w port buffer).peers port]
  simp only [hread, parse_if_control_quiet user port hn, notify_buffer_quiet user port hcb]
  rw [socket_condition_for_quiet env user buffer port fuel 0 _
    (by rw [hpeers]; exact hq), hpeers, Nat.sub_zero, List.drop_zero]
  by_cases hf : (w port).peers.length < fuel
  · rw [if_pos hf, if_pos hf]
  · rw [if_neg hf, if_neg hf]

/-- C12, as stated, fails: port 0 has the peers 1 and 2, and the
received-buffer callback of port 1 unlinks port 1 from port 0. The loops read
the peer array again in every round: after the delivery to port 1 the array of
port 0 holds port 2 alone, at index 0, the loop is at index 1 and ends. Port 2
is still a peer of port 0 and is handed no buffer, in
`pinos_port_send_buffer` and in `on_socket_condition` alike. -/
theorem fan_out_skips_peer_after_unlink :
    (run env0 (init_world cfg0) ops_fan_out_callback 0).peers = [1, 2] ∧
    (pinos_port_send_buffer env0 user_unlinks_in_callback 3
      (run env0 (init_world cfg0) ops_fan_out_callback) 0 buf0).map
      (fun o => (deliveries o.log, (o.ports 0).peers, (o.ports 2).peers)) =
      some ([(1, buf0)], [2], [0]) ∧
    read_buffer env_epipe 0 = .ok buf0 ∧
    (on_socket_condition env_epipe user_unlinks_in_callback 3
      (run env0 (init_world cfg0) ops_fan_out_callback) 0 .G_IO_IN).map
      (fun o => (deliveries o.log, (o.ports 0).peers, (o.ports 2).peers)) =
      some ([(1, buf0)], [2], [0]) :=
  ⟨by decide, by decide, rfl, by decide⟩

/-- C12, amended: fan-out reaches every peer in the order of the peer array
when no user code that runs during it calls into the library. With handlers of
`notify::format` on the port and on its peers and received-buffer callbacks on
its peers that make no call into the library, `pinos_port_send_buffer` returns
(any fuel above the number of peers is enough) and has handed the buffer to
the peers in index order, each as often as it stands in the array; a peer that
is itself in the middle of a delivery refuses at the queue check, and neither
that nor a failed write on a peer stops the loop. The same holds of the
readable case of `on_socket_condition` when the callback of the port itself
makes no call into the library either. -/
theorem fan_out_in_peer_order_without_reentry (env : Env) (user : UserCode) (fuel : Nat)
    (w : World) (port : PortId) (buffer : PinosBuffer)
    (hread : read_buffer env port = .ok buffer)
    (hn : user.notify_quiet port)
    (hq : ∀ q ∈ (w port).peers, user.cb_quiet q ∧ user.notify_quiet q)
    (hfuel : (w port).peers.length < fuel) :
    (pinos_port_send_buffer env user fuel w port buffer).map (fun o => deliveries o.log) =
      some ((free_peers w (w port).peers).map (fun q => (q, buffer))) ∧
    (user.cb_quiet port →
      (on_socket_condition env user fuel w port .G_IO_IN).map (fun o => deliveries o.log) =
        some ((free_peers (heap_at_fan_out w port buffer) (w port).peers).map
          (fun q => (q, buffer)))) := by
  have hold := fan_out_in_peer_order env w port buffer hread
  refine ⟨?_, fun hcb => ?_⟩
  · rw [send_buffer_quiet env user fuel w port buffer hn hq, if_pos hfuel]
    simp only [Option.map_some']
    rw [hold.1]
  · rw [on_socket_condition_quiet env user fuel w port buffer hread hn hcb hq, if_pos hfuel]
    simp only [Option.map_some']
    rw [hold.2.1]

theorem fan_out_in_peer_order_without_reentry_witness :
    (pinos_port_send_buffer env_epipe user0 3 (run env0 (init_world cfg0) ops_fan_out) 0
      buf0).map (fun o => deliveries o.log) =
      some ((free_peers (run env0 (init_world cfg0) ops_fan_out)
        (run env0 (init_world cfg0) ops_fan_out 0).peers).map (fun q => (q, buf0))) ∧
    (free_peers (run env0 (init_world cfg0) ops_fan_out)
        (run env0 (init_world cfg0) ops_fan_out 0).peers).map (fun q => (q, buf0))
      = [(1, buf0), (2, buf0)] ∧
    (Pinos.pinos_port_receive_buffer env_epipe (run env0 (init_world cfg0) ops_fan_out) 1
      buf0).res = false :=
  ⟨(fan_out_in_peer_order_without_reentry env_epipe user0 3
      (run env0 (init_world cfg0) ops_fan_out) 0 buf0 rfl (fun _ => ⟨rfl, rfl⟩)
      (fun _ _ => ⟨fun _ => ⟨rfl, rfl⟩, fun _ => ⟨rfl, rfl⟩⟩) (by decide)).1,
    by decide, by decide⟩

end Reentrant

end Pinos
